import Mathlib

/-!
# Offline-resilience core of the inventory dashboard

A shallow embedding of `static/script.js`: the IndexedDB-backed local store
(`saveToIndexedDB`, `getFromIndexedDB`, `addToSyncQueue`,
`getPendingSyncOperations`, `markAsSynced`), the drain pass
(`syncOfflineChanges`), the read paths with cache fallback and the write
handlers of the forms.

Modelling conventions.
* Asynchronous functions are run to completion, one at a time; the network is
  an arbitrary function of the calls issued so far and of the current request,
  so that every pattern of successes and failures is covered.
* `syncOfflineChanges` is also given step by step, one step per `await`
  (`DrainTask`, `Sys`), to state what holds when drains and enqueues
  interleave; run alone, the stepped drain is the pass run in one go.
* An object store is the list of its records in ascending key order, which is
  the order `getAll` returns them in.
* `db` is `none` while the database is unset and `some d` once it is open; an
  open database has the five object stores created by the upgrade step.
* DOM effects other than the notification banner, the sync badge and the three
  tables with a cache fallback (form resets, modal classes, datalists, search
  listeners) are not tracked.
-/

namespace InventoryApp

/-! ## Data model -/

/-- A business record as the backend returns it: a JSON object with its `id`
(`none` when the property is missing) and its text properties by name. The
store layer reads `id` only. -/
structure Record where
  id : Option Int
  props : List (String × String)
deriving DecidableEq, Repr

/-- The text property `k` of a record, `none` when the record has none. -/
def Record.prop (r : Record) (k : String) : Option String :=
  (r.props.find? (fun kv => kv.1 = k)).map Prod.snd

/-- One line of a sale, as pushed by the sale form (`name`, `quantity`, `price`). -/
structure SaleItem where
  name : String
  quantity : Int
  price : ℚ
deriving DecidableEq, Repr

/-- The object literals the UI sends as request bodies. A number read with
`parseInt` or `parseFloat` is `none` when it is `NaN`. -/
inductive Payload where
  | entry (name brand : String) (quantity : Option Int) (type : String)
  | reorder (name : String) (level : Option Int)
  | expense (description category : String) (amount : Option ℚ) (date notes : String)
  | sale (customer : String) (items : List SaleItem) (payment_status : String)
  | status (status : String)
deriving DecidableEq, Repr

/-- A record of the `syncQueue` object store. -/
structure QueuedOp where
  id : Nat
  method : String
  endpoint : String
  data : Payload
  timestamp : Nat
  synced : Bool
deriving DecidableEq, Repr

/-- The four object stores with key path `id` and no key generator. -/
inductive Partition where
  | inventory | sales | expenses | transactions
deriving DecidableEq, Repr

/-- An open `InventoryAppDB`: four business stores holding (key, record) pairs,
the `syncQueue` store, and the current number of its key generator. -/
structure Database where
  inventory : List (Int × Record)
  sales : List (Int × Record)
  expenses : List (Int × Record)
  transactions : List (Int × Record)
  syncQueue : List QueuedOp
  keyGen : Nat
deriving DecidableEq, Repr

/-- The database right after its first upgrade: five empty stores, key
generator at 1. -/
def Database.empty : Database :=
  { inventory := [], sales := [], expenses := [], transactions := [],
    syncQueue := [], keyGen := 1 }

/-- Content of a business store. -/
def Database.part (d : Database) : Partition → List (Int × Record)
  | .inventory => d.inventory
  | .sales => d.sales
  | .expenses => d.expenses
  | .transactions => d.transactions

/-- Replace the content of a business store. -/
def Database.setPart (d : Database) (p : Partition) (c : List (Int × Record)) : Database :=
  match p with
  | .inventory => { d with inventory := c }
  | .sales => { d with sales := c }
  | .expenses => { d with expenses := c }
  | .transactions => { d with transactions := c }

/-! ## Object-store primitives -/

/-- The effect of `store.put(v)` on the key-ordered content of a store: the
record with the same key is replaced, otherwise `v` is inserted at its place. -/
def upsert {α κ : Type} [LinearOrder κ] (key : α → κ) (v : α) : List α → List α
  | [] => [v]
  | x :: xs =>
    if key v < key x then v :: x :: xs
    else if key v = key x then v :: xs
    else x :: upsert key v xs

/-- The effect of `store.get(k)`. -/
def lookup {α κ : Type} [DecidableEq κ] (key : α → κ) (k : κ) : List α → Option α
  | [] => none
  | x :: xs => if key x = k then some x else lookup key k xs

/-- The argument of `saveToIndexedDB`: one object or an array of objects. -/
inductive Data where
  | one (r : Record)
  | many (rs : List Record)
deriving DecidableEq, Repr

/-- Exceptions of the store layer: `put` of a value whose key path yields no key. -/
inductive StoreError where
  | dataError
deriving DecidableEq, Repr

/-- One `store.put(item)` on a business store: throws when `item.id` is missing. -/
def putRecord (r : Record) (c : List (Int × Record)) : Except StoreError (List (Int × Record)) :=
  match r.id with
  | none => .error .dataError
  | some k => .ok (upsert Prod.fst (k, r) c)

/-- The loop `data.forEach(item => store.put(item))`: the puts issued before a
throw stay in the transaction, which then commits them. -/
def putAll : List Record → List (Int × Record) → Except StoreError Unit × List (Int × Record)
  | [], c => (.ok (), c)
  | r :: rs, c =>
    match putRecord r c with
    | .error e => (.error e, c)
    | .ok c1 => putAll rs c1

/-! ## Local store (script.js lines 93-183) -/

/-- Embedding of `saveToIndexedDB(storeName, data)`: nothing happens when `db`
is unset; otherwise the items are put one by one. The first component is
the settlement of the returned promise. -/
def saveToIndexedDB (storeName : Partition) (data : Data) (db : Option Database) :
    Except StoreError Unit × Option Database :=
  match db with
  | none => (.ok (), none)
  | some d =>
    match data with
    | .many items =>
      let r := putAll items (d.part storeName)
      (r.1, some (d.setPart storeName r.2))
    | .one item =>
      match putRecord item (d.part storeName) with
      | .error e => (.error e, some d)
      | .ok c => (.ok (), some (d.setPart storeName c))

/-- Embedding of `getFromIndexedDB(storeName)`. -/
def getFromIndexedDB (storeName : Partition) (db : Option Database) : List Record :=
  match db with
  | none => []
  | some d => (d.part storeName).map Prod.snd

/-- Embedding of `addToSyncQueue(method, endpoint, data)`; `now` is the value of
`new Date().getTime()`. `store.add` takes the key from the generator, writes
it into the record as `id`, and advances the generator; the generator is above
every key of the store, so the new record is the last one in key order. -/
def addToSyncQueue (method endpoint : String) (data : Payload) (now : Nat)
    (db : Option Database) : Option Database :=
  match db with
  | none => none
  | some d =>
    some { d with
      syncQueue := d.syncQueue ++
        [{ id := d.keyGen, method := method, endpoint := endpoint, data := data,
           timestamp := now, synced := false }],
      keyGen := d.keyGen + 1 }

/-- Embedding of `getPendingSyncOperations()`. -/
def getPendingSyncOperations (db : Option Database) : List QueuedOp :=
  match db with
  | none => []
  | some d => d.syncQueue.filter (fun op => !op.synced)

/-- Embedding of `markAsSynced(id)`. -/
def markAsSynced (id : Nat) (db : Option Database) : Option Database :=
  match db with
  | none => none
  | some d =>
    match lookup QueuedOp.id id d.syncQueue with
    | some operation =>
      some { d with syncQueue := upsert QueuedOp.id { operation with synced := true } d.syncQueue }
    | none => some d

/-! ## Network, environment and page state -/

/-- A call to `fetch`: the URL, the method, and the payload whose
`JSON.stringify` text is the body (`none` when no body is sent). -/
structure Request where
  url : String
  method : String
  body : Option Payload
deriving DecidableEq, Repr

/-- What `response.json()` yields: a rejection (or a value that is not an
object), an object read through its `success`, `message`, `error` and
`sale_num` properties (a missing text property is the empty text), or an
array of records. -/
inductive Body where
  | unparsable
  | result (success : Bool) (message error sale_num : String)
  | records (rs : List Record)
deriving DecidableEq, Repr

/-- The settlement of a `fetch` promise: rejected, or a response with its `ok`
flag and body. -/
inductive FetchOutcome where
  | rejected
  | response (ok : Bool) (body : Body)
deriving DecidableEq, Repr

/-- Everything outside the page: the network (a function of the calls issued so
far and of the current call), `navigator.onLine`, the clock, today's date as
`YYYY-MM-DD`, and `String.prototype.toLowerCase`. -/
structure Env where
  net : List Request → Request → FetchOutcome
  onLine : Bool
  now : Nat
  today : String
  toLowerCase : String → String

/-- One call of `showNotification(message, type)`. -/
structure Notification where
  message : String
  type : String
deriving DecidableEq, Repr

/-- Content of the `#syncStatus` element. -/
inductive Badge where
  | offline
  | syncing (message : String)
  | online
  | blank
deriving DecidableEq, Repr

/-- Content of a table body: one row per record, or a single placeholder row. -/
inductive Table where
  | rows (rs : List Record)
  | message (text : String)
deriving DecidableEq, Repr

/-- The view loaders, as started without `await` by other functions. -/
inductive Loader where
  | dashboard | inventory | transactions | salesHistory | salesRecords
  | expenses | expensesSummary
deriving DecidableEq, Repr

/-- State of the page. `log` lists the network calls issued so far and
`notifications` the banners shown so far, oldest first; `syncStatus` is `none`
when the page has no `#syncStatus` element; `salesDateFilter` is `none` when
the page has no `#salesDateFilter` element; `spawned` lists the loaders
started without being awaited. -/
structure App where
  db : Option Database
  log : List Request
  notifications : List Notification
  syncStatus : Option Badge
  inventoryTable : Table
  salesTable : Table
  expensesTable : Table
  salesDateFilter : Option String
  expenseDateFilter : String
  spawned : List Loader

/-- Embedding of `showNotification(message, type)`: the banner takes the new
text and class, replacing what it showed. -/
def showNotification (message type : String) (s : App) : App :=
  { s with notifications := s.notifications ++ [{ message := message, type := type }] }

/-- The banner left showing: the last notification. -/
def App.banner (s : App) : Option Notification :=
  s.notifications.getLast?

/-- Embedding of `updateSyncStatus(message, status)`. -/
def updateSyncStatus (message status : String) (s : App) : App :=
  match s.syncStatus with
  | none => s
  | some _ =>
    if status = "offline" then { s with syncStatus := some .offline }
    else if status = "syncing" then { s with syncStatus := some (.syncing message) }
    else if status = "synced" then { s with syncStatus := some .online }
    else { s with syncStatus := some .blank }

/-- Issue a `fetch`: the call is appended to the log and settled by the network. -/
def App.fetch (env : Env) (req : Request) (s : App) : FetchOutcome × App :=
  (env.net s.log req, { s with log := s.log ++ [req] })

/-- Start loaders without awaiting them. -/
def App.spawn (ls : List Loader) (s : App) : App :=
  { s with spawned := s.spawned ++ ls }

/-! ## Drain pass (script.js lines 186-245) -/

/-- The `fetch` issued for a queued operation. -/
def replayRequest (operation : QueuedOp) : Request :=
  { url := operation.endpoint, method := operation.method, body := some operation.data }

/-- The loop `for (const operation of pending)` of `syncOfflineChanges`: the
operation is marked only when the response is `ok`; a rejected `fetch` is
caught and logged, and the loop goes on. -/
def replayLoop (env : Env) : List QueuedOp → App → App
  | [], s => s
  | operation :: rest, s =>
    match s.fetch env (replayRequest operation) with
    | (.response true _, s1) =>
      replayLoop env rest { s1 with db := markAsSynced operation.id s1.db }
    | (.response false _, s1) => replayLoop env rest s1
    | (.rejected, s1) => replayLoop env rest s1

/-- Embedding of `syncOfflineChanges()`. -/
def syncOfflineChanges (env : Env) (s : App) : App :=
  let pending := getPendingSyncOperations s.db
  if pending.length = 0 then s
  else
    let s1 := updateSyncStatus ("Syncing " ++ toString pending.length ++ " changes...") "syncing" s
    let s2 := replayLoop env pending s1
    let s3 := updateSyncStatus "" "synced" s2
    s3.spawn [.dashboard, .inventory, .salesHistory, .expenses]

/-- The `online` listener of `window`. -/
def onOnline (env : Env) (s : App) : App :=
  syncOfflineChanges env (updateSyncStatus "Syncing..." "syncing" s)

/-- The `offline` listener of `window`. -/
def onOffline (s : App) : App :=
  updateSyncStatus "Offline" "offline" s

/-! ## Read paths with cache fallback (script.js lines 378-455, 739-806, 1131-1220) -/

/-- The JSON value of a response as the argument of `saveToIndexedDB`: an array
of records, or a single object (a result object has no `id`). -/
def Body.toData : Body → Option Data
  | .unparsable => none
  | .result _ _ _ _ => some (.one { id := none, props := [] })
  | .records rs => some (.many rs)

/-- The `catch` branch of `loadInventory`: the table is filled from the mirror
and, whatever the mirror holds, the branch ends with the error banner. -/
def loadInventoryFallback (s : App) : App :=
  let products := getFromIndexedDB .inventory s.db
  let s1 :=
    if products.length > 0 then
      showNotification "Showing cached inventory - offline mode" "warning"
        { s with inventoryTable := .rows products }
    else { s with inventoryTable := .message "No cached inventory available" }
  showNotification "Error loading inventory" "error" s1

/-- Embedding of `loadInventory()`. A body that is not an array makes
`products.map` throw, after the attempt to save it. -/
def loadInventory (env : Env) (s : App) : App :=
  match s.fetch env { url := "/api/inventory", method := "GET", body := none } with
  | (.rejected, s1) => loadInventoryFallback s1
  | (.response _ body, s1) =>
    match body.toData with
    | none => loadInventoryFallback s1
    | some data =>
      match saveToIndexedDB .inventory data s1.db with
      | (.error _, db1) => loadInventoryFallback { s1 with db := db1 }
      | (.ok _, db1) =>
        match data with
        | .one _ => loadInventoryFallback { s1 with db := db1 }
        | .many products =>
          { s1 with
            db := db1,
            inventoryTable :=
              if products.length = 0 then .message "No items in inventory"
              else .rows products }

/-- The rows of the sales table can be written: every sale has a
`payment_status` (`sale.payment_status.toLowerCase()` throws otherwise). -/
def salesRenderable (sales : List Record) : Bool :=
  sales.all (fun sale => (sale.prop "payment_status").isSome)

/-- The `catch` branch of `loadSalesHistory`; an exception raised while the
cached rows are written is not caught and leaves the page as it is. -/
def loadSalesHistoryFallback (s : App) : App :=
  let sales := getFromIndexedDB .sales s.db
  if sales.length > 0 then
    if salesRenderable sales then
      showNotification "Showing cached sales - offline mode" "warning"
        { s with salesTable := .rows sales }
    else s
  else { s with salesTable := .message "No cached sales available" }

/-- The URL of a collection read with its optional `?date=` filter. -/
def dateUrl (base dateFilter : String) : String :=
  if dateFilter = "" then base else base ++ "?date=" ++ dateFilter

/-- Embedding of `loadSalesHistory()`: the date filter defaults to today when
the filter element exists and is empty. -/
def loadSalesHistory (env : Env) (s : App) : App :=
  let dateFilter :=
    match s.salesDateFilter with
    | none => ""
    | some v => if v = "" then env.today else v
  let s0 := { s with salesDateFilter := s.salesDateFilter.map (fun _ => dateFilter) }
  match s0.fetch env { url := dateUrl "/api/sales" dateFilter, method := "GET", body := none } with
  | (.rejected, s1) => loadSalesHistoryFallback s1
  | (.response _ body, s1) =>
    match body.toData with
    | none => loadSalesHistoryFallback s1
    | some data =>
      match saveToIndexedDB .sales data s1.db with
      | (.error _, db1) => loadSalesHistoryFallback { s1 with db := db1 }
      | (.ok _, db1) =>
        match data with
        | .one _ => loadSalesHistoryFallback { s1 with db := db1 }
        | .many sales =>
          if salesRenderable sales then
            { s1 with
              db := db1,
              salesTable :=
                if sales.length = 0 then .message "No sales recorded" else .rows sales }
          else loadSalesHistoryFallback { s1 with db := db1 }

/-- The `catch` branch of `loadExpenses`. -/
def loadExpensesFallback (s : App) : App :=
  let expenses := getFromIndexedDB .expenses s.db
  if expenses.length > 0 then
    showNotification "Showing cached expenses - offline mode" "warning"
      { s with expensesTable := .rows expenses }
  else { s with expensesTable := .message "No cached expenses available" }

/-- Embedding of `loadExpenses()`: an empty date filter is set to today. -/
def loadExpenses (env : Env) (s : App) : App :=
  let dateFilter := if s.expenseDateFilter = "" then env.today else s.expenseDateFilter
  let s0 := { s with expenseDateFilter := dateFilter }
  match s0.fetch env { url := dateUrl "/api/expenses" dateFilter, method := "GET", body := none } with
  | (.rejected, s1) => loadExpensesFallback s1
  | (.response _ body, s1) =>
    match body.toData with
    | none => loadExpensesFallback s1
    | some data =>
      match saveToIndexedDB .expenses data s1.db with
      | (.error _, db1) => loadExpensesFallback { s1 with db := db1 }
      | (.ok _, db1) =>
        match data with
        | .one _ => loadExpensesFallback { s1 with db := db1 }
        | .many expenses =>
          { s1 with
            db := db1,
            expensesTable :=
              if expenses.length = 0 then .message "No expenses recorded"
              else .rows expenses }

/-! ## Write handlers (script.js lines 475-563, 665-737, 874-920, 1013-1129, 1360-1415) -/

/-- The comparison `a <= b` of JavaScript on a parsed number: false on `NaN`. -/
def numLe {α : Type} [LinearOrder α] (a : Option α) (b : α) : Bool :=
  match a with
  | none => false
  | some x => decide (x ≤ b)

/-- The comparison `a < b` of JavaScript on a parsed number: false on `NaN`. -/
def numLt {α : Type} [LinearOrder α] (a : Option α) (b : α) : Bool :=
  match a with
  | none => false
  | some x => decide (x < b)

/-- Fields of the entry form: `name` and `brand` after `trim()`, `quantity`
after `parseInt`. -/
structure EntryForm where
  name : String
  brand : String
  quantity : Option Int
  type : String
deriving DecidableEq, Repr

/-- The `catch` branch of the entry-form handler. -/
def entryFormCatch (env : Env) (payload : Payload) (s : App) : App :=
  if !env.onLine then
    let s1 := { s with db := addToSyncQueue "POST" "/api/add-entry" payload env.now s.db }
    let s2 := showNotification "Entry saved offline - will sync when online" "info" s1
    updateSyncStatus "Offline" "offline" s2
  else showNotification "Error recording entry" "error" s

/-- The `submit` listener of `entryForm`. -/
def entryFormSubmit (env : Env) (f : EntryForm) (s : App) : App :=
  if f.name = "" ∨ numLe f.quantity 0 then
    showNotification "Please fill in all fields correctly" "error" s
  else
    let payload := Payload.entry f.name f.brand f.quantity f.type
    match s.fetch env { url := "/api/add-entry", method := "POST", body := some payload } with
    | (.rejected, s1) => entryFormCatch env payload s1
    | (.response _ .unparsable, s1) => entryFormCatch env payload s1
    | (.response _ (.result true message _ _), s1) =>
      (showNotification message "success" s1).spawn [.inventory, .dashboard]
    | (.response _ (.result false _ error _), s1) => showNotification error "error" s1
    | (.response _ (.records _), s1) => showNotification "" "error" s1

/-- Fields of the reorder form: `name` after `trim()`, `level` after `parseInt`. -/
structure ReorderForm where
  name : String
  level : Option Int
deriving DecidableEq, Repr

/-- The `catch` branch of the reorder-form handler: after the offline/online
branches it shows the error banner in every case. -/
def reorderFormCatch (env : Env) (payload : Payload) (s : App) : App :=
  let s3 :=
    if !env.onLine then
      let s1 := { s with db := addToSyncQueue "POST" "/api/update-reorder" payload env.now s.db }
      let s2 := showNotification "Update saved offline - will sync when online" "info" s1
      updateSyncStatus "Offline" "offline" s2
    else showNotification "Error updating reorder level" "error" s
  showNotification "Error updating reorder level" "error" s3

/-- The `submit` listener of `reorderForm`. -/
def reorderFormSubmit (env : Env) (f : ReorderForm) (s : App) : App :=
  if f.name = "" ∨ numLt f.level 0 then
    showNotification "Please fill in all fields correctly" "error" s
  else
    let payload := Payload.reorder f.name f.level
    match s.fetch env { url := "/api/update-reorder", method := "POST", body := some payload } with
    | (.rejected, s1) => reorderFormCatch env payload s1
    | (.response _ .unparsable, s1) => reorderFormCatch env payload s1
    | (.response _ (.result true _ _ _), s1) =>
      (showNotification "Reorder level updated" "success" s1).spawn [.inventory]
    | (.response _ (.result false _ _ _), s1) =>
      showNotification "Error updating reorder level" "error" s1
    | (.response _ (.records _), s1) =>
      showNotification "Error updating reorder level" "error" s1

/-- The `submit` listener of `quickReorderForm` (the modal): no validation, no
banner when the server answers `success = false`, no queueing. -/
def quickReorderFormSubmit (env : Env) (f : ReorderForm) (s : App) : App :=
  let payload := Payload.reorder f.name f.level
  match s.fetch env { url := "/api/update-reorder", method := "POST", body := some payload } with
  | (.rejected, s1) => showNotification "Error updating reorder level" "error" s1
  | (.response _ .unparsable, s1) => showNotification "Error updating reorder level" "error" s1
  | (.response _ (.result true _ _ _), s1) =>
    (showNotification "Reorder level updated" "success" s1).spawn [.inventory]
  | (.response _ (.result false _ _ _), s1) => s1
  | (.response _ (.records _), s1) => s1

/-- Fields of the expense form: texts after `trim()`, `amount` after `parseFloat`. -/
structure ExpenseForm where
  description : String
  category : String
  amount : Option ℚ
  date : String
  notes : String
deriving DecidableEq, Repr

/-- The `catch` branch of the expense-form handler. -/
def expenseFormCatch (env : Env) (payload : Payload) (s : App) : App :=
  if !env.onLine then
    let s1 := { s with db := addToSyncQueue "POST" "/api/add-expense" payload env.now s.db }
    let s2 := showNotification "Expense saved offline - will sync when online" "info" s1
    updateSyncStatus "Offline" "offline" s2
  else showNotification "Error recording expense" "error" s

/-- The `submit` listener of `expenseForm`. -/
def expenseFormSubmit (env : Env) (f : ExpenseForm) (s : App) : App :=
  if f.description = "" ∨ f.category = "" ∨ numLe f.amount 0 ∨ f.date = "" then
    showNotification "Please fill in all required fields" "error" s
  else
    let payload := Payload.expense f.description f.category f.amount f.date f.notes
    match s.fetch env { url := "/api/add-expense", method := "POST", body := some payload } with
    | (.rejected, s1) => expenseFormCatch env payload s1
    | (.response _ .unparsable, s1) => expenseFormCatch env payload s1
    | (.response _ (.result true message _ _), s1) =>
      (showNotification message "success" s1).spawn [.expenses, .expensesSummary]
    | (.response _ (.result false _ error _), s1) => showNotification error "error" s1
    | (.response _ (.records _), s1) => showNotification "" "error" s1

/-- One row of the sale form: `name` after `trim()`, `qty` after `parseInt`,
`price` after `parseFloat`. -/
structure SaleRow where
  name : String
  qty : Option Int
  price : Option ℚ
deriving DecidableEq, Repr

/-- Fields of the sale form. -/
structure SaleForm where
  customer : String
  paymentStatus : String
  rows : List SaleRow
deriving DecidableEq, Repr

/-- The item pushed for a row, when `name && qty > 0 && price >= 0` holds. -/
def SaleRow.item? (r : SaleRow) : Option SaleItem :=
  match r.qty, r.price with
  | some q, some p =>
    if r.name ≠ "" ∧ 0 < q ∧ 0 ≤ p then some { name := r.name, quantity := q, price := p }
    else none
  | _, _ => none

/-- The `catch` branch of the sale-form handler. -/
def saleFormCatch (env : Env) (payload : Payload) (s : App) : App :=
  if !env.onLine then
    let s1 := { s with db := addToSyncQueue "POST" "/api/create-sale" payload env.now s.db }
    let s2 := showNotification "Sale saved offline - will sync when online" "info" s1
    updateSyncStatus "Offline" "offline" s2
  else showNotification "Error creating sale" "error" s

/-- The sale-form handler once the inventory names are known: the rows are
collected, then the sale is posted. `invalidItem` is the last collected name
that is not in the inventory. -/
def saleFormPost (env : Env) (f : SaleForm) (inventoryItems : List String) (s : App) : App :=
  let items := f.rows.filterMap SaleRow.item?
  let invalidItem :=
    (items.filter (fun i => !(inventoryItems.contains (env.toLowerCase i.name)))).getLast?
  if items.length = 0 then showNotification "Please add at least one item" "error" s
  else
    match invalidItem with
    | some i =>
      showNotification ("Item \"" ++ i.name ++ "\" is not in the inventory list") "error" s
    | none =>
      let payload := Payload.sale f.customer items f.paymentStatus
      match s.fetch env { url := "/api/create-sale", method := "POST", body := some payload } with
      | (.rejected, s1) => saleFormCatch env payload s1
      | (.response _ .unparsable, s1) => saleFormCatch env payload s1
      | (.response _ (.result true _ _ sale_num), s1) =>
        (showNotification ("Sale created successfully! Sale #" ++ sale_num) "success" s1).spawn
          [.salesHistory, .inventory, .dashboard]
      | (.response _ (.result false _ error _), s1) => showNotification error "error" s1
      | (.response _ (.records _), s1) => showNotification "" "error" s1

/-- The lower-cased inventory names `inventoryData.map(p => p.name.toLowerCase())`;
`none` when a product has no `name` (the expression throws). -/
def inventoryNames (env : Env) (inventoryData : List Record) : Option (List String) :=
  inventoryData.mapM (fun p => (p.prop "name").map env.toLowerCase)

/-- The `submit` listener of `saleForm`: the customer is checked, the inventory
is fetched to validate the items, then the sale is posted. -/
def saleFormSubmit (env : Env) (f : SaleForm) (s : App) : App :=
  if f.customer = "" then showNotification "Please enter customer name" "error" s
  else
    match s.fetch env { url := "/api/inventory", method := "GET", body := none } with
    | (.response _ (.records inventoryData), s1) =>
      match inventoryNames env inventoryData with
      | some inventoryItems => saleFormPost env f inventoryItems s1
      | none => showNotification "Error validating items" "error" s1
    | (.response _ (.result _ _ _ _), s1) => showNotification "Error validating items" "error" s1
    | (.response _ .unparsable, s1) => showNotification "Error validating items" "error" s1
    | (.rejected, s1) => showNotification "Error validating items" "error" s1

/-- The global `deleteData`: `id` as it is written into the URL (`none` when it
is falsy) and `type`. -/
structure DeleteData where
  id : Option String
  type : String
deriving DecidableEq, Repr

/-- The URL chosen by the delete handler. -/
def deleteUrl (type id : String) : String :=
  if type = "product" then "/api/delete-product/" ++ id
  else if type = "transaction" then "/api/delete-transaction/" ++ id
  else if type = "expense" then "/api/delete-expense/" ++ id
  else if type = "sale" then "/api/delete-sale/" ++ id
  else ""

/-- The views reloaded after a successful delete. -/
def deleteReloads (type : String) : List Loader :=
  if type = "product" then [.inventory, .dashboard]
  else if type = "transaction" then [.transactions, .inventory, .dashboard]
  else if type = "expense" then [.expenses, .expensesSummary]
  else if type = "sale" then [.salesHistory, .salesRecords, .inventory, .dashboard]
  else []

/-- The `click` listener of `confirmBtn`: every failure ends with an error
banner; nothing is queued. -/
def confirmBtnClick (env : Env) (deleteData : DeleteData) (s : App) : App :=
  match deleteData.id with
  | none => s
  | some id =>
    match s.fetch env { url := deleteUrl deleteData.type id, method := "DELETE", body := none } with
    | (.rejected, s1) => showNotification "Error deleting item" "error" s1
    | (.response _ .unparsable, s1) => showNotification "Error deleting item" "error" s1
    | (.response _ (.result true message _ _), s1) =>
      (showNotification message "success" s1).spawn (deleteReloads deleteData.type)
    | (.response _ (.result false _ error _), s1) =>
      showNotification (if error = "" then "Error deleting item" else error) "error" s1
    | (.response _ (.records _), s1) => showNotification "Error deleting item" "error" s1

/-- Embedding of `quickUpdateStatus(saleNum, newStatus)`: every failure ends
with an error banner; nothing is queued. -/
def quickUpdateStatus (env : Env) (saleNum newStatus : String) (s : App) : App :=
  match s.fetch env { url := "/api/update-sale-status/" ++ saleNum, method := "POST",
                      body := some (.status newStatus) } with
  | (.rejected, s1) => showNotification "Error updating status" "error" s1
  | (.response _ .unparsable, s1) => showNotification "Error updating status" "error" s1
  | (.response _ (.result true message _ _), s1) =>
    (showNotification message "success" s1).spawn [.salesHistory, .dashboard]
  | (.response _ (.result false _ error _), s1) => showNotification error "error" s1
  | (.response _ (.records _), s1) => showNotification "" "error" s1

/-- The `submit` listener of `updateStatusForm`; `currentSaleNum` is the global
(`none` when it is `null`). -/
def updateStatusFormSubmit (env : Env) (newStatus : String) (currentSaleNum : Option String)
    (s : App) : App :=
  match currentSaleNum with
  | none => showNotification "Please select a status" "error" s
  | some saleNum =>
    if newStatus = "" ∨ saleNum = "" then showNotification "Please select a status" "error" s
    else quickUpdateStatus env saleNum newStatus s

/-! ## Specification vocabulary -/

/-- Invariant of the `syncQueue` store: the records are in strictly ascending
key order and every key is below the key generator. -/
def Database.WF (d : Database) : Prop :=
  (d.syncQueue.map QueuedOp.id).Pairwise (· < ·) ∧ ∀ op ∈ d.syncQueue, op.id < d.keyGen

instance (d : Database) : Decidable d.WF := by
  unfold Database.WF; exact inferInstance

/-- The queue with the operation of key `id` flagged as synced. -/
def markIn (id : Nat) (q : List QueuedOp) : List QueuedOp :=
  q.map (fun op => if op.id = id then { op with synced := true } else op)

/-- Whether the replay of `op`, the `i`-th operation of a pass over `pending`
that starts with the call log `log`, succeeded: the network answered the call
with a response whose `ok` flag is set. -/
def replaySucceeded (env : Env) (log : List Request) (pending : List QueuedOp) (i : Nat)
    (op : QueuedOp) : Bool :=
  match env.net (log ++ (pending.take i).map replayRequest) (replayRequest op) with
  | .response true _ => true
  | _ => false

/-- Keys of the operations that a pass over `pending` marks, in order. -/
def okIds (env : Env) (log : List Request) : List QueuedOp → List Nat
  | [] => []
  | op :: rest =>
    (match env.net log (replayRequest op) with
      | .response true _ => [op.id]
      | _ => []) ++ okIds env (log ++ [replayRequest op]) rest

/-- Marking a list of keys, one after the other. -/
def markAll (ids : List Nat) (db : Option Database) : Option Database :=
  ids.foldl (fun db id => markAsSynced id db) db

/-- A write handed to `addToSyncQueue`: its arguments and the clock reading
at that moment. -/
structure Write where
  method : String
  endpoint : String
  data : Payload
  now : Nat
deriving DecidableEq, Repr

/-- The call replayed for a queued write. -/
def writeRequest (w : Write) : Request :=
  { url := w.endpoint, method := w.method, body := some w.data }

/-- The queue partition of the store, empty while `db` is unset. -/
def queueOf (db : Option Database) : List QueuedOp :=
  match db with
  | none => []
  | some d => d.syncQueue

/-- Enqueue a list of writes one after the other. -/
def enqueueAll : List Write → Option Database → Option Database
  | [], db => db
  | w :: ws, db => enqueueAll ws (addToSyncQueue w.method w.endpoint w.data w.now db)

/-- The page right after load, with the given value of `db`: no call issued,
no banner shown, empty badge and tables. -/
def App.start (db : Option Database) : App :=
  { db := db, log := [], notifications := [], syncStatus := some .blank,
    inventoryTable := .message "", salesTable := .message "", expensesTable := .message "",
    salesDateFilter := some "", expenseDateFilter := "", spawned := [] }

/-- A network that is reachable while the browser reports online: every call
is answered `200` with `success = true`, except calls to `/api/update-reorder`,
which are rejected. -/
def flakyEnv : Env :=
  { net := fun _ req =>
      if req.url = "/api/update-reorder" then .rejected
      else .response true (.result true "ok" "" ""),
    onLine := true, now := 1700000000000, today := "2024-01-01", toLowerCase := id }

/-- Three writes A, B, C: an entry, a reorder-level update, an expense. -/
def writesABC : List Write :=
  [{ method := "POST", endpoint := "/api/add-entry",
     data := .entry "Widget" "" (some 5) "Intake", now := 7 },
   { method := "POST", endpoint := "/api/update-reorder",
     data := .reorder "Widget" (some 2), now := 8 },
   { method := "POST", endpoint := "/api/add-expense",
     data := .expense "Fuel" "Transport" (some 10) "2024-01-01" "", now := 9 }]

/-- The queue holding A, B, C as enqueued on a fresh database. -/
def queueABC : Database :=
  { Database.empty with
    syncQueue :=
      [{ id := 1, method := "POST", endpoint := "/api/add-entry",
         data := .entry "Widget" "" (some 5) "Intake", timestamp := 7, synced := false },
       { id := 2, method := "POST", endpoint := "/api/update-reorder",
         data := .reorder "Widget" (some 2), timestamp := 8, synced := false },
       { id := 3, method := "POST", endpoint := "/api/add-expense",
         data := .expense "Fuel" "Transport" (some 10) "2024-01-01" "", timestamp := 9,
         synced := false }],
    keyGen := 4 }

/-- The record of a collection that a mirror keeps under key `k`: the last
one of the collection whose `id` is `k`. -/
def mirrored (c : List Record) (k : Int) : Option Record :=
  c.reverse.find? (fun r => r.id = some k)

/-- An inventory record with the given id, name and quantity. -/
def product (id : Int) (name quantity : String) : Record :=
  { id := some id, props := [("name", name), ("quantity", quantity)] }

/-- A store whose inventory mirror holds one product, with id 1. -/
def staleDb : Database :=
  { Database.empty with inventory := [(1, product 1 "Old" "4")] }

/-- A network whose every answer is the one-product collection `[Widget (id 2)]`. -/
def freshEnv : Env :=
  { net := fun _ _ => .response true (.records [product 2 "Widget" "5"]),
    onLine := true, now := 0, today := "2024-01-01", toLowerCase := id }

/-- The content `after` of a store is the content `before` with the
collection `c` merged in by id: under every key that occurs in `c` the store
holds the last record of `c` with that id, under every other key it holds
what it held, and every stored pair whose key does not occur in `c` is
still there. -/
def MergedInto (c : List Record) (before after : List (Int × Record)) : Prop :=
  (∀ k, lookup Prod.fst k after =
    match mirrored c k with
    | some r => some (k, r)
    | none => lookup Prod.fst k before) ∧
  (∀ x ∈ before, (∀ r ∈ c, r.id ≠ some x.1) → x ∈ after)

/-- The banner left showing is an error banner. -/
def App.showsError (s : App) : Bool :=
  match s.banner with
  | some n => n.type = "error"
  | none => false

/-- A write call failed for a reason other than unreachability: it threw (the
`fetch` was rejected or the body could not be read) while the browser reports
online, or the server answered with `success = false`. -/
def failedOnline (onLine : Bool) : FetchOutcome → Bool
  | .rejected => onLine
  | .response _ .unparsable => onLine
  | .response _ (.result success _ _ _) => !success
  | .response _ (.records _) => false

/-- A write call threw: the `fetch` was rejected or the body could not be read. -/
def threw : FetchOutcome → Bool
  | .rejected => true
  | .response _ .unparsable => true
  | .response _ (.result _ _ _ _) => false
  | .response _ (.records _) => false

/-- The browser is offline and the network rejects every call. -/
def offlineEnv : Env :=
  { net := fun _ _ => .rejected, onLine := false, now := 1700000000000,
    today := "2024-01-01", toLowerCase := id }

/-- The browser reports offline, reads are still answered (with the
one-product inventory `[Widget]`), and every other call is rejected. -/
def offlineWritesEnv : Env :=
  { net := fun _ req =>
      if req.method = "GET" then .response true (.records [product 2 "Widget" "5"])
      else .rejected,
    onLine := false, now := 1700000000000, today := "2024-01-01", toLowerCase := id }

/-- The entry of the specification: `Widget`, no brand, quantity 5, `Intake`. -/
def widgetEntry : EntryForm :=
  { name := "Widget", brand := "", quantity := some 5, type := "Intake" }

/-- The body the entry form sends. -/
def EntryForm.payload (f : EntryForm) : Payload :=
  .entry f.name f.brand f.quantity f.type

/-- The call the entry form issues. -/
def EntryForm.request (f : EntryForm) : Request :=
  { url := "/api/add-entry", method := "POST", body := some f.payload }

/-- The body the reorder form sends. -/
def ReorderForm.payload (f : ReorderForm) : Payload :=
  .reorder f.name f.level

/-- The call the reorder form issues. -/
def ReorderForm.request (f : ReorderForm) : Request :=
  { url := "/api/update-reorder", method := "POST", body := some f.payload }

/-- The body the expense form sends. -/
def ExpenseForm.payload (f : ExpenseForm) : Payload :=
  .expense f.description f.category f.amount f.date f.notes

/-- The call the expense form issues. -/
def ExpenseForm.request (f : ExpenseForm) : Request :=
  { url := "/api/add-expense", method := "POST", body := some f.payload }

/-- The body the sale form sends. -/
def SaleForm.payload (f : SaleForm) : Payload :=
  .sale f.customer (f.rows.filterMap SaleRow.item?) f.paymentStatus

/-- The call the sale form issues once its checks have passed. -/
def SaleForm.request (f : SaleForm) : Request :=
  { url := "/api/create-sale", method := "POST", body := some f.payload }

/-- The read the sale form issues first, to validate the items. -/
def inventoryRequest : Request :=
  { url := "/api/inventory", method := "GET", body := none }

/-- The sale form passes its checks against the inventory names: at least one
row yields an item and every item name is in the inventory. -/
def saleItemsValid (env : Env) (f : SaleForm) (inventoryItems : List String) : Bool :=
  (f.rows.filterMap SaleRow.item?).length ≠ 0 ∧
  ((f.rows.filterMap SaleRow.item?).filter
    (fun i => !(inventoryItems.contains (env.toLowerCase i.name)))).getLast? = none

/-- The state after the call `req` has been issued. -/
def App.logged (s : App) (req : Request) : App :=
  { s with log := s.log ++ [req] }

/-- The browser reports online and the server rejects every write: reads are
answered with the one-product inventory, every other call is answered `400`
with `success = false`. -/
def rejectingEnv : Env :=
  { net := fun _ req =>
      if req.method = "GET" then .response true (.records [product 2 "Widget" "5"])
      else .response false (.result false "" "Insufficient stock" ""),
    onLine := true, now := 1700000000000, today := "2024-01-01", toLowerCase := id }

/-- A reorder-level update: `Widget`, level 2. -/
def widgetReorder : ReorderForm :=
  { name := "Widget", level := some 2 }

/-- An expense: fuel, 10. -/
def fuelExpense : ExpenseForm :=
  { description := "Fuel", category := "Transport", amount := some 10, date := "2024-01-01",
    notes := "" }

/-- A sale of one `Widget` at 10 to `Ada`. -/
def widgetSale : SaleForm :=
  { customer := "Ada", paymentStatus := "Paid",
    rows := [{ name := "Widget", qty := some 1, price := some 10 }] }

/-- A collection of three products. -/
def threeProducts : List Record :=
  [product 1 "Bolt" "40", product 2 "Widget" "5", product 3 "Nut" "12"]

/-- A reachable server whose every answer is the collection `threeProducts`. -/
def threeEnv : Env :=
  { net := fun _ _ => .response true (.records threeProducts),
    onLine := true, now := 0, today := "2024-01-01", toLowerCase := id }

/-- The call the delete handler issues for `deleteData`, when its id is set. -/
def DeleteData.request (deleteData : DeleteData) (id : String) : Request :=
  { url := deleteUrl deleteData.type id, method := "DELETE", body := none }

/-- The call `quickUpdateStatus(saleNum, newStatus)` issues. -/
def statusRequest (saleNum newStatus : String) : Request :=
  { url := "/api/update-sale-status/" ++ saleNum, method := "POST",
    body := some (.status newStatus) }

/-- Invariant of a business store: the keys are in strictly ascending order
and every record is stored under its own `id`. -/
def PartWF (c : List (Int × Record)) : Prop :=
  (c.map Prod.fst).Pairwise (· < ·) ∧ ∀ x ∈ c, x.2.id = some x.1

instance (c : List (Int × Record)) : Decidable (PartWF c) := by
  unfold PartWF; exact inferInstance

/-- A store whose inventory mirror holds the products 1 and 3. -/
def twoProductsDb : Database :=
  { Database.empty with
    inventory := [(1, product 1 "Bolt" "40"), (3, product 3 "Nut" "12")] }

/-! ## Drain passes step by step -/

/-- A call of `syncOfflineChanges` suspended at one of its `await`s:
`listing` at `await getPendingSyncOperations()`, whose read transaction was
created by the call and yields `pending`; `fetching` at `await fetch(...)` for
`operation`, with the settlement the network will give and the operations
still to replay; `marking` at `await markAsSynced(operation.id)`; `finished`
once the function has returned. -/
inductive DrainTask where
  | listing (pending : List QueuedOp)
  | fetching (operation : QueuedOp) (rest : List QueuedOp) (outcome : FetchOutcome)
  | marking (rest : List QueuedOp)
  | finished
deriving DecidableEq, Repr

/-- The loop of `syncOfflineChanges` with `rest` still to replay, run to its
next `await`: the call for the next operation is issued, or the loop is left,
the badge is set and the views are reloaded. -/
def DrainTask.next (env : Env) (rest : List QueuedOp) (s : App) : DrainTask × App :=
  match rest with
  | [] =>
    (.finished,
      (updateSyncStatus "" "synced" s).spawn [.dashboard, .inventory, .salesHistory, .expenses])
  | operation :: rest1 =>
    match s.fetch env (replayRequest operation) with
    | (outcome, s1) => (.fetching operation rest1 outcome, s1)

/-- A suspended call of `syncOfflineChanges` is resumed, because the promise
it awaits has settled, and runs to its next `await`. The write transaction
of `markAsSynced` takes effect in the order of its creation, that is, here. -/
def DrainTask.resume (env : Env) : DrainTask → App → DrainTask × App
  | .listing pending, s =>
    if pending.length = 0 then (.finished, s)
    else
      DrainTask.next env pending
        (updateSyncStatus ("Syncing " ++ toString pending.length ++ " changes...") "syncing" s)
  | .fetching operation rest outcome, s =>
    match outcome with
    | .response true _ => (.marking rest, { s with db := markAsSynced operation.id s.db })
    | .response false _ => DrainTask.next env rest s
    | .rejected => DrainTask.next env rest s
  | .marking rest, s => DrainTask.next env rest s
  | .finished, s => (.finished, s)

/-- The page together with the calls of `syncOfflineChanges` started so far,
oldest first. -/
structure Sys where
  app : App
  drains : List DrainTask

/-- What can happen between two suspensions: the `online` event of `window`
is delivered, the promise awaited by the `i`-th drain settles, or a write
handler calls `addToSyncQueue`. -/
inductive Event where
  | online
  | settle (i : Nat)
  | enqueue (w : Write)
deriving DecidableEq, Repr

/-- One event. The `online` listener sets the badge and calls
`syncOfflineChanges`, which runs to its first `await`: the pending list it
will get is the one of the store at that moment. -/
def Sys.step (env : Env) (e : Event) (sys : Sys) : Sys :=
  match e with
  | .online =>
    let app1 := updateSyncStatus "Syncing..." "syncing" sys.app
    { app := app1, drains := sys.drains ++ [.listing (getPendingSyncOperations app1.db)] }
  | .settle i =>
    match sys.drains[i]? with
    | none => sys
    | some t =>
      let r := t.resume env sys.app
      { app := r.2, drains := sys.drains.set i r.1 }
  | .enqueue w =>
    { sys with
      app := { sys.app with
        db := addToSyncQueue w.method w.endpoint w.data w.now sys.app.db } }

/-- A sequence of events, in order. -/
def Sys.run (env : Env) (evs : List Event) (sys : Sys) : Sys :=
  evs.foldl (fun sys e => sys.step env e) sys

/-- The writes enqueued by a sequence of events, in order. -/
def enqueuedWrites (evs : List Event) : List Write :=
  evs.filterMap (fun e => match e with
    | .enqueue w => some w
    | _ => none)

/-- The number of times the promise awaited by the `i`-th drain settles in a
sequence of events. -/
def settles (i : Nat) (evs : List Event) : Nat :=
  evs.count (.settle i)

/-- The write a queued operation was enqueued with. -/
def QueuedOp.write (op : QueuedOp) : Write :=
  { method := op.method, endpoint := op.endpoint, data := op.data, now := op.timestamp }

/-- A reachable server that accepts every call. -/
def okEnv : Env :=
  { net := fun _ _ => .response true (.result true "ok" "" ""),
    onLine := true, now := 1700000000000, today := "2024-01-01", toLowerCase := id }

/-- The queue holding the single pending write A. -/
def queueA : Database :=
  { Database.empty with
    syncQueue :=
      [{ id := 1, method := "POST", endpoint := "/api/add-entry",
         data := .entry "Widget" "" (some 5) "Intake", timestamp := 7, synced := false }],
    keyGen := 2 }

/-- A suspended drain resumed `n` times in a row, nothing else happening in
between. -/
def DrainTask.resumeN (env : Env) : Nat → DrainTask × App → DrainTask × App
  | 0, r => r
  | n + 1, r => DrainTask.resumeN env n (r.1.resume env r.2)

/-- The end of `syncOfflineChanges` after its loop: the badge is set and the
views are reloaded. -/
def finishPass (s : App) : App :=
  (updateSyncStatus "" "synced" s).spawn [.dashboard, .inventory, .salesHistory, .expenses]

/-- The operations a suspended drain has not issued a call for yet. -/
def DrainTask.remaining : DrainTask → List QueuedOp
  | .listing pending => pending
  | .fetching _ rest _ => rest
  | .marking rest => rest
  | .finished => []

/-- A bound on the number of times a suspended drain can still be resumed
before it has finished. -/
def DrainTask.stepsLeft : DrainTask → Nat
  | .listing pending => 2 * pending.length + 1
  | .fetching _ rest _ => 2 * rest.length + 2
  | .marking rest => 2 * rest.length + 1
  | .finished => 0

/-- Progress of a drain over the snapshot `P` that started with the call log
`log0`: the calls issued so far are those of the first `k` operations of `P`,
the others are still to come, and a finished drain has issued them all. -/
def DrainProgress (P : List QueuedOp) (log0 : List Request) (t : DrainTask) (app : App) : Prop :=
  ∃ k, k ≤ P.length ∧ app.log = log0 ++ (P.take k).map replayRequest ∧
    t.remaining = P.drop k ∧ (t = .finished → k = P.length) ∧
    (∀ op rest out, t = .fetching op rest out → op ∈ P)

/-- State of the store while a drain that started on the store `d` is under
way and the writes `ws` have been enqueued since: the queue is the queue of
`d`, with some operations marked, followed by one unsynced operation per
write of `ws`, with keys from the key generator of `d` on. -/
def QueueGrown (d : Database) (db : Option Database) (ws : List Write) : Prop :=
  ∃ d1 q1 news, db = some d1 ∧ d1.WF ∧ d.keyGen ≤ d1.keyGen ∧
    d1.syncQueue = q1 ++ news ∧ q1.map QueuedOp.id = d.syncQueue.map QueuedOp.id ∧
    (∀ op ∈ news, d.keyGen ≤ op.id ∧ op.synced = false) ∧ news.map QueuedOp.write = ws

/-- Seven settlements of the promises of the first drain, with an expense
enqueued after the first of them, that is, while the drain is suspended on
its first call. -/
def settlesWithEnqueue : List Event :=
  [.settle 0,
   .enqueue { method := "POST", endpoint := "/api/add-expense", data := fuelExpense.payload,
              now := 11 },
   .settle 0, .settle 0, .settle 0, .settle 0, .settle 0, .settle 0]

/-- Two `online` events, the second delivered while the first drain is
suspended on its network call; then the second drain reaches its own call. -/
def overlappingOnline : List Event :=
  [.online, .settle 0, .online, .settle 1]

/-- The promises of both drains settle until both have finished. -/
def bothSettle : List Event :=
  [.settle 0, .settle 1, .settle 0, .settle 1]

/-- The call that replays the write A. -/
def requestA : Request :=
  { url := "/api/add-entry", method := "POST",
    body := some (.entry "Widget" "" (some 5) "Intake") }

/-! ## Opening the database (script.js lines 54-90) -/

/-- The object stores of the database `InventoryAppDB` as the browser holds
them: each of the five stores is absent (`none`) or present with its content;
the `syncQueue` store comes with the current number of its key generator. -/
structure ObjectStores where
  inventory : Option (List (Int × Record))
  sales : Option (List (Int × Record))
  expenses : Option (List (Int × Record))
  transactions : Option (List (Int × Record))
  syncQueue : Option (List QueuedOp × Nat)
deriving DecidableEq, Repr

/-- A database without any object store. -/
def ObjectStores.blank : ObjectStores :=
  { inventory := Option.none, sales := Option.none, expenses := Option.none,
    transactions := Option.none, syncQueue := Option.none }

/-- The constant `DB_VERSION`. -/
def DB_VERSION : Nat := 1

/-- The handler `request.onupgradeneeded`: each of the five stores is created,
empty, unless `db.objectStoreNames` contains its name. -/
def onupgradeneeded (db : ObjectStores) : ObjectStores :=
  let db1 := if db.inventory.isSome then db else { db with inventory := some [] }
  let db2 := if db1.sales.isSome then db1 else { db1 with sales := some [] }
  let db3 := if db2.expenses.isSome then db2 else { db2 with expenses := some [] }
  let db4 := if db3.transactions.isSome then db3 else { db3 with transactions := some [] }
  if db4.syncQueue.isSome then db4 else { db4 with syncQueue := some ([], 1) }

/-- Why `indexedDB.open` fails: the storage is unavailable, or the database on
disk has a higher version than the one asked for. -/
inductive OpenError where
  | unavailable
  | versionError
deriving DecidableEq, Repr

/-- Embedding of `initIndexedDB()`. `disk` is what the browser holds under
the name `InventoryAppDB`: nothing, or a version and its object stores. The
upgrade handler runs when the database is new or older than `DB_VERSION`;
the first component is the settlement of the promise (the value given to
`db`), the second what the browser holds afterwards. -/
def initIndexedDB (available : Bool) (disk : Option (Nat × ObjectStores)) :
    Except OpenError ObjectStores × Option (Nat × ObjectStores) :=
  if !available then (.error .unavailable, disk)
  else
    match disk with
    | Option.none =>
      (.ok (onupgradeneeded ObjectStores.blank),
        some (DB_VERSION, onupgradeneeded ObjectStores.blank))
    | some (version, stores) =>
      if version < DB_VERSION then
        (.ok (onupgradeneeded stores), some (DB_VERSION, onupgradeneeded stores))
      else if version = DB_VERSION then (.ok stores, disk)
      else (.error .versionError, disk)

/-- The open database a set of object stores stands for, when all five stores
are present. -/
def ObjectStores.toDatabase (db : ObjectStores) : Option Database :=
  match db.inventory, db.sales, db.expenses, db.transactions, db.syncQueue with
  | some i, some s, some e, some t, some (q, g) =>
    some { inventory := i, sales := s, expenses := e, transactions := t, syncQueue := q,
           keyGen := g }
  | _, _, _, _, _ => Option.none

/-! ## Transactions view (script.js lines 566-601) -/

/-- The URL built by `loadTransactions`, without its origin: the `date`
parameter is appended when the date filter is set, the `type` parameter when
the type filter is not `All`. -/
def transactionsUrl (date type : String) : String :=
  if date = "" then
    if type = "All" then "/api/transactions" else "/api/transactions?type=" ++ type
  else
    if type = "All" then "/api/transactions?date=" ++ date
    else "/api/transactions?date=" ++ date ++ "&type=" ++ type

/-- Embedding of `loadTransactions()`; `date` and `type` are the values of the
two filter fields. The first component is what is written into the
`#transactionsTable` body, `none` when nothing is written. The function
neither writes to nor reads from the local store. -/
def loadTransactions (env : Env) (date type : String) (s : App) : Option Table × App :=
  match s.fetch env { url := transactionsUrl date type, method := "GET", body := none } with
  | (.response _ (.records transactions), s1) =>
    (some (if transactions.length = 0 then .message "No transactions found"
           else .rows transactions), s1)
  | (.response _ (.result _ _ _ _), s1) =>
    (none, showNotification "Error loading transactions" "error" s1)
  | (.response _ .unparsable, s1) =>
    (none, showNotification "Error loading transactions" "error" s1)
  | (.rejected, s1) => (none, showNotification "Error loading transactions" "error" s1)

/-- A list of three records of which the second has no `id`. -/
def missingIdRecords : List Record :=
  [product 1 "Bolt" "40", { id := none, props := [("name", "Widget")] }, product 3 "Nut" "12"]

/-! ## Service worker (service-worker.js lines 34-99) -/

/-- The body of a response in the service worker: what the server sent (as
`response.json()` will read it), the JSON object the worker builds when
offline, or a plain text. -/
inductive ResponseBody where
  | fromServer (body : Body)
  | offlineJson (success : Bool) (message : String) (offline : Bool)
  | text (t : String)
deriving DecidableEq, Repr

/-- A response: its status and its body. -/
structure Response where
  status : Nat
  body : ResponseBody
deriving DecidableEq, Repr

/-- The `ok` flag of a response: the status is in the range 200-299. -/
def Response.ok (r : Response) : Bool :=
  decide (200 ≤ r.status ∧ r.status ≤ 299)

/-- What `response.json()` yields in the page for a body. -/
def ResponseBody.read : ResponseBody → Body
  | .fromServer body => body
  | .offlineJson success message _ => .result success message "" ""
  | .text _ => .unparsable

/-- The two caches of the worker, `inventory-app-v1` (assets) and
`inventory-app-api-v1` (api), each a list of request/response pairs. -/
structure CacheStorage where
  assets : List (Request × Response)
  api : List (Request × Response)
deriving DecidableEq, Repr

/-- The effect of `cache.put(request, response)`: the entry for the same URL
is replaced. -/
def cachePut (request : Request) (response : Response) (cache : List (Request × Response)) :
    List (Request × Response) :=
  cache.filter (fun e => decide (e.1.url ≠ request.url)) ++ [(request, response)]

/-- The effect of `caches.match(request)`: the caches are searched in the
order of their creation; only a `GET` request matches. -/
def CacheStorage.matchRequest (caches : CacheStorage) (request : Request) : Option Response :=
  if request.method = "GET" then
    ((caches.assets ++ caches.api).find? (fun e => decide (e.1.url = request.url))).map Prod.snd
  else none

/-- Embedding of `handleApiRequest(request)`; `network` is the settlement of
`fetch(request)` in the worker, `none` when it is rejected. -/
def handleApiRequest (network : Option Response) (request : Request) (caches : CacheStorage) :
    Response × CacheStorage :=
  match network with
  | some response =>
    if response.ok = true ∧ request.method = "GET" then
      (response, { caches with api := cachePut request response caches.api })
    else (response, caches)
  | none =>
    match caches.matchRequest request with
    | some cachedResponse => (cachedResponse, caches)
    | none =>
      ({ status := 503,
         body := .offlineJson false "Offline - data may not be current" true }, caches)

/-- Embedding of `handleAssetRequest(request)`. The `put` of a request that
is not a `GET` is rejected by the cache and stores nothing. -/
def handleAssetRequest (network : Option Response) (request : Request) (caches : CacheStorage) :
    Response × CacheStorage :=
  match network with
  | some response =>
    if response.ok = true ∧ request.method = "GET" then
      (response, { caches with assets := cachePut request response caches.assets })
    else (response, caches)
  | none =>
    match caches.matchRequest request with
    | some cachedResponse => (cachedResponse, caches)
    | none => ({ status := 503, body := .text "Offline - page not available" }, caches)

/-- The test `s.includes(sub)` of JavaScript. -/
def includes (s sub : String) : Bool :=
  s.toList.tails.any (fun t => sub.toList.isPrefixOf t)

/-- The `fetch` listener of the worker. -/
def onFetch (network : Option Response) (request : Request) (caches : CacheStorage) :
    Response × CacheStorage :=
  if includes request.url "/api/" then handleApiRequest network request caches
  else handleAssetRequest network request caches

/-- The caches after the worker has answered the requests `todo`, the requests
`done` having been answered before; `wire` is the network as the worker sees
it, a function of the calls so far and of the current one. -/
def swCachesFrom (wire : List Request → Request → Option Response) :
    List Request → List Request → CacheStorage → CacheStorage
  | _, [], caches => caches
  | done, r :: rest, caches =>
    swCachesFrom wire (done ++ [r]) rest (onFetch (wire done r) r caches).2

/-- The network as the page sees it when the worker controls the page: every
`fetch` of the page is answered by the `fetch` listener, so it is never
rejected. -/
def behindServiceWorker (wire : List Request → Request → Option Response)
    (caches : CacheStorage) : List Request → Request → FetchOutcome :=
  fun log request =>
    let r := (onFetch (wire log request) request (swCachesFrom wire [] log caches)).1
    .response r.ok r.body.read

/-- The browser is offline, the network is unreachable, and the service
worker, with empty caches, controls the page. -/
def offlineBehindWorkerEnv : Env :=
  { net := behindServiceWorker (fun _ _ => none) { assets := [], api := [] },
    onLine := false, now := 1700000000000, today := "2024-01-01", toLowerCase := id }

/-- A reachable server whose every answer is the empty collection. -/
def emptyEnv : Env :=
  { net := fun _ _ => .response true (.records []),
    onLine := true, now := 0, today := "2024-01-01", toLowerCase := id }

/-- The entry form with the quantity field left empty: `parseInt` gives `NaN`. -/
def nanEntry : EntryForm :=
  { name := "Widget", brand := "", quantity := none, type := "Intake" }

/-- The queue holding the single write A, already synced. -/
def queueSyncedA : Database :=
  { Database.empty with
    syncQueue :=
      [{ id := 1, method := "POST", endpoint := "/api/add-entry",
         data := .entry "Widget" "" (some 5) "Intake", timestamp := 7, synced := true }],
    keyGen := 2 }

/-! ## Lemmas on the object-store primitives -/

theorem lookup_eq_none {α κ : Type} [DecidableEq κ] (key : α → κ) (k : κ) (l : List α)
    (h : ∀ x ∈ l, key x ≠ k) : lookup key k l = none := by
  induction l with
  | nil => rfl
  | cons x xs ih =>
    have hx : key x ≠ k := h x (List.mem_cons_self _ _)
    simp only [lookup, hx, if_false]
    exact ih (fun y hy => h y (List.mem_cons_of_mem _ hy))

theorem lookup_some_mem {α κ : Type} [DecidableEq κ] (key : α → κ) (k : κ) (l : List α) (x : α)
    (h : lookup key k l = some x) : x ∈ l ∧ key x = k := by
  induction l with
  | nil => simp [lookup] at h
  | cons y ys ih =>
    by_cases hy : key y = k
    · simp only [lookup, hy, if_true, Option.some.injEq] at h
      subst h
      exact ⟨List.mem_cons_self _ _, hy⟩
    · simp only [lookup, hy, if_false] at h
      exact ⟨List.mem_cons_of_mem _ (ih h).1, (ih h).2⟩

theorem lookup_of_mem_nodup {α κ : Type} [DecidableEq κ] (key : α → κ) (l : List α) (x : α)
    (hx : x ∈ l) (hnd : (l.map key).Nodup) : lookup key (key x) l = some x := by
  induction l with
  | nil => simp at hx
  | cons y ys ih =>
    simp only [List.map_cons, List.nodup_cons] at hnd
    rcases List.mem_cons.mp hx with rfl | hmem
    · simp [lookup]
    · have hne : key y ≠ key x := by
        intro heq
        exact hnd.1 (heq ▸ List.mem_map_of_mem key hmem)
      simp only [lookup, hne, if_false]
      exact ih hmem hnd.2

theorem upsert_eq_map {α κ : Type} [LinearOrder κ] (key : α → κ) (v : α) (l : List α)
    (hs : (l.map key).Pairwise (· < ·)) (hmem : key v ∈ l.map key) :
    upsert key v l = l.map (fun y => if key y = key v then v else y) := by
  induction l with
  | nil => simp at hmem
  | cons x xs ih =>
    simp only [List.map_cons, List.pairwise_cons] at hs
    by_cases hxv : key v = key x
    · have hrest : ∀ y ∈ xs, key y ≠ key x := by
        intro y hy heq
        have := hs.1 (key y) (List.mem_map_of_mem key hy)
        rw [heq] at this
        exact lt_irrefl _ this
      have hmap : xs.map (fun y => if key y = key x then v else y) = xs := by
        conv_rhs => rw [← List.map_id xs]
        apply List.map_congr_left
        intro y hy
        simp [hrest y hy]
      simp [upsert, hxv, hmap]
    · have hmem2 : key v ∈ xs.map key := by
        simp only [List.map_cons, List.mem_cons] at hmem
        rcases hmem with h | h
        · exact absurd h hxv
        · exact h
      have hlt : ¬ key v < key x := by
        intro hlt
        have := hs.1 (key v) hmem2
        exact lt_asymm hlt this
      have hxv2 : ¬ key x = key v := fun h => hxv h.symm
      simp only [upsert, hlt, hxv, if_false, List.map_cons, hxv2]
      rw [ih hs.2 hmem2]

theorem lookup_none_ne {α κ : Type} [DecidableEq κ] (key : α → κ) (k : κ) (l : List α)
    (h : lookup key k l = none) : ∀ x ∈ l, key x ≠ k := by
  induction l with
  | nil => intro x hx; simp at hx
  | cons y ys ih =>
    by_cases hy : key y = k
    · simp [lookup, hy] at h
    · simp only [lookup, hy, if_false] at h
      intro x hx
      rcases List.mem_cons.mp hx with rfl | hmem
      · exact hy
      · exact ih h x hmem

theorem nodup_of_ascending (l : List Nat) (h : l.Pairwise (· < ·)) : l.Nodup :=
  List.Pairwise.imp (fun hab => Nat.ne_of_lt hab) h

/-! ## Lemmas on the queue -/

theorem markIn_ids (id : Nat) (q : List QueuedOp) :
    (markIn id q).map QueuedOp.id = q.map QueuedOp.id := by
  unfold markIn
  rw [List.map_map]
  apply List.map_congr_left
  intro op _
  by_cases h : op.id = id <;> simp [h]

theorem markIn_of_not_mem (id : Nat) (q : List QueuedOp) (h : ∀ op ∈ q, op.id ≠ id) :
    markIn id q = q := by
  unfold markIn
  conv_rhs => rw [← List.map_id q]
  apply List.map_congr_left
  intro op hop
  simp [h op hop]

theorem markAsSynced_eq (id : Nat) (d : Database)
    (hs : (d.syncQueue.map QueuedOp.id).Pairwise (· < ·)) :
    markAsSynced id (some d) = some { d with syncQueue := markIn id d.syncQueue } := by
  cases hl : lookup QueuedOp.id id d.syncQueue with
  | none =>
    simp only [markAsSynced, hl]
    rw [markIn_of_not_mem id d.syncQueue (lookup_none_ne QueuedOp.id id d.syncQueue hl)]
  | some operation =>
    simp only [markAsSynced, hl]
    obtain ⟨hmem, hid⟩ := lookup_some_mem QueuedOp.id id d.syncQueue operation hl
    have hkey : QueuedOp.id { operation with synced := true } ∈ d.syncQueue.map QueuedOp.id := by
      show operation.id ∈ d.syncQueue.map QueuedOp.id
      exact List.mem_map_of_mem QueuedOp.id hmem
    rw [upsert_eq_map QueuedOp.id _ d.syncQueue hs hkey]
    congr 2
    unfold markIn
    apply List.map_congr_left
    intro y hy
    by_cases hyid : y.id = id
    · have hy2 := lookup_of_mem_nodup QueuedOp.id d.syncQueue y hy (nodup_of_ascending _ hs)
      rw [hyid, hl] at hy2
      have : operation = y := Option.some.inj hy2
      subst this
      simp [hyid]
    · have : ¬ y.id = operation.id := by rw [hid]; exact hyid
      simp [hyid, this]

theorem markAll_eq (ids : List Nat) (d : Database)
    (hs : (d.syncQueue.map QueuedOp.id).Pairwise (· < ·)) :
    markAll ids (some d) = some { d with
      syncQueue := d.syncQueue.map
        (fun op => if op.id ∈ ids then { op with synced := true } else op) } := by
  induction ids generalizing d with
  | nil =>
    simp [markAll]
  | cons id rest ih =>
    have hstep : markAll (id :: rest) (some d) = markAll rest (markAsSynced id (some d)) := rfl
    rw [hstep, markAsSynced_eq id d hs]
    have hs2 : (List.map QueuedOp.id
        ({ d with syncQueue := markIn id d.syncQueue } : Database).syncQueue).Pairwise (· < ·) := by
      simp only [markIn_ids]; exact hs
    rw [ih _ hs2]
    simp only [markIn, List.map_map]
    congr 2
    apply List.map_congr_left
    intro op _
    by_cases h1 : op.id = id
    · simp [h1]
    · by_cases h2 : op.id ∈ rest <;> simp [h1, h2]

theorem fetch_log (env : Env) (req : Request) (s : App) :
    (s.fetch env req).2.log = s.log ++ [req] := rfl

theorem fetch_db (env : Env) (req : Request) (s : App) :
    (s.fetch env req).2.db = s.db := rfl

theorem replayLoop_log (env : Env) (pending : List QueuedOp) (s : App) :
    (replayLoop env pending s).log = s.log ++ pending.map replayRequest := by
  induction pending generalizing s with
  | nil => simp [replayLoop]
  | cons op rest ih =>
    unfold replayLoop
    simp only [App.fetch]
    cases hnet : env.net s.log (replayRequest op) with
    | rejected => simp [ih]
    | response ok body =>
      cases ok <;> simp [ih]

theorem replayLoop_db (env : Env) (pending : List QueuedOp) (s : App) :
    (replayLoop env pending s).db = markAll (okIds env s.log pending) s.db := by
  induction pending generalizing s with
  | nil => simp [replayLoop, okIds, markAll]
  | cons op rest ih =>
    unfold replayLoop
    simp only [App.fetch, okIds]
    cases hnet : env.net s.log (replayRequest op) with
    | rejected => simp [ih]
    | response ok body =>
      cases ok
      · simp [ih]
      · simp [ih, markAll]

theorem updateSyncStatus_log (m st : String) (s : App) : (updateSyncStatus m st s).log = s.log := by
  unfold updateSyncStatus
  cases s.syncStatus with
  | none => rfl
  | some b => simp only; split_ifs <;> rfl

theorem updateSyncStatus_db (m st : String) (s : App) : (updateSyncStatus m st s).db = s.db := by
  unfold updateSyncStatus
  cases s.syncStatus with
  | none => rfl
  | some b => simp only; split_ifs <;> rfl

theorem updateSyncStatus_notifications (m st : String) (s : App) :
    (updateSyncStatus m st s).notifications = s.notifications := by
  unfold updateSyncStatus
  cases s.syncStatus with
  | none => rfl
  | some b => simp only; split_ifs <;> rfl

theorem syncOfflineChanges_log (env : Env) (s : App) :
    (syncOfflineChanges env s).log =
      s.log ++ (getPendingSyncOperations s.db).map replayRequest := by
  unfold syncOfflineChanges
  simp only
  split_ifs with h
  · rw [List.length_eq_zero.mp h]; simp
  · simp only [App.spawn, updateSyncStatus_log, replayLoop_log]

theorem syncOfflineChanges_db (env : Env) (s : App) :
    (syncOfflineChanges env s).db =
      markAll (okIds env s.log (getPendingSyncOperations s.db)) s.db := by
  unfold syncOfflineChanges
  simp only
  split_ifs with h
  · rw [List.length_eq_zero.mp h]; simp [okIds, markAll]
  · simp only [App.spawn, updateSyncStatus_db, replayLoop_db, updateSyncStatus_log]

theorem pending_ascending (d : Database) (hwf : d.WF) :
    ((getPendingSyncOperations (some d)).map QueuedOp.id).Pairwise (· < ·) := by
  unfold getPendingSyncOperations
  exact List.Pairwise.sublist ((List.filter_sublist _).map QueuedOp.id) hwf.1

theorem pending_unsynced (db : Option Database) (op : QueuedOp)
    (h : op ∈ getPendingSyncOperations db) : op.synced = false := by
  cases db with
  | none => simp [getPendingSyncOperations] at h
  | some d =>
    simp only [getPendingSyncOperations, List.mem_filter] at h
    simpa using h.2

theorem pending_mem_queue (d : Database) (op : QueuedOp)
    (h : op ∈ getPendingSyncOperations (some d)) : op ∈ d.syncQueue := by
  simp only [getPendingSyncOperations, List.mem_filter] at h
  exact h.1

theorem okIds_subset (env : Env) (log : List Request) (l : List QueuedOp) (k : Nat)
    (h : k ∈ okIds env log l) : k ∈ l.map QueuedOp.id := by
  induction l generalizing log with
  | nil => simp [okIds] at h
  | cons p rest ih =>
    simp only [okIds, List.mem_append] at h
    rcases h with h | h
    · have : k = p.id := by
        split at h
        · simpa using h
        · simp at h
      simp [this]
    · simp only [List.map_cons, List.mem_cons]
      exact Or.inr (ih _ h)

theorem mem_okIds_iff (env : Env) (log : List Request) (l : List QueuedOp)
    (hnd : (l.map QueuedOp.id).Nodup) (i : Nat) (op : QueuedOp) (hi : l[i]? = some op) :
    op.id ∈ okIds env log l ↔ replaySucceeded env log l i op = true := by
  induction l generalizing log i with
  | nil => simp at hi
  | cons p rest ih =>
    simp only [List.map_cons, List.nodup_cons] at hnd
    cases i with
    | zero =>
      simp only [List.getElem?_cons_zero, Option.some.injEq] at hi
      subst hi
      have hnot : p.id ∉ okIds env (log ++ [replayRequest p]) rest :=
        fun hin => hnd.1 (okIds_subset env _ rest p.id hin)
      simp only [okIds, List.mem_append, hnot, or_false, replaySucceeded, List.take_zero,
        List.map_nil, List.append_nil]
      cases env.net log (replayRequest p) with
      | rejected => simp
      | response ok body => cases ok <;> simp
    | succ j =>
      simp only [List.getElem?_cons_succ] at hi
      have hne : op.id ≠ p.id := by
        intro heq
        exact hnd.1 (heq ▸ List.mem_map_of_mem QueuedOp.id (List.getElem?_mem hi))
      have hhead : op.id ∉ (match env.net log (replayRequest p) with
          | .response true _ => [p.id]
          | _ => []) := by
        split
        · simpa using hne
        · simp
      have hrec := ih (log ++ [replayRequest p]) hnd.2 j hi
      simp only [okIds, List.mem_append, hhead, false_or, hrec, replaySucceeded,
        List.take_succ_cons, List.map_cons, List.append_assoc, List.singleton_append]

theorem addToSyncQueue_WF (m e : String) (data : Payload) (now : Nat) (d : Database)
    (hwf : d.WF) : ∃ d1, addToSyncQueue m e data now (some d) = some d1 ∧ d1.WF ∧
      d1.syncQueue = d.syncQueue ++
        [{ id := d.keyGen, method := m, endpoint := e, data := data, timestamp := now,
           synced := false }] ∧
      d1.keyGen = d.keyGen + 1 := by
  refine ⟨_, rfl, ⟨?_, ?_⟩, rfl, rfl⟩
  · simp only [List.map_append, List.map_cons, List.map_nil, List.pairwise_append]
    refine ⟨hwf.1, List.pairwise_singleton _ _, ?_⟩
    intro a ha b hb
    simp only [List.mem_singleton] at hb
    obtain ⟨op, hop, rfl⟩ := List.mem_map.mp ha
    rw [hb]
    exact hwf.2 op hop
  · intro op hop
    simp only [List.mem_append, List.mem_singleton] at hop
    rcases hop with h | h
    · exact Nat.lt_succ_of_lt (hwf.2 op h)
    · subst h; exact Nat.lt_succ_self _

theorem enqueueAll_spec (ws : List Write) (d : Database) (hwf : d.WF) :
    ∃ d1, enqueueAll ws (some d) = some d1 ∧ d1.WF ∧
      (getPendingSyncOperations (some d1)).map replayRequest =
        (getPendingSyncOperations (some d)).map replayRequest ++ ws.map writeRequest := by
  induction ws generalizing d with
  | nil => exact ⟨d, rfl, hwf, by simp⟩
  | cons w ws ih =>
    obtain ⟨d1, h1, hwf1, hq, _⟩ := addToSyncQueue_WF w.method w.endpoint w.data w.now d hwf
    obtain ⟨d2, h2, hwf2, hp⟩ := ih d1 hwf1
    refine ⟨d2, ?_, hwf2, ?_⟩
    · simp only [enqueueAll, h1, h2]
    · rw [hp]
      simp only [getPendingSyncOperations, hq, List.filter_append, List.map_append,
        List.map_cons, List.append_assoc]
      simp [replayRequest, writeRequest]

theorem pending_eq_filter_queueOf (db : Option Database) :
    getPendingSyncOperations db = (queueOf db).filter (fun op => !op.synced) := by
  cases db <;> rfl

theorem saveToIndexedDB_queue (p : Partition) (data : Data) (db : Option Database) :
    queueOf (saveToIndexedDB p data db).2 = queueOf db := by
  cases db with
  | none => rfl
  | some d =>
    cases data with
    | many items => cases p <;> rfl
    | one item =>
      simp only [saveToIndexedDB]
      cases putRecord item (d.part p) with
      | error e => rfl
      | ok c => cases p <;> rfl

theorem markAsSynced_WF (id : Nat) (d : Database) (hwf : d.WF) :
    ∃ d1, markAsSynced id (some d) = some d1 ∧ d1.WF := by
  refine ⟨_, markAsSynced_eq id d hwf.1, ?_, ?_⟩
  · simp only [markIn_ids]; exact hwf.1
  · intro op hop
    simp only [markIn, List.mem_map] at hop
    obtain ⟨op0, h0, rfl⟩ := hop
    have := hwf.2 op0 h0
    by_cases h : op0.id = id <;> simpa [h] using this

theorem empty_WF : Database.empty.WF := by decide

/-- The queue after a pass: the operations whose key is in `okIds` are flagged. -/
theorem syncOfflineChanges_queue (env : Env) (s : App) (d : Database) (hdb : s.db = some d)
    (hwf : d.WF) :
    (syncOfflineChanges env s).db = some { d with
      syncQueue := d.syncQueue.map (fun op =>
        if op.id ∈ okIds env s.log (getPendingSyncOperations (some d))
        then { op with synced := true } else op) } := by
  rw [syncOfflineChanges_db, hdb, markAll_eq _ d hwf.1]

theorem filter_flagged (ids : List Nat) (q : List QueuedOp) :
    (q.map (fun op => if op.id ∈ ids then { op with synced := true } else op)).filter
        (fun op => !op.synced) =
      (q.filter (fun op => !op.synced)).filter (fun op => decide (op.id ∉ ids)) := by
  induction q with
  | nil => rfl
  | cons x xs ih =>
    by_cases h1 : x.id ∈ ids
    · by_cases h2 : x.synced = true <;> simp [h1, h2, List.filter_cons, ih]
    · by_cases h2 : x.synced = true <;> simp [h1, h2, List.filter_cons, ih]

/-! ## Drain pass: order, partial failure, retry (C1-C3) -/

/-- C1 (FIFO replay). For every open store satisfying the queue invariant and
every network, one drain pass issues exactly one call per pending operation, in
queue order, whatever the outcome of each call; the queue order is the
ascending order of the auto-assigned ids; and writes enqueued one after the
other are replayed in their enqueue order, after the operations that were
already pending. -/
theorem C1_fifo_replay (env : Env) (s : App) (d : Database) (writes : List Write)
    (hdb : s.db = some d) (hwf : d.WF) :
    (syncOfflineChanges env s).log =
        s.log ++ (getPendingSyncOperations s.db).map replayRequest
    ∧ ((getPendingSyncOperations s.db).map QueuedOp.id).Pairwise (· < ·)
    ∧ (syncOfflineChanges env { s with db := enqueueAll writes s.db }).log =
        s.log ++ (getPendingSyncOperations s.db).map replayRequest ++
          writes.map writeRequest := by
  refine ⟨syncOfflineChanges_log env s, ?_, ?_⟩
  · rw [hdb]; exact pending_ascending d hwf
  · obtain ⟨d1, h1, _, hp⟩ := enqueueAll_spec writes d hwf
    rw [syncOfflineChanges_log]
    simp only [hdb, h1, hp, List.append_assoc]

/-- C1, at the fresh store with A, B, C enqueued and B's call rejected. -/
theorem C1_fifo_replay_witness :
    (App.start (some Database.empty)).db = some Database.empty ∧ Database.empty.WF ∧
    (syncOfflineChanges flakyEnv
        { App.start (some Database.empty) with
          db := enqueueAll writesABC (App.start (some Database.empty)).db }).log =
      (App.start (some Database.empty)).log ++
        (getPendingSyncOperations (App.start (some Database.empty)).db).map replayRequest ++
        writesABC.map writeRequest :=
  ⟨rfl, empty_WF,
    (C1_fifo_replay flakyEnv (App.start (some Database.empty)) Database.empty writesABC rfl
      empty_WF).2.2⟩

/-- C2 (partial-failure tolerance). For every drain pass over an open store
satisfying the queue invariant: every pending operation is attempted (one
call each, in order), and after the pass the `i`-th operation of the working
set is stored with `synced = true` when its replay succeeded and unchanged,
with `synced = false`, when its replay failed. -/
theorem C2_partial_failure (env : Env) (s : App) (d : Database) (hdb : s.db = some d)
    (hwf : d.WF) :
    ∃ d1, (syncOfflineChanges env s).db = some d1 ∧
      (syncOfflineChanges env s).log =
        s.log ++ (getPendingSyncOperations s.db).map replayRequest ∧
      ∀ (i : Nat) (op : QueuedOp), (getPendingSyncOperations s.db)[i]? = some op →
        op.synced = false ∧
        lookup QueuedOp.id op.id d1.syncQueue =
          some { op with
            synced := replaySucceeded env s.log (getPendingSyncOperations s.db) i op } := by
  refine ⟨_, syncOfflineChanges_queue env s d hdb hwf, syncOfflineChanges_log env s, ?_⟩
  intro i op hi
  rw [hdb] at hi ⊢
  have hmemP : op ∈ getPendingSyncOperations (some d) := List.getElem?_mem hi
  have hun : op.synced = false := pending_unsynced _ op hmemP
  have hmemQ : op ∈ d.syncQueue := pending_mem_queue d op hmemP
  have hnd : ((getPendingSyncOperations (some d)).map QueuedOp.id).Nodup :=
    nodup_of_ascending _ (pending_ascending d hwf)
  have hiff := mem_okIds_iff env s.log _ hnd i op hi
  refine ⟨hun, ?_⟩
  simp only
  set f : QueuedOp → QueuedOp := fun op =>
    if op.id ∈ okIds env s.log (getPendingSyncOperations (some d))
    then { op with synced := true } else op with hf
  have hfid : ∀ x, (f x).id = x.id := by
    intro x
    simp only [hf]
    split_ifs <;> rfl
  have hids : (d.syncQueue.map f).map QueuedOp.id = d.syncQueue.map QueuedOp.id := by
    rw [List.map_map]
    apply List.map_congr_left
    intro x _
    exact hfid x
  have hlk := lookup_of_mem_nodup QueuedOp.id (d.syncQueue.map f) (f op)
    (List.mem_map_of_mem f hmemQ) (by rw [hids]; exact nodup_of_ascending _ hwf.1)
  rw [hfid op] at hlk
  rw [hlk]
  congr 1
  by_cases hok : replaySucceeded env s.log (getPendingSyncOperations (some d)) i op = true
  · have hin := hiff.mpr hok
    simp only [hf, hin, if_true, hok]
  · have hnin : op.id ∉ okIds env s.log (getPendingSyncOperations (some d)) :=
      fun hin => hok (hiff.mp hin)
    have hfalse : replaySucceeded env s.log (getPendingSyncOperations (some d)) i op = false := by
      simpa using hok
    simp only [hf, hnin, if_false, hfalse]
    cases op
    simp only at hun
    simp [hun]

/-- C2, at the queue A, B, C with B's call rejected. -/
theorem C2_partial_failure_witness :
    (App.start (some queueABC)).db = some queueABC ∧ queueABC.WF ∧
    ∃ d1, (syncOfflineChanges flakyEnv (App.start (some queueABC))).db = some d1 ∧
      (syncOfflineChanges flakyEnv (App.start (some queueABC))).log =
        (App.start (some queueABC)).log ++
          (getPendingSyncOperations (App.start (some queueABC)).db).map replayRequest ∧
      ∀ (i : Nat) (op : QueuedOp), (getPendingSyncOperations (App.start (some queueABC)).db)[i]? = some op →
        op.synced = false ∧
        lookup QueuedOp.id op.id d1.syncQueue =
          some { op with
            synced := replaySucceeded flakyEnv (App.start (some queueABC)).log
              (getPendingSyncOperations (App.start (some queueABC)).db) i op } :=
  ⟨rfl, by decide, C2_partial_failure flakyEnv (App.start (some queueABC)) queueABC rfl (by decide)⟩

/-- C3 (a later pass retries only what failed). When the queue a second pass
starts from is the one the first pass left (nothing was enqueued in between;
the business partitions may have changed), the second pass attempts exactly
its pending operations, and these are exactly the operations of the first
working set whose replay failed, in the same relative order: an operation
that was marked synced is not replayed again. -/
theorem C3_retry_only_failed (env env2 : Env) (s s2 : App) (d : Database)
    (hdb : s.db = some d) (hwf : d.WF)
    (hs2 : queueOf s2.db = queueOf (syncOfflineChanges env s).db) :
    (syncOfflineChanges env2 s2).log =
        s2.log ++ (getPendingSyncOperations s2.db).map replayRequest
    ∧ (∀ op, op ∈ getPendingSyncOperations s2.db ↔
        ∃ i, (getPendingSyncOperations s.db)[i]? = some op ∧
          replaySucceeded env s.log (getPendingSyncOperations s.db) i op = false)
    ∧ (getPendingSyncOperations s2.db).Sublist (getPendingSyncOperations s.db) := by
  have hq := syncOfflineChanges_queue env s d hdb hwf
  have hp : getPendingSyncOperations s2.db =
      (getPendingSyncOperations (some d)).filter
        (fun op => decide (op.id ∉ okIds env s.log (getPendingSyncOperations (some d)))) := by
    rw [pending_eq_filter_queueOf, hs2, hq]
    simp only [getPendingSyncOperations, queueOf]
    exact filter_flagged _ _
  have hnd : ((getPendingSyncOperations (some d)).map QueuedOp.id).Nodup :=
    nodup_of_ascending _ (pending_ascending d hwf)
  refine ⟨syncOfflineChanges_log env2 s2, ?_, ?_⟩
  · intro op
    rw [hp, hdb, List.mem_filter]
    constructor
    · rintro ⟨hmem, hnot⟩
      obtain ⟨i, hi⟩ := List.mem_iff_getElem?.mp hmem
      refine ⟨i, hi, ?_⟩
      have hiff := mem_okIds_iff env s.log _ hnd i op hi
      have hnot2 : op.id ∉ okIds env s.log (getPendingSyncOperations (some d)) := by
        simpa using hnot
      cases hr : replaySucceeded env s.log (getPendingSyncOperations (some d)) i op with
      | false => rfl
      | true => exact absurd (hiff.mpr hr) hnot2
    · rintro ⟨i, hi, hfail⟩
      refine ⟨List.getElem?_mem hi, ?_⟩
      have hiff := mem_okIds_iff env s.log _ hnd i op hi
      have : op.id ∉ okIds env s.log (getPendingSyncOperations (some d)) := by
        intro hin
        rw [hiff.mp hin] at hfail
        exact Bool.noConfusion hfail
      simpa using this
  · rw [hp, hdb]
    exact List.filter_sublist _

/-- C3, at the queue A, B, C with B's call rejected in the first pass and the
inventory reloaded before the second pass. -/
theorem C3_retry_only_failed_witness :
    (App.start (some queueABC)).db = some queueABC ∧ queueABC.WF ∧
    queueOf (loadInventory threeEnv
        (syncOfflineChanges flakyEnv (App.start (some queueABC)))).db =
      queueOf (syncOfflineChanges flakyEnv (App.start (some queueABC))).db ∧
    (getPendingSyncOperations (loadInventory threeEnv
        (syncOfflineChanges flakyEnv (App.start (some queueABC)))).db).Sublist
      (getPendingSyncOperations (App.start (some queueABC)).db) ∧
    (syncOfflineChanges flakyEnv (loadInventory threeEnv
        (syncOfflineChanges flakyEnv (App.start (some queueABC))))).log =
      (loadInventory threeEnv (syncOfflineChanges flakyEnv (App.start (some queueABC)))).log ++
        (getPendingSyncOperations (loadInventory threeEnv
          (syncOfflineChanges flakyEnv (App.start (some queueABC)))).db).map replayRequest :=
  ⟨rfl, by decide, by decide,
    (C3_retry_only_failed flakyEnv flakyEnv (App.start (some queueABC))
      (loadInventory threeEnv (syncOfflineChanges flakyEnv (App.start (some queueABC))))
      queueABC rfl (by decide) (by decide)).2.2,
    (C3_retry_only_failed flakyEnv flakyEnv (App.start (some queueABC))
      (loadInventory threeEnv (syncOfflineChanges flakyEnv (App.start (some queueABC))))
      queueABC rfl (by decide) (by decide)).1⟩

/-! ## Mirroring of successful reads (C4) -/

theorem lookup_upsert {α κ : Type} [LinearOrder κ] (key : α → κ) (v : α) (k : κ) (l : List α) :
    lookup key k (upsert key v l) = if key v = k then some v else lookup key k l := by
  induction l with
  | nil => simp [upsert, lookup]
  | cons x xs ih =>
    by_cases h1 : key v < key x
    · have e : upsert key v (x :: xs) = v :: x :: xs := by simp [upsert, h1]
      rw [e]
      by_cases hk : key v = k <;> simp [lookup, hk]
    · by_cases h2 : key v = key x
      · have e : upsert key v (x :: xs) = v :: xs := by simp [upsert, h2]
        rw [e]
        by_cases hk : key v = k
        · simp [lookup, hk]
        · have hx : ¬ key x = k := fun h => hk (h2.trans h)
          simp [lookup, hk, hx]
      · have e : upsert key v (x :: xs) = x :: upsert key v xs := by simp [upsert, h1, h2]
        rw [e]
        by_cases hk : key v = k
        · have hx : ¬ key x = k := fun h => h2 (hk.trans h.symm)
          simp [lookup, hk, hx, ih]
        · by_cases hx : key x = k <;> simp [lookup, hk, hx, ih]

theorem mem_upsert_of_ne {α κ : Type} [LinearOrder κ] (key : α → κ) (v x : α) (l : List α)
    (hx : x ∈ l) (hne : key x ≠ key v) : x ∈ upsert key v l := by
  induction l with
  | nil => simp at hx
  | cons y ys ih =>
    unfold upsert
    split_ifs with h1 h2
    · exact List.mem_cons_of_mem _ hx
    · rcases List.mem_cons.mp hx with rfl | hmem
      · exact absurd h2.symm hne
      · exact List.mem_cons_of_mem _ hmem
    · rcases List.mem_cons.mp hx with rfl | hmem
      · exact List.mem_cons_self _ _
      · exact List.mem_cons_of_mem _ (ih hmem)

theorem putAll_spec (rs : List Record) (c : List (Int × Record))
    (hid : ∀ r ∈ rs, r.id.isSome = true) :
    (putAll rs c).1 = .ok () ∧
    (∀ k, lookup Prod.fst k (putAll rs c).2 =
      match mirrored rs k with
      | some r => some (k, r)
      | none => lookup Prod.fst k c) ∧
    (∀ x ∈ c, (∀ r ∈ rs, r.id ≠ some x.1) → x ∈ (putAll rs c).2) := by
  induction rs generalizing c with
  | nil =>
    refine ⟨rfl, ?_, ?_⟩
    · intro k; simp [putAll, mirrored]
    · intro x hx _; exact hx
  | cons r rs ih =>
    have hr := hid r (List.mem_cons_self _ _)
    obtain ⟨k0, hk0⟩ := Option.isSome_iff_exists.mp hr
    have hstep : putAll (r :: rs) c = putAll rs (upsert Prod.fst (k0, r) c) := by
      simp [putAll, putRecord, hk0]
    obtain ⟨h1, h2, h3⟩ := ih (upsert Prod.fst (k0, r) c)
      (fun r1 h => hid r1 (List.mem_cons_of_mem _ h))
    rw [hstep]
    refine ⟨h1, ?_, ?_⟩
    · intro k
      rw [h2 k]
      simp only [mirrored, List.reverse_cons, List.find?_append]
      cases hf : List.find? (fun r => decide (r.id = some k)) rs.reverse with
      | some r1 => simp
      | none =>
        simp only [Option.none_or, lookup_upsert]
        by_cases hk : k0 = k
        · subst hk; simp [List.find?, hk0]
        · have : ¬ r.id = some k := by rw [hk0]; simpa using hk
          simp [List.find?, this, hk]
    · intro x hx hne
      apply h3 x
      · apply mem_upsert_of_ne Prod.fst (k0, r) x c hx
        intro heq
        apply hne r (List.mem_cons_self _ _)
        rw [hk0, heq]
      · intro r1 h; exact hne r1 (List.mem_cons_of_mem _ h)

theorem part_setPart (d : Database) (p : Partition) (c : List (Int × Record)) :
    (d.setPart p c).part p = c := by
  cases p <;> rfl

theorem showNotification_db (m t : String) (s : App) : (showNotification m t s).db = s.db := rfl

theorem loadInventoryFallback_db (s : App) : (loadInventoryFallback s).db = s.db := by
  unfold loadInventoryFallback
  simp only [showNotification_db]
  split_ifs <;> rfl

theorem loadSalesHistoryFallback_db (s : App) : (loadSalesHistoryFallback s).db = s.db := by
  unfold loadSalesHistoryFallback
  simp only
  split_ifs <;> rfl

theorem loadExpensesFallback_db (s : App) : (loadExpensesFallback s).db = s.db := by
  unfold loadExpensesFallback
  simp only
  split_ifs <;> rfl

theorem loadInventory_db (env : Env) (s : App) (ok : Bool) (c : List Record)
    (hnet : ∀ req, env.net s.log req = .response ok (.records c)) :
    (loadInventory env s).db = (saveToIndexedDB .inventory (.many c) s.db).2 := by
  unfold loadInventory
  simp only [App.fetch, hnet, Body.toData]
  cases hsave : saveToIndexedDB .inventory (.many c) s.db with
  | mk r db1 =>
    cases r with
    | error e => simp [loadInventoryFallback_db]
    | ok u => simp

theorem loadSalesHistory_db (env : Env) (s : App) (ok : Bool) (c : List Record)
    (hnet : ∀ req, env.net s.log req = .response ok (.records c)) :
    (loadSalesHistory env s).db = (saveToIndexedDB .sales (.many c) s.db).2 := by
  unfold loadSalesHistory
  simp only [App.fetch, hnet, Body.toData]
  cases hsave : saveToIndexedDB .sales (.many c) s.db with
  | mk r db1 =>
    cases r with
    | error e => simp [loadSalesHistoryFallback_db]
    | ok u =>
      simp only
      split_ifs <;> simp [loadSalesHistoryFallback_db]

theorem loadExpenses_db (env : Env) (s : App) (ok : Bool) (c : List Record)
    (hnet : ∀ req, env.net s.log req = .response ok (.records c)) :
    (loadExpenses env s).db = (saveToIndexedDB .expenses (.many c) s.db).2 := by
  unfold loadExpenses
  simp only [App.fetch, hnet, Body.toData]
  cases hsave : saveToIndexedDB .expenses (.many c) s.db with
  | mk r db1 =>
    cases r with
    | error e => simp [loadExpensesFallback_db]
    | ok u => simp

theorem saveToIndexedDB_many (p : Partition) (c : List Record) (d : Database)
    (hid : ∀ r ∈ c, r.id.isSome = true) :
    ∃ d1, saveToIndexedDB p (.many c) (some d) = (.ok (), some d1) ∧
      MergedInto c (d.part p) (d1.part p) := by
  obtain ⟨h1, h2, h3⟩ := putAll_spec c (d.part p) hid
  refine ⟨d.setPart p (putAll c (d.part p)).2, ?_, ?_⟩
  · simp only [saveToIndexedDB, h1]
  · rw [part_setPart]
    exact ⟨h2, h3⟩

/-- C4, refuted as stated: the inventory mirror holds the product with id 1,
the read succeeds with the collection `[Widget (id 2)]` (the table shows it),
and afterwards the mirror holds both products, not the returned collection. -/
theorem C4_counterexample :
    (loadInventory freshEnv (App.start (some staleDb))).inventoryTable =
      .rows [product 2 "Widget" "5"] ∧
    getFromIndexedDB .inventory (loadInventory freshEnv (App.start (some staleDb))).db =
      [product 1 "Old" "4", product 2 "Widget" "5"] ∧
    getFromIndexedDB .inventory (loadInventory freshEnv (App.start (some staleDb))).db ≠
      [product 2 "Widget" "5"] := by
  decide

/-- C4 as amended (merge by id, not replace). When a read by `loadInventory`,
`loadSalesHistory` or `loadExpenses` succeeds with a collection `c` whose
records all carry an id, the partition afterwards is the prior content with
`c` merged in by id: each id of `c` maps to the last record of `c` with that
id, and every prior record whose id does not occur in `c` is still present. -/
theorem C4_mirror_merges (env : Env) (s : App) (d : Database) (ok : Bool) (c : List Record)
    (hdb : s.db = some d)
    (hnet : ∀ req, env.net s.log req = .response ok (.records c))
    (hid : ∀ r ∈ c, r.id.isSome = true) :
    (∃ d1, (loadInventory env s).db = some d1 ∧ MergedInto c d.inventory d1.inventory) ∧
    (∃ d2, (loadSalesHistory env s).db = some d2 ∧ MergedInto c d.sales d2.sales) ∧
    (∃ d3, (loadExpenses env s).db = some d3 ∧ MergedInto c d.expenses d3.expenses) := by
  refine ⟨?_, ?_, ?_⟩
  · obtain ⟨d1, h1, h2⟩ := saveToIndexedDB_many .inventory c d hid
    exact ⟨d1, by rw [loadInventory_db env s ok c hnet, hdb, h1], h2⟩
  · obtain ⟨d1, h1, h2⟩ := saveToIndexedDB_many .sales c d hid
    exact ⟨d1, by rw [loadSalesHistory_db env s ok c hnet, hdb, h1], h2⟩
  · obtain ⟨d1, h1, h2⟩ := saveToIndexedDB_many .expenses c d hid
    exact ⟨d1, by rw [loadExpenses_db env s ok c hnet, hdb, h1], h2⟩

/-- C4 as amended, at the stale inventory mirror and the one-product answer. -/
theorem C4_mirror_merges_witness :
    (App.start (some staleDb)).db = some staleDb ∧
    (∀ req, freshEnv.net (App.start (some staleDb)).log req =
      .response true (.records [product 2 "Widget" "5"])) ∧
    (∀ r ∈ [product 2 "Widget" "5"], r.id.isSome = true) ∧
    ∃ d1, (loadInventory freshEnv (App.start (some staleDb))).db = some d1 ∧
      MergedInto [product 2 "Widget" "5"] staleDb.inventory d1.inventory :=
  ⟨rfl, fun _ => rfl, by decide,
    (C4_mirror_merges freshEnv (App.start (some staleDb)) staleDb true
      [product 2 "Widget" "5"] rfl (fun _ => rfl) (by decide)).1⟩

/-! ## Write handlers: queueing and banners (C5-C8) -/

theorem banner_showNotification (m t : String) (s : App) :
    (showNotification m t s).banner = some { message := m, type := t } := by
  simp [App.banner, showNotification, List.getLast?_concat]

theorem banner_updateSyncStatus (m st : String) (s : App) :
    (updateSyncStatus m st s).banner = s.banner := by
  simp [App.banner, updateSyncStatus_notifications]

theorem showsError_showNotification (m : String) (s : App) :
    (showNotification m "error" s).showsError = true := by
  simp [App.showsError, banner_showNotification]

theorem showsError_spawn (ls : List Loader) (s : App) :
    (s.spawn ls).showsError = s.showsError := rfl

theorem entryFormCatch_offline (env : Env) (payload : Payload) (s : App)
    (hoff : env.onLine = false) :
    (entryFormCatch env payload s).db = addToSyncQueue "POST" "/api/add-entry" payload env.now s.db ∧
    (entryFormCatch env payload s).banner =
      some { message := "Entry saved offline - will sync when online", type := "info" } := by
  simp [entryFormCatch, hoff, updateSyncStatus_db, banner_updateSyncStatus,
    banner_showNotification, showNotification_db]

theorem expenseFormCatch_offline (env : Env) (payload : Payload) (s : App)
    (hoff : env.onLine = false) :
    (expenseFormCatch env payload s).db =
      addToSyncQueue "POST" "/api/add-expense" payload env.now s.db ∧
    (expenseFormCatch env payload s).banner =
      some { message := "Expense saved offline - will sync when online", type := "info" } := by
  simp [expenseFormCatch, hoff, updateSyncStatus_db, banner_updateSyncStatus,
    banner_showNotification, showNotification_db]

theorem saleFormCatch_offline (env : Env) (payload : Payload) (s : App)
    (hoff : env.onLine = false) :
    (saleFormCatch env payload s).db =
      addToSyncQueue "POST" "/api/create-sale" payload env.now s.db ∧
    (saleFormCatch env payload s).banner =
      some { message := "Sale saved offline - will sync when online", type := "info" } := by
  simp [saleFormCatch, hoff, updateSyncStatus_db, banner_updateSyncStatus,
    banner_showNotification, showNotification_db]

theorem reorderFormCatch_offline (env : Env) (payload : Payload) (s : App)
    (hoff : env.onLine = false) :
    (reorderFormCatch env payload s).db =
      addToSyncQueue "POST" "/api/update-reorder" payload env.now s.db ∧
    (reorderFormCatch env payload s).banner =
      some { message := "Error updating reorder level", type := "error" } := by
  simp [reorderFormCatch, hoff, updateSyncStatus_db, banner_showNotification,
    showNotification_db]

theorem entryFormCatch_online (env : Env) (payload : Payload) (s : App)
    (hon : env.onLine = true) :
    (entryFormCatch env payload s).db = s.db ∧
    (entryFormCatch env payload s).showsError = true := by
  simp [entryFormCatch, hon, showNotification_db, showsError_showNotification]

theorem reorderFormCatch_online (env : Env) (payload : Payload) (s : App)
    (hon : env.onLine = true) :
    (reorderFormCatch env payload s).db = s.db ∧
    (reorderFormCatch env payload s).showsError = true := by
  simp [reorderFormCatch, hon, showNotification_db, showsError_showNotification]

theorem expenseFormCatch_online (env : Env) (payload : Payload) (s : App)
    (hon : env.onLine = true) :
    (expenseFormCatch env payload s).db = s.db ∧
    (expenseFormCatch env payload s).showsError = true := by
  simp [expenseFormCatch, hon, showNotification_db, showsError_showNotification]

theorem saleFormCatch_online (env : Env) (payload : Payload) (s : App)
    (hon : env.onLine = true) :
    (saleFormCatch env payload s).db = s.db ∧
    (saleFormCatch env payload s).showsError = true := by
  simp [saleFormCatch, hon, showNotification_db, showsError_showNotification]

theorem entryFormSubmit_threw (env : Env) (f : EntryForm) (s : App) (hname : f.name ≠ "")
    (hq : numLe f.quantity 0 = false) (hfail : threw (env.net s.log f.request) = true) :
    entryFormSubmit env f s = entryFormCatch env f.payload (s.logged f.request) := by
  unfold entryFormSubmit
  simp only [hname, hq, false_or, Bool.false_eq_true, if_false, App.fetch]
  simp only [EntryForm.request, EntryForm.payload] at hfail
  generalize env.net s.log _ = out at hfail ⊢
  revert hfail
  cases out with
  | rejected => intro _; rfl
  | response ok body =>
    cases body with
    | unparsable => intro _; rfl
    | result a b c e => intro h; simp [threw] at h
    | records rs => intro h; simp [threw] at h

theorem reorderFormSubmit_threw (env : Env) (f : ReorderForm) (s : App) (hname : f.name ≠ "")
    (hq : numLt f.level 0 = false) (hfail : threw (env.net s.log f.request) = true) :
    reorderFormSubmit env f s = reorderFormCatch env f.payload (s.logged f.request) := by
  unfold reorderFormSubmit
  simp only [hname, hq, false_or, Bool.false_eq_true, if_false, App.fetch]
  simp only [ReorderForm.request, ReorderForm.payload] at hfail
  generalize env.net s.log _ = out at hfail ⊢
  revert hfail
  cases out with
  | rejected => intro _; rfl
  | response ok body =>
    cases body with
    | unparsable => intro _; rfl
    | result a b c e => intro h; simp [threw] at h
    | records rs => intro h; simp [threw] at h

theorem expenseFormSubmit_threw (env : Env) (f : ExpenseForm) (s : App)
    (hd : f.description ≠ "") (hc : f.category ≠ "") (ha : numLe f.amount 0 = false)
    (hdate : f.date ≠ "") (hfail : threw (env.net s.log f.request) = true) :
    expenseFormSubmit env f s = expenseFormCatch env f.payload (s.logged f.request) := by
  unfold expenseFormSubmit
  simp only [hd, hc, ha, hdate, false_or, Bool.false_eq_true, if_false, App.fetch]
  simp only [ExpenseForm.request, ExpenseForm.payload] at hfail
  generalize env.net s.log _ = out at hfail ⊢
  revert hfail
  cases out with
  | rejected => intro _; rfl
  | response ok body =>
    cases body with
    | unparsable => intro _; rfl
    | result a b c e => intro h; simp [threw] at h
    | records rs => intro h; simp [threw] at h

theorem saleFormPost_threw (env : Env) (f : SaleForm) (names : List String) (s : App)
    (hvalid : saleItemsValid env f names = true)
    (hfail : threw (env.net s.log f.request) = true) :
    saleFormPost env f names s = saleFormCatch env f.payload (s.logged f.request) := by
  simp only [saleItemsValid, decide_eq_true_eq] at hvalid
  unfold saleFormPost
  simp only [hvalid.1, hvalid.2, if_false, App.fetch]
  simp only [SaleForm.request, SaleForm.payload] at hfail
  generalize env.net s.log _ = out at hfail ⊢
  revert hfail
  cases out with
  | rejected => intro _; rfl
  | response ok body =>
    cases body with
    | unparsable => intro _; rfl
    | result a b c e => intro h; simp [threw] at h
    | records rs => intro h; simp [threw] at h

theorem saleFormSubmit_valid (env : Env) (f : SaleForm) (s : App) (ok : Bool)
    (inv : List Record) (names : List String) (hc : f.customer ≠ "")
    (hinv : env.net s.log inventoryRequest = .response ok (.records inv))
    (hnames : inventoryNames env inv = some names) :
    saleFormSubmit env f s = saleFormPost env f names (s.logged inventoryRequest) := by
  unfold saleFormSubmit
  simp only [inventoryRequest] at hinv
  simp only [hc, if_false, App.fetch, hinv, hnames]
  rfl

theorem entryFormSubmit_failedOnline (env : Env) (f : EntryForm) (s : App)
    (h : failedOnline env.onLine (env.net s.log f.request) = true) :
    (entryFormSubmit env f s).db = s.db ∧ (entryFormSubmit env f s).showsError = true := by
  unfold entryFormSubmit
  simp only [EntryForm.request, EntryForm.payload] at h
  split_ifs with hv
  · exact ⟨rfl, showsError_showNotification _ _⟩
  · simp only [App.fetch]
    generalize env.net s.log _ = out at h ⊢
    revert h
    cases out with
    | rejected =>
      intro h
      exact entryFormCatch_online env _ _ (by simpa [failedOnline] using h)
    | response ok body =>
      cases body with
      | unparsable =>
        intro h
        exact entryFormCatch_online env _ _ (by simpa [failedOnline] using h)
      | result a b c e =>
        intro h
        have ha : a = false := by simpa [failedOnline] using h
        subst ha
        exact ⟨rfl, showsError_showNotification _ _⟩
      | records rs => intro h; simp [failedOnline] at h

theorem reorderFormSubmit_failedOnline (env : Env) (f : ReorderForm) (s : App)
    (h : failedOnline env.onLine (env.net s.log f.request) = true) :
    (reorderFormSubmit env f s).db = s.db ∧ (reorderFormSubmit env f s).showsError = true := by
  unfold reorderFormSubmit
  simp only [ReorderForm.request, ReorderForm.payload] at h
  split_ifs with hv
  · exact ⟨rfl, showsError_showNotification _ _⟩
  · simp only [App.fetch]
    generalize env.net s.log _ = out at h ⊢
    revert h
    cases out with
    | rejected =>
      intro h
      exact reorderFormCatch_online env _ _ (by simpa [failedOnline] using h)
    | response ok body =>
      cases body with
      | unparsable =>
        intro h
        exact reorderFormCatch_online env _ _ (by simpa [failedOnline] using h)
      | result a b c e =>
        intro h
        have ha : a = false := by simpa [failedOnline] using h
        subst ha
        exact ⟨rfl, showsError_showNotification _ _⟩
      | records rs => intro h; simp [failedOnline] at h

theorem expenseFormSubmit_failedOnline (env : Env) (f : ExpenseForm) (s : App)
    (h : failedOnline env.onLine (env.net s.log f.request) = true) :
    (expenseFormSubmit env f s).db = s.db ∧ (expenseFormSubmit env f s).showsError = true := by
  unfold expenseFormSubmit
  simp only [ExpenseForm.request, ExpenseForm.payload] at h
  split_ifs with hv
  · exact ⟨rfl, showsError_showNotification _ _⟩
  · simp only [App.fetch]
    generalize env.net s.log _ = out at h ⊢
    revert h
    cases out with
    | rejected =>
      intro h
      exact expenseFormCatch_online env _ _ (by simpa [failedOnline] using h)
    | response ok body =>
      cases body with
      | unparsable =>
        intro h
        exact expenseFormCatch_online env _ _ (by simpa [failedOnline] using h)
      | result a b c e =>
        intro h
        have ha : a = false := by simpa [failedOnline] using h
        subst ha
        exact ⟨rfl, showsError_showNotification _ _⟩
      | records rs => intro h; simp [failedOnline] at h

theorem saleFormPost_failedOnline (env : Env) (f : SaleForm) (names : List String) (s : App)
    (h : failedOnline env.onLine (env.net s.log f.request) = true) :
    (saleFormPost env f names s).db = s.db ∧
    (saleFormPost env f names s).showsError = true := by
  unfold saleFormPost
  simp only [SaleForm.request, SaleForm.payload] at h
  simp only
  split_ifs with hv
  · exact ⟨rfl, showsError_showNotification _ _⟩
  · split
    · exact ⟨rfl, showsError_showNotification _ _⟩
    · simp only [App.fetch]
      generalize env.net s.log _ = out at h ⊢
      revert h
      cases out with
      | rejected =>
        intro h
        exact saleFormCatch_online env _ _ (by simpa [failedOnline] using h)
      | response ok body =>
        cases body with
        | unparsable =>
          intro h
          exact saleFormCatch_online env _ _ (by simpa [failedOnline] using h)
        | result a b c e =>
          intro h
          have ha : a = false := by simpa [failedOnline] using h
          subst ha
          exact ⟨rfl, showsError_showNotification _ _⟩
        | records rs => intro h; simp [failedOnline] at h

theorem saleFormSubmit_failedOnline (env : Env) (f : SaleForm) (s : App)
    (h : failedOnline env.onLine (env.net (s.log ++ [inventoryRequest]) f.request) = true) :
    (saleFormSubmit env f s).db = s.db ∧ (saleFormSubmit env f s).showsError = true := by
  unfold saleFormSubmit
  split_ifs with hv
  · exact ⟨rfl, showsError_showNotification _ _⟩
  · simp only [App.fetch]
    generalize env.net s.log _ = out
    cases out with
    | rejected => exact ⟨rfl, showsError_showNotification _ _⟩
    | response ok body =>
      cases body with
      | unparsable => exact ⟨rfl, showsError_showNotification _ _⟩
      | result a b c e => exact ⟨rfl, showsError_showNotification _ _⟩
      | records rs =>
        simp only
        split
        · exact saleFormPost_failedOnline env f _ _ h
        · exact ⟨rfl, showsError_showNotification _ _⟩

/-- C5 (offline write queuing). With the store open and the browser reporting
offline, a valid entry (non-empty name, positive quantity) whose call to
`/api/add-entry` throws adds exactly one operation to the queue, with method
`POST`, endpoint `/api/add-entry`, the payload as data and `synced = false`;
that operation is pending, and the handler ends with the banner `Entry saved
offline - will sync when online` of type `info`, which is not an error. -/
theorem C5_offline_write_queued (env : Env) (s : App) (d : Database) (f : EntryForm) (q : Int)
    (hdb : s.db = some d) (hoff : env.onLine = false) (hname : f.name ≠ "")
    (hq : f.quantity = some q) (hpos : 0 < q)
    (hfail : threw (env.net s.log f.request) = true) :
    (entryFormSubmit env f s).db =
      some { d with
        syncQueue := d.syncQueue ++
          [{ id := d.keyGen, method := "POST", endpoint := "/api/add-entry",
             data := .entry f.name f.brand (some q) f.type, timestamp := env.now,
             synced := false }],
        keyGen := d.keyGen + 1 }
    ∧ getPendingSyncOperations (entryFormSubmit env f s).db =
      getPendingSyncOperations s.db ++
        [{ id := d.keyGen, method := "POST", endpoint := "/api/add-entry",
           data := .entry f.name f.brand (some q) f.type, timestamp := env.now,
           synced := false }]
    ∧ (entryFormSubmit env f s).banner =
      some { message := "Entry saved offline - will sync when online", type := "info" }
    ∧ (entryFormSubmit env f s).showsError = false := by
  have hle : numLe f.quantity 0 = false := by
    simp only [hq, numLe, decide_eq_false_iff_not, not_le]
    exact hpos
  have hred := entryFormSubmit_threw env f s hname hle hfail
  obtain ⟨h1, h2⟩ := entryFormCatch_offline env f.payload (s.logged f.request) hoff
  have hdb1 : (entryFormSubmit env f s).db =
      some { d with
        syncQueue := d.syncQueue ++
          [{ id := d.keyGen, method := "POST", endpoint := "/api/add-entry",
             data := .entry f.name f.brand (some q) f.type, timestamp := env.now,
             synced := false }],
        keyGen := d.keyGen + 1 } := by
    rw [hred, h1]
    simp only [App.logged, hdb, addToSyncQueue, EntryForm.payload, hq]
  refine ⟨hdb1, ?_, ?_, ?_⟩
  · rw [hdb1, hdb]
    simp [getPendingSyncOperations, List.filter_append]
  · rw [hred, h2]
  · rw [hred]
    simp [App.showsError, h2]

/-- C5, at the entry of the specification on a fresh store. -/
theorem C5_offline_write_queued_witness :
    (App.start (some Database.empty)).db = some Database.empty ∧ offlineEnv.onLine = false ∧
    widgetEntry.name ≠ "" ∧ widgetEntry.quantity = some 5 ∧ (0 : Int) < 5 ∧
    threw (offlineEnv.net (App.start (some Database.empty)).log widgetEntry.request) = true ∧
    (entryFormSubmit offlineEnv widgetEntry (App.start (some Database.empty))).banner =
      some { message := "Entry saved offline - will sync when online", type := "info" } :=
  ⟨rfl, rfl, by decide, rfl, by decide, rfl,
    (C5_offline_write_queued offlineEnv (App.start (some Database.empty)) Database.empty
      widgetEntry 5 rfl rfl (by decide) rfl (by decide) rfl).2.2.1⟩

/-- C6 (rejected writes are never queued). When every write call fails for a
reason other than unreachability (it throws while the browser reports online,
or the server answers `success = false`), each of the four queueing handlers
(add-entry, update-reorder, add-expense, create-sale) leaves the store, hence
the sync queue, unchanged and ends with an error banner. -/
theorem C6_rejected_writes_not_queued (env : Env) (s : App) (e : EntryForm) (r : ReorderForm)
    (x : ExpenseForm) (sale : SaleForm)
    (hbad : ∀ log req, req.method = "POST" →
      failedOnline env.onLine (env.net log req) = true) :
    ((entryFormSubmit env e s).db = s.db ∧ (entryFormSubmit env e s).showsError = true) ∧
    ((reorderFormSubmit env r s).db = s.db ∧ (reorderFormSubmit env r s).showsError = true) ∧
    ((expenseFormSubmit env x s).db = s.db ∧ (expenseFormSubmit env x s).showsError = true) ∧
    ((saleFormSubmit env sale s).db = s.db ∧ (saleFormSubmit env sale s).showsError = true) :=
  ⟨entryFormSubmit_failedOnline env e s (hbad _ _ rfl),
   reorderFormSubmit_failedOnline env r s (hbad _ _ rfl),
   expenseFormSubmit_failedOnline env x s (hbad _ _ rfl),
   saleFormSubmit_failedOnline env sale s (hbad _ _ rfl)⟩

/-- C6, on a server that answers every write with `success = false`. -/
theorem C6_rejected_writes_not_queued_witness :
    (∀ log req, req.method = "POST" →
      failedOnline rejectingEnv.onLine (rejectingEnv.net log req) = true) ∧
    ((entryFormSubmit rejectingEnv widgetEntry (App.start (some queueABC))).db =
        (App.start (some queueABC)).db ∧
      (entryFormSubmit rejectingEnv widgetEntry (App.start (some queueABC))).showsError = true) ∧
    ((saleFormSubmit rejectingEnv widgetSale (App.start (some queueABC))).db =
        (App.start (some queueABC)).db ∧
      (saleFormSubmit rejectingEnv widgetSale (App.start (some queueABC))).showsError = true) :=
  have hbad : ∀ log req, req.method = "POST" →
      failedOnline rejectingEnv.onLine (rejectingEnv.net log req) = true := by
    intro log req h
    simp [rejectingEnv, h, failedOnline]
  ⟨hbad,
    (C6_rejected_writes_not_queued rejectingEnv (App.start (some queueABC)) widgetEntry
      widgetReorder fuelExpense widgetSale hbad).1,
    (C6_rejected_writes_not_queued rejectingEnv (App.start (some queueABC)) widgetEntry
      widgetReorder fuelExpense widgetSale hbad).2.2.2⟩

theorem confirmBtnClick_db (env : Env) (deleteData : DeleteData) (s : App) :
    (confirmBtnClick env deleteData s).db = s.db := by
  unfold confirmBtnClick
  cases deleteData.id with
  | none => rfl
  | some id =>
    simp only [App.fetch]
    generalize env.net s.log _ = out
    cases out with
    | rejected => rfl
    | response ok body =>
      cases body with
      | unparsable => rfl
      | result a b c e => cases a <;> rfl
      | records rs => rfl

theorem confirmBtnClick_threw (env : Env) (deleteData : DeleteData) (id : String) (s : App)
    (hid : deleteData.id = some id)
    (h : threw (env.net s.log (deleteData.request id)) = true) :
    (confirmBtnClick env deleteData s).showsError = true := by
  unfold confirmBtnClick
  simp only [DeleteData.request] at h
  simp only [hid, App.fetch]
  generalize env.net s.log _ = out at h ⊢
  revert h
  cases out with
  | rejected => intro _; exact showsError_showNotification _ _
  | response ok body =>
    cases body with
    | unparsable => intro _; exact showsError_showNotification _ _
    | result a b c e => intro h; simp [threw] at h
    | records rs => intro h; simp [threw] at h

theorem quickUpdateStatus_db (env : Env) (saleNum newStatus : String) (s : App) :
    (quickUpdateStatus env saleNum newStatus s).db = s.db := by
  unfold quickUpdateStatus
  simp only [App.fetch]
  generalize env.net s.log _ = out
  cases out with
  | rejected => rfl
  | response ok body =>
    cases body with
    | unparsable => rfl
    | result a b c e => cases a <;> rfl
    | records rs => rfl

theorem quickUpdateStatus_threw (env : Env) (saleNum newStatus : String) (s : App)
    (h : threw (env.net s.log (statusRequest saleNum newStatus)) = true) :
    (quickUpdateStatus env saleNum newStatus s).showsError = true := by
  unfold quickUpdateStatus
  simp only [statusRequest] at h
  simp only [App.fetch]
  generalize env.net s.log _ = out at h ⊢
  revert h
  cases out with
  | rejected => intro _; exact showsError_showNotification _ _
  | response ok body =>
    cases body with
    | unparsable => intro _; exact showsError_showNotification _ _
    | result a b c e => intro h; simp [threw] at h
    | records rs => intro h; simp [threw] at h

theorem updateStatusFormSubmit_db (env : Env) (newStatus : String)
    (currentSaleNum : Option String) (s : App) :
    (updateStatusFormSubmit env newStatus currentSaleNum s).db = s.db := by
  unfold updateStatusFormSubmit
  cases currentSaleNum with
  | none => rfl
  | some saleNum =>
    simp only
    split_ifs
    · rfl
    · exact quickUpdateStatus_db env saleNum newStatus s

/-- C7, at the failing input: the reorder form with `Widget`, level 2, offline
with the call rejected. The write is enqueued, the banner `Update saved
offline - will sync when online` is shown and then replaced by the error
banner, which is the one left showing; the entry form at the like input ends
with its `saved offline` banner. -/
theorem C7_reorder_banner_is_error :
    getPendingSyncOperations
        (reorderFormSubmit offlineEnv widgetReorder (App.start (some Database.empty))).db =
      [{ id := 1, method := "POST", endpoint := "/api/update-reorder",
         data := .reorder "Widget" (some 2), timestamp := 1700000000000, synced := false }] ∧
    (reorderFormSubmit offlineEnv widgetReorder (App.start (some Database.empty))).notifications =
      [{ message := "Update saved offline - will sync when online", type := "info" },
       { message := "Error updating reorder level", type := "error" }] ∧
    (reorderFormSubmit offlineEnv widgetReorder (App.start (some Database.empty))).banner =
      some { message := "Error updating reorder level", type := "error" } ∧
    (entryFormSubmit offlineEnv widgetEntry (App.start (some Database.empty))).banner =
      some { message := "Entry saved offline - will sync when online", type := "info" } := by
  decide

/-- C8, refuted as stated: offline, with every call rejected, the delete of
product 7 and the status update of sale `S-1` issue their call, leave the
queue empty and end with an error banner. -/
theorem C8_counterexample :
    offlineEnv.onLine = false ∧
    (confirmBtnClick offlineEnv { id := some "7", type := "product" }
        (App.start (some Database.empty))).log =
      [{ url := "/api/delete-product/7", method := "DELETE", body := none }] ∧
    getPendingSyncOperations
      (confirmBtnClick offlineEnv { id := some "7", type := "product" }
        (App.start (some Database.empty))).db = [] ∧
    (confirmBtnClick offlineEnv { id := some "7", type := "product" }
        (App.start (some Database.empty))).showsError = true ∧
    (quickUpdateStatus offlineEnv "S-1" "Paid" (App.start (some Database.empty))).log =
      [{ url := "/api/update-sale-status/S-1", method := "POST",
         body := some (.status "Paid") }] ∧
    getPendingSyncOperations
      (quickUpdateStatus offlineEnv "S-1" "Paid" (App.start (some Database.empty))).db = [] ∧
    (quickUpdateStatus offlineEnv "S-1" "Paid" (App.start (some Database.empty))).showsError =
      true := by
  decide

/-- C8 as amended. While the browser is offline and every write call throws:
the add-entry, update-reorder, add-expense and create-sale form handlers,
once their input checks pass, route the write into the sync queue (the store
becomes `addToSyncQueue` of the write's method, endpoint and payload); the
delete handler and the two sale-status handlers never change the store, and
they end with an error banner whenever they issued their call. -/
theorem C8_queueing_handlers (env : Env) (s : App) (hoff : env.onLine = false)
    (hfail : ∀ log req, req.method ≠ "GET" → threw (env.net log req) = true) :
    (∀ f : EntryForm, f.name ≠ "" → numLe f.quantity 0 = false →
      (entryFormSubmit env f s).db =
        addToSyncQueue "POST" "/api/add-entry" f.payload env.now s.db) ∧
    (∀ f : ReorderForm, f.name ≠ "" → numLt f.level 0 = false →
      (reorderFormSubmit env f s).db =
        addToSyncQueue "POST" "/api/update-reorder" f.payload env.now s.db) ∧
    (∀ f : ExpenseForm, f.description ≠ "" → f.category ≠ "" → numLe f.amount 0 = false →
      f.date ≠ "" →
      (expenseFormSubmit env f s).db =
        addToSyncQueue "POST" "/api/add-expense" f.payload env.now s.db) ∧
    (∀ (f : SaleForm) (ok : Bool) (inv : List Record) (names : List String),
      f.customer ≠ "" → env.net s.log inventoryRequest = .response ok (.records inv) →
      inventoryNames env inv = some names → saleItemsValid env f names = true →
      (saleFormSubmit env f s).db =
        addToSyncQueue "POST" "/api/create-sale" f.payload env.now s.db) ∧
    (∀ deleteData : DeleteData, (confirmBtnClick env deleteData s).db = s.db ∧
      (deleteData.id.isSome = true → (confirmBtnClick env deleteData s).showsError = true)) ∧
    (∀ saleNum newStatus : String, (quickUpdateStatus env saleNum newStatus s).db = s.db ∧
      (quickUpdateStatus env saleNum newStatus s).showsError = true) ∧
    (∀ (newStatus : String) (currentSaleNum : Option String),
      (updateStatusFormSubmit env newStatus currentSaleNum s).db = s.db) := by
  refine ⟨?_, ?_, ?_, ?_, ?_, ?_, ?_⟩
  · intro f hn hq
    rw [entryFormSubmit_threw env f s hn hq (hfail _ _ (by simp [EntryForm.request]))]
    exact (entryFormCatch_offline env _ _ hoff).1
  · intro f hn hq
    rw [reorderFormSubmit_threw env f s hn hq (hfail _ _ (by simp [ReorderForm.request]))]
    exact (reorderFormCatch_offline env _ _ hoff).1
  · intro f hd hc ha hdate
    rw [expenseFormSubmit_threw env f s hd hc ha hdate
      (hfail _ _ (by simp [ExpenseForm.request]))]
    exact (expenseFormCatch_offline env _ _ hoff).1
  · intro f ok inv names hc hinv hnames hvalid
    rw [saleFormSubmit_valid env f s ok inv names hc hinv hnames,
      saleFormPost_threw env f names _ hvalid (hfail _ _ (by simp [SaleForm.request]))]
    exact (saleFormCatch_offline env _ _ hoff).1
  · intro deleteData
    refine ⟨confirmBtnClick_db env deleteData s, ?_⟩
    intro hsome
    obtain ⟨id, hid⟩ := Option.isSome_iff_exists.mp hsome
    exact confirmBtnClick_threw env deleteData id s hid
      (hfail _ _ (by simp [DeleteData.request]))
  · intro saleNum newStatus
    exact ⟨quickUpdateStatus_db env saleNum newStatus s,
      quickUpdateStatus_threw env saleNum newStatus s (hfail _ _ (by simp [statusRequest]))⟩
  · intro newStatus currentSaleNum
    exact updateStatusFormSubmit_db env newStatus currentSaleNum s

/-- C8 as amended, offline with reads still answered: the sale of one `Widget`
is queued, the delete of product 7 is not. -/
theorem C8_queueing_handlers_witness :
    offlineWritesEnv.onLine = false ∧
    (∀ log req, req.method ≠ "GET" → threw (offlineWritesEnv.net log req) = true) ∧
    (saleFormSubmit offlineWritesEnv widgetSale (App.start (some Database.empty))).db =
      addToSyncQueue "POST" "/api/create-sale" widgetSale.payload offlineWritesEnv.now
        (App.start (some Database.empty)).db ∧
    (confirmBtnClick offlineWritesEnv { id := some "7", type := "product" }
      (App.start (some Database.empty))).db = (App.start (some Database.empty)).db :=
  have hfail : ∀ log req, req.method ≠ "GET" → threw (offlineWritesEnv.net log req) = true := by
    intro log req h
    simp [offlineWritesEnv, h, threw]
  ⟨rfl, hfail,
    (C8_queueing_handlers offlineWritesEnv (App.start (some Database.empty)) rfl hfail).2.2.2.1
      widgetSale true [product 2 "Widget" "5"] ["Widget"] (by decide) rfl rfl (by decide),
    ((C8_queueing_handlers offlineWritesEnv (App.start (some Database.empty)) rfl
      hfail).2.2.2.2.1 { id := some "7", type := "product" }).1⟩

/-! ## Cache fallback on a failed read (C9) -/

/-- C9, at the failing input: a successful read mirrors three products, then
the fetch of `/api/inventory` is rejected. `loadInventory` fills the table
with exactly the three mirrored records and shows the banner `Showing cached
inventory - offline mode`, then replaces it by the error banner `Error
loading inventory`, which is the one left showing; `loadExpenses` at the
like input ends with its `Showing cached` banner. -/
theorem C9_cached_banner_overwritten :
    getFromIndexedDB .inventory
        (loadInventory threeEnv (App.start (some Database.empty))).db = threeProducts ∧
    (loadInventory offlineEnv
        (loadInventory threeEnv (App.start (some Database.empty)))).inventoryTable =
      .rows threeProducts ∧
    (loadInventory offlineEnv
        (loadInventory threeEnv (App.start (some Database.empty)))).notifications =
      [{ message := "Showing cached inventory - offline mode", type := "warning" },
       { message := "Error loading inventory", type := "error" }] ∧
    (loadInventory offlineEnv
        (loadInventory threeEnv (App.start (some Database.empty)))).banner =
      some { message := "Error loading inventory", type := "error" } ∧
    (loadExpenses offlineEnv
        (loadExpenses threeEnv (App.start (some Database.empty)))).banner =
      some { message := "Showing cached expenses - offline mode", type := "warning" } := by
  decide

/-! ## Enqueue (C10) -/

/-- C10 (enqueue). On an open store satisfying the queue invariant,
`addToSyncQueue(method, endpoint, data)` appends exactly one operation to the
queue; its method, endpoint and data are the arguments, its `synced` flag is
false, its id is greater than, hence different from, the id of every
operation already in the queue; the business partitions are unchanged and
the invariant is kept. -/
theorem C10_enqueue_fresh (method endpoint : String) (data : Payload) (now : Nat)
    (d : Database) (hwf : d.WF) :
    ∃ d1 op, addToSyncQueue method endpoint data now (some d) = some d1 ∧
      d1.syncQueue = d.syncQueue ++ [op] ∧
      op.method = method ∧ op.endpoint = endpoint ∧ op.data = data ∧ op.synced = false ∧
      (∀ old ∈ d.syncQueue, old.id < op.id) ∧
      (∀ old ∈ d.syncQueue, old.id ≠ op.id) ∧
      (∀ p, d1.part p = d.part p) ∧
      d1.WF := by
  obtain ⟨d1, h1, hwf1, hq, hk⟩ := addToSyncQueue_WF method endpoint data now d hwf
  refine ⟨d1, _, h1, hq, rfl, rfl, rfl, rfl, ?_, ?_, ?_, hwf1⟩
  · intro old hold
    exact hwf.2 old hold
  · intro old hold
    exact Nat.ne_of_lt (hwf.2 old hold)
  · intro p
    have : d1 = { d with
        syncQueue := d.syncQueue ++
          [{ id := d.keyGen, method := method, endpoint := endpoint, data := data,
             timestamp := now, synced := false }],
        keyGen := d.keyGen + 1 } := by
      have h2 : addToSyncQueue method endpoint data now (some d) = some { d with
        syncQueue := d.syncQueue ++
          [{ id := d.keyGen, method := method, endpoint := endpoint, data := data,
             timestamp := now, synced := false }],
        keyGen := d.keyGen + 1 } := rfl
      rw [h1] at h2
      exact Option.some.inj h2
    rw [this]
    cases p <;> rfl

/-- C10, at the queue A, B, C. -/
theorem C10_enqueue_fresh_witness :
    queueABC.WF ∧
    ∃ d1 op, addToSyncQueue "DELETE" "/api/delete-product/7" (.status "") 9 (some queueABC) =
        some d1 ∧
      d1.syncQueue = queueABC.syncQueue ++ [op] ∧
      op.method = "DELETE" ∧ op.endpoint = "/api/delete-product/7" ∧ op.data = .status "" ∧
      op.synced = false ∧
      (∀ old ∈ queueABC.syncQueue, old.id < op.id) ∧
      (∀ old ∈ queueABC.syncQueue, old.id ≠ op.id) ∧
      (∀ p, d1.part p = queueABC.part p) ∧
      d1.WF :=
  ⟨by decide,
    C10_enqueue_fresh "DELETE" "/api/delete-product/7" (.status "") 9 queueABC (by decide)⟩

/-! ## The queue store: listing, marking, frame, retention (C11-C14) -/

theorem mem_upsert {α κ : Type} [LinearOrder κ] (key : α → κ) (v y : α) (l : List α)
    (h : y ∈ upsert key v l) : y = v ∨ y ∈ l := by
  induction l with
  | nil => simpa [upsert] using h
  | cons x xs ih =>
    by_cases h1 : key v < key x
    · have e : upsert key v (x :: xs) = v :: x :: xs := by simp [upsert, h1]
      rw [e] at h
      rcases List.mem_cons.mp h with h | h
      · exact Or.inl h
      · exact Or.inr h
    · by_cases h2 : key v = key x
      · have e : upsert key v (x :: xs) = v :: xs := by simp [upsert, h2]
        rw [e] at h
        rcases List.mem_cons.mp h with h | h
        · exact Or.inl h
        · exact Or.inr (List.mem_cons_of_mem _ h)
      · have e : upsert key v (x :: xs) = x :: upsert key v xs := by simp [upsert, h1, h2]
        rw [e] at h
        rcases List.mem_cons.mp h with h | h
        · exact Or.inr (h ▸ List.mem_cons_self _ _)
        · rcases ih h with h | h
          · exact Or.inl h
          · exact Or.inr (List.mem_cons_of_mem _ h)

theorem keys_upsert {α κ : Type} [LinearOrder κ] (key : α → κ) (v : α) (k : κ) (l : List α)
    (h : k ∈ l.map key) : k ∈ (upsert key v l).map key := by
  induction l with
  | nil => simp at h
  | cons x xs ih =>
    by_cases h1 : key v < key x
    · have e : upsert key v (x :: xs) = v :: x :: xs := by simp [upsert, h1]
      rw [e, List.map_cons]
      exact List.mem_cons_of_mem _ h
    · by_cases h2 : key v = key x
      · have e : upsert key v (x :: xs) = v :: xs := by simp [upsert, h2]
        rw [e]
        simp only [List.map_cons, List.mem_cons] at h ⊢
        rcases h with h | h
        · exact Or.inl (h.trans h2.symm)
        · exact Or.inr h
      · have e : upsert key v (x :: xs) = x :: upsert key v xs := by simp [upsert, h1, h2]
        rw [e]
        simp only [List.map_cons, List.mem_cons] at h ⊢
        rcases h with h | h
        · exact Or.inl h
        · exact Or.inr (ih h)

theorem markAsSynced_keeps_id (k id : Nat) (db : Option Database)
    (h : id ∈ (queueOf db).map QueuedOp.id) :
    id ∈ (queueOf (markAsSynced k db)).map QueuedOp.id := by
  cases db with
  | none => simp [queueOf] at h
  | some d =>
    cases hl : lookup QueuedOp.id k d.syncQueue with
    | none => simpa [markAsSynced, hl] using h
    | some operation =>
      simp only [markAsSynced, hl, queueOf]
      exact keys_upsert QueuedOp.id _ id d.syncQueue h

theorem markAll_keeps_id (ks : List Nat) (id : Nat) (db : Option Database)
    (h : id ∈ (queueOf db).map QueuedOp.id) :
    id ∈ (queueOf (markAll ks db)).map QueuedOp.id := by
  induction ks generalizing db with
  | nil => exact h
  | cons k rest ih =>
    have hstep : markAll (k :: rest) db = markAll rest (markAsSynced k db) := rfl
    rw [hstep]
    exact ih _ (markAsSynced_keeps_id k id db h)

theorem addToSyncQueue_keeps_id (m e : String) (data : Payload) (now id : Nat)
    (db : Option Database) (h : id ∈ (queueOf db).map QueuedOp.id) :
    id ∈ (queueOf (addToSyncQueue m e data now db)).map QueuedOp.id := by
  cases db with
  | none => simp [queueOf] at h
  | some d =>
    simp only [addToSyncQueue, queueOf, List.map_append, List.mem_append]
    exact Or.inl h

/-- C11 (listPending). On an open store `getPendingSyncOperations` returns
exactly the unsynced operations of the queue: an operation is returned if and
only if it is in the queue with `synced = false`, with the multiplicity it has
in the queue, and the result lists them in the order of the queue partition. -/
theorem C11_list_pending (d : Database) :
    (∀ op, op ∈ getPendingSyncOperations (some d) ↔ op ∈ d.syncQueue ∧ op.synced = false) ∧
    (∀ op, (getPendingSyncOperations (some d)).count op =
      if op.synced = true then 0 else d.syncQueue.count op) ∧
    (getPendingSyncOperations (some d)).Sublist d.syncQueue := by
  refine ⟨?_, ?_, ?_⟩
  · intro op
    simp [getPendingSyncOperations, List.mem_filter]
  · intro op
    by_cases h : op.synced = true
    · simp only [h, if_true]
      rw [List.count_eq_zero]
      intro hmem
      have := pending_unsynced (some d) op hmem
      rw [h] at this
      exact Bool.noConfusion this
    · simp only [h, if_false]
      unfold getPendingSyncOperations
      simp only
      apply List.count_filter
      simpa using h
  · exact List.filter_sublist _

/-- C12 (markSynced). On an open store satisfying the queue invariant,
`markAsSynced(id)` always yields a store; if an operation with that id is in
the queue, the queue afterwards holds that operation with `synced = true`
under the id; if no operation has that id, the store is unchanged. -/
theorem C12_mark_synced (id : Nat) (d : Database) (hwf : d.WF) :
    ∃ d1, markAsSynced id (some d) = some d1 ∧
      (∀ op ∈ d.syncQueue, op.id = id →
        { op with synced := true } ∈ d1.syncQueue ∧
        lookup QueuedOp.id id d1.syncQueue = some { op with synced := true }) ∧
      ((∀ op ∈ d.syncQueue, op.id ≠ id) → d1 = d) := by
  refine ⟨_, markAsSynced_eq id d hwf.1, ?_, ?_⟩
  · intro op hop hid
    have hmem : ({ op with synced := true } : QueuedOp) ∈ markIn id d.syncQueue := by
      unfold markIn
      refine List.mem_map.mpr ⟨op, hop, ?_⟩
      simp [hid]
    refine ⟨hmem, ?_⟩
    have hnd : ((markIn id d.syncQueue).map QueuedOp.id).Nodup := by
      rw [markIn_ids]; exact nodup_of_ascending _ hwf.1
    have := lookup_of_mem_nodup QueuedOp.id (markIn id d.syncQueue) _ hmem hnd
    simpa [hid] using this
  · intro hnone
    simp only [markIn_of_not_mem id d.syncQueue hnone]

/-- C12, at the queue A, B, C and the id of B. -/
theorem C12_mark_synced_witness :
    queueABC.WF ∧
    ∃ d1, markAsSynced 2 (some queueABC) = some d1 ∧
      (∀ op ∈ queueABC.syncQueue, op.id = 2 →
        { op with synced := true } ∈ d1.syncQueue ∧
        lookup QueuedOp.id 2 d1.syncQueue = some { op with synced := true }) ∧
      ((∀ op ∈ queueABC.syncQueue, op.id ≠ 2) → d1 = queueABC) :=
  ⟨by decide, C12_mark_synced 2 queueABC (by decide)⟩

theorem markIn_idem (id : Nat) (q : List QueuedOp) : markIn id (markIn id q) = markIn id q := by
  unfold markIn
  rw [List.map_map]
  apply List.map_congr_left
  intro op _
  by_cases h : op.id = id <;> simp [h]

theorem synced_mem_flagged (ids : List Nat) (q : List QueuedOp) (op : QueuedOp) (hop : op ∈ q)
    (hs : op.synced = true) :
    op ∈ q.map (fun op => if op.id ∈ ids then { op with synced := true } else op) := by
  refine List.mem_map.mpr ⟨op, hop, ?_⟩
  by_cases h : op.id ∈ ids
  · simp only [h, if_true]
    cases op
    simp only at hs
    simp [hs]
  · simp [h]

/-- C13 (only the synced flag changes). On an open store satisfying the queue
invariant, `markAsSynced(id)` rewrites the queue record by record: the record
with that id keeps its id, method, endpoint, data and timestamp and gets
`synced = true`, every other record is unchanged, and so are the business
partitions and the key generator; marking the same id again changes
nothing; and an operation that is synced stays in the queue as it is under
every store operation (`markAsSynced`, `addToSyncQueue`, `saveToIndexedDB`,
a drain pass), so that `synced` never goes back to false. -/
theorem C13_only_synced_flips (id : Nat) (d : Database) (hwf : d.WF) :
    markAsSynced id (some d) =
      some { d with
        syncQueue := d.syncQueue.map (fun op =>
          if op.id = id then
            { id := op.id, method := op.method, endpoint := op.endpoint, data := op.data,
              timestamp := op.timestamp, synced := true }
          else op) } ∧
    markAsSynced id (markAsSynced id (some d)) = markAsSynced id (some d) ∧
    (∀ op ∈ d.syncQueue, op.synced = true →
      (∀ k, op ∈ queueOf (markAsSynced k (some d))) ∧
      (∀ m e data now, op ∈ queueOf (addToSyncQueue m e data now (some d))) ∧
      (∀ p data, op ∈ queueOf (saveToIndexedDB p data (some d)).2) ∧
      (∀ env s, s.db = some d → op ∈ queueOf (syncOfflineChanges env s).db)) := by
  refine ⟨markAsSynced_eq id d hwf.1, ?_, ?_⟩
  · rw [markAsSynced_eq id d hwf.1]
    have hs2 : (List.map QueuedOp.id
        ({ d with syncQueue := markIn id d.syncQueue } : Database).syncQueue).Pairwise (· < ·) := by
      simp only [markIn_ids]; exact hwf.1
    rw [markAsSynced_eq id _ hs2]
    simp only [markIn_idem]
  · intro op hop hs
    refine ⟨?_, ?_, ?_, ?_⟩
    · intro k
      rw [markAsSynced_eq k d hwf.1]
      have := synced_mem_flagged [k] d.syncQueue op hop hs
      simpa [queueOf, markIn] using this
    · intro m e data now
      simp only [addToSyncQueue, queueOf, List.mem_append]
      exact Or.inl hop
    · intro p data
      rw [saveToIndexedDB_queue]
      exact hop
    · intro env s hdb
      rw [syncOfflineChanges_queue env s d hdb hwf]
      exact synced_mem_flagged _ d.syncQueue op hop hs

/-- C13, at the queue A, B, C and the id of B. -/
theorem C13_only_synced_flips_witness :
    queueABC.WF ∧
    markAsSynced 2 (markAsSynced 2 (some queueABC)) = markAsSynced 2 (some queueABC) :=
  ⟨by decide, (C13_only_synced_flips 2 queueABC (by decide)).2.1⟩

/-- C14 (queue entries are never removed). For every state of the store and
every id present in the queue partition, the id is still present after
`addToSyncQueue`, after `markAsSynced` of any id, after `saveToIndexedDB`
and after a whole drain pass. -/
theorem C14_never_removed (db : Option Database) (id : Nat)
    (h : id ∈ (queueOf db).map QueuedOp.id) :
    (∀ m e data now, id ∈ (queueOf (addToSyncQueue m e data now db)).map QueuedOp.id) ∧
    (∀ k, id ∈ (queueOf (markAsSynced k db)).map QueuedOp.id) ∧
    (∀ p data, id ∈ (queueOf (saveToIndexedDB p data db).2).map QueuedOp.id) ∧
    (∀ env s, s.db = db → id ∈ (queueOf (syncOfflineChanges env s).db).map QueuedOp.id) := by
  refine ⟨?_, ?_, ?_, ?_⟩
  · intro m e data now
    exact addToSyncQueue_keeps_id m e data now id db h
  · intro k
    exact markAsSynced_keeps_id k id db h
  · intro p data
    rw [saveToIndexedDB_queue]
    exact h
  · intro env s hdb
    rw [syncOfflineChanges_db, hdb]
    exact markAll_keeps_id _ id db h

/-- C14, at the queue A, B, C and the id of A, which a pass marks. -/
theorem C14_never_removed_witness :
    1 ∈ (queueOf (some queueABC)).map QueuedOp.id ∧
    1 ∈ (queueOf (markAsSynced 1 (some queueABC))).map QueuedOp.id ∧
    1 ∈ (queueOf (syncOfflineChanges flakyEnv (App.start (some queueABC))).db).map QueuedOp.id :=
  ⟨by decide, (C14_never_removed (some queueABC) 1 (by decide)).2.1 1,
    (C14_never_removed (some queueABC) 1 (by decide)).2.2.2 flakyEnv
      (App.start (some queueABC)) rfl⟩

/-! ## The business stores: put and getAll (C17-C19) -/

theorem upsert_sorted {α κ : Type} [LinearOrder κ] (key : α → κ) (v : α) (l : List α)
    (hs : (l.map key).Pairwise (· < ·)) : ((upsert key v l).map key).Pairwise (· < ·) := by
  induction l with
  | nil => simp [upsert]
  | cons x xs ih =>
    simp only [List.map_cons, List.pairwise_cons] at hs
    by_cases h1 : key v < key x
    · have e : upsert key v (x :: xs) = v :: x :: xs := by simp [upsert, h1]
      rw [e]
      simp only [List.map_cons, List.pairwise_cons, List.mem_cons]
      refine ⟨?_, hs.1, hs.2⟩
      intro b hb
      rcases hb with hb | hb
      · rw [hb]; exact h1
      · exact lt_trans h1 (hs.1 b hb)
    · by_cases h2 : key v = key x
      · have e : upsert key v (x :: xs) = v :: xs := by simp [upsert, h2]
        rw [e]
        simp only [List.map_cons, List.pairwise_cons]
        refine ⟨?_, hs.2⟩
        intro b hb
        rw [h2]; exact hs.1 b hb
      · have e : upsert key v (x :: xs) = x :: upsert key v xs := by simp [upsert, h1, h2]
        rw [e]
        simp only [List.map_cons, List.pairwise_cons]
        refine ⟨?_, ih hs.2⟩
        intro b hb
        obtain ⟨y, hy, rfl⟩ := List.mem_map.mp hb
        rcases mem_upsert key v y xs hy with hy | hy
        · rw [hy]
          exact lt_of_le_of_ne (not_lt.mp h1) (fun h => h2 h.symm)
        · exact hs.1 (key y) (List.mem_map_of_mem key hy)

theorem mem_upsert_self {α κ : Type} [LinearOrder κ] (key : α → κ) (v : α) (l : List α) :
    v ∈ upsert key v l := by
  induction l with
  | nil => simp [upsert]
  | cons x xs ih =>
    unfold upsert
    split_ifs
    · exact List.mem_cons_self _ _
    · exact List.mem_cons_self _ _
    · exact List.mem_cons_of_mem _ ih

theorem filter_key_singleton {α κ : Type} [DecidableEq κ] (key : α → κ) (v : α) (l : List α)
    (hv : v ∈ l) (hnd : (l.map key).Nodup) :
    l.filter (fun y => decide (key y = key v)) = [v] := by
  induction l with
  | nil => simp at hv
  | cons x xs ih =>
    simp only [List.map_cons, List.nodup_cons] at hnd
    rcases List.mem_cons.mp hv with rfl | hmem
    · have hnone : ∀ y ∈ xs, ¬ key y = key v := by
        intro y hy heq
        exact hnd.1 (heq ▸ List.mem_map_of_mem key hy)
      have : xs.filter (fun y => decide (key y = key v)) = [] := by
        rw [List.filter_eq_nil_iff]
        intro y hy
        simpa using hnone y hy
      simp [List.filter_cons, this]
    · have hne : ¬ key x = key v := by
        intro heq
        exact hnd.1 (heq ▸ List.mem_map_of_mem key hmem)
      simp [List.filter_cons, hne, ih hmem hnd.2]

theorem putRecord_PartWF (r : Record) (k : Int) (c : List (Int × Record)) (hid : r.id = some k)
    (hwf : PartWF c) :
    putRecord r c = .ok (upsert Prod.fst (k, r) c) ∧ PartWF (upsert Prod.fst (k, r) c) := by
  refine ⟨by simp [putRecord, hid], upsert_sorted Prod.fst (k, r) c hwf.1, ?_⟩
  intro x hx
  rcases mem_upsert Prod.fst (k, r) x c hx with h | h
  · rw [h]; exact hid
  · exact hwf.2 x h

theorem putAll_PartWF (rs : List Record) (c : List (Int × Record)) (hwf : PartWF c) :
    PartWF (putAll rs c).2 := by
  induction rs generalizing c with
  | nil => exact hwf
  | cons r rs ih =>
    cases hid : r.id with
    | none => simpa [putAll, putRecord, hid] using hwf
    | some k =>
      have h := putRecord_PartWF r k c hid hwf
      simp only [putAll, h.1]
      exact ih _ h.2

theorem setPart_part_ne (d : Database) (p q : Partition) (c : List (Int × Record))
    (h : q ≠ p) : (d.setPart p c).part q = d.part q := by
  cases p <;> cases q <;> first | rfl | exact absurd rfl h

theorem setPart_queue (d : Database) (p : Partition) (c : List (Int × Record)) :
    (d.setPart p c).syncQueue = d.syncQueue ∧ (d.setPart p c).keyGen = d.keyGen := by
  cases p <;> exact ⟨rfl, rfl⟩

theorem setPart_setPart (d : Database) (p : Partition) (c c1 : List (Int × Record)) :
    (d.setPart p c).setPart p c1 = d.setPart p c1 := by
  cases p <;> rfl

theorem setPart_part_self (d : Database) (p : Partition) : d.setPart p (d.part p) = d := by
  cases p <;> rfl

/-- C17 (put is an upsert by id). On an open store whose partition `p`
satisfies the store invariant, putting a record `r` with id `k` succeeds;
afterwards `getAll(p)` contains `r`, `r` is the only record of `p` with id
`k`, the records of `p` with another id are exactly those it held, the other
partitions, the queue and the key generator are unchanged, and the invariant
still holds. Putting a list is putting its elements one after the other. -/
theorem C17_put_upserts (p : Partition) (r : Record) (k : Int) (d : Database)
    (hid : r.id = some k) (hwf : PartWF (d.part p)) :
    ∃ d1, saveToIndexedDB p (.one r) (some d) = (.ok (), some d1) ∧
      r ∈ getFromIndexedDB p (some d1) ∧
      (getFromIndexedDB p (some d1)).filter (fun x => decide (x.id = some k)) = [r] ∧
      (∀ x, x.id ≠ some k →
        (x ∈ getFromIndexedDB p (some d1) ↔ x ∈ getFromIndexedDB p (some d))) ∧
      (∀ q, q ≠ p → d1.part q = d.part q) ∧
      d1.syncQueue = d.syncQueue ∧ d1.keyGen = d.keyGen ∧
      PartWF (d1.part p) ∧
      (∀ rs, saveToIndexedDB p (.many (r :: rs)) (some d) =
        saveToIndexedDB p (.many rs) (some d1)) ∧
      saveToIndexedDB p (.many []) (some d) = (.ok (), some d) := by
  obtain ⟨hput, hwf1⟩ := putRecord_PartWF r k (d.part p) hid hwf
  refine ⟨d.setPart p (upsert Prod.fst (k, r) (d.part p)), ?_, ?_, ?_, ?_, ?_, ?_, ?_, ?_, ?_, ?_⟩
  · simp only [saveToIndexedDB, hput]
  · simp only [getFromIndexedDB, part_setPart]
    exact List.mem_map.mpr ⟨(k, r), mem_upsert_self Prod.fst (k, r) _, rfl⟩
  · simp only [getFromIndexedDB, part_setPart, List.filter_map]
    have hcongr : List.filter ((fun x : Record => decide (x.id = some k)) ∘ Prod.snd)
        (upsert Prod.fst (k, r) (d.part p)) =
        List.filter (fun y => decide (Prod.fst y = Prod.fst (k, r)))
          (upsert Prod.fst (k, r) (d.part p)) := by
      apply List.filter_congr
      intro x hx
      have := hwf1.2 x hx
      simp [this]
    rw [hcongr, filter_key_singleton Prod.fst (k, r) _ (mem_upsert_self Prod.fst (k, r) _)
      (List.Pairwise.imp (fun hab => ne_of_lt hab) hwf1.1)]
    rfl
  · intro x hx
    simp only [getFromIndexedDB, part_setPart, List.mem_map]
    constructor
    · rintro ⟨y, hy, rfl⟩
      rcases mem_upsert Prod.fst (k, r) y _ hy with h | h
      · rw [h] at hx
        exact absurd hid hx
      · exact ⟨y, h, rfl⟩
    · rintro ⟨y, hy, rfl⟩
      refine ⟨y, mem_upsert_of_ne Prod.fst (k, r) y _ hy ?_, rfl⟩
      intro heq
      apply hx
      rw [hwf.2 y hy, heq]
  · intro q hq
    exact setPart_part_ne d p q _ hq
  · exact (setPart_queue d p _).1
  · exact (setPart_queue d p _).2
  · rw [part_setPart]; exact hwf1
  · intro rs
    simp only [saveToIndexedDB, putAll, hput, part_setPart, setPart_setPart]
  · simp only [saveToIndexedDB, putAll, setPart_part_self]

/-- C17, at the inventory mirror holding the products 1 and 3, with a new
version of product 3. -/
theorem C17_put_upserts_witness :
    (product 3 "Nut" "7").id = some 3 ∧ PartWF (twoProductsDb.part .inventory) ∧
    ∃ d1, saveToIndexedDB .inventory (.one (product 3 "Nut" "7")) (some twoProductsDb) =
        (.ok (), some d1) ∧
      product 3 "Nut" "7" ∈ getFromIndexedDB .inventory (some d1) ∧
      (getFromIndexedDB .inventory (some d1)).filter (fun x => decide (x.id = some 3)) =
        [product 3 "Nut" "7"] ∧
      (∀ x, x.id ≠ some 3 →
        (x ∈ getFromIndexedDB .inventory (some d1) ↔
          x ∈ getFromIndexedDB .inventory (some twoProductsDb))) ∧
      (∀ q, q ≠ .inventory → d1.part q = twoProductsDb.part q) ∧
      d1.syncQueue = twoProductsDb.syncQueue ∧ d1.keyGen = twoProductsDb.keyGen ∧
      PartWF (d1.part .inventory) ∧
      (∀ rs, saveToIndexedDB .inventory (.many (product 3 "Nut" "7" :: rs))
          (some twoProductsDb) =
        saveToIndexedDB .inventory (.many rs) (some d1)) ∧
      saveToIndexedDB .inventory (.many []) (some twoProductsDb) =
        (.ok (), some twoProductsDb) :=
  ⟨rfl, by decide,
    C17_put_upserts .inventory (product 3 "Nut" "7") 3 twoProductsDb rfl (by decide)⟩

/-- C18 (getAll never fails on an empty or unopened store). `getFromIndexedDB`
returns the empty list when `db` is unset and when the partition of an open
store is empty, and `getPendingSyncOperations` returns the empty list when
`db` is unset; both functions yield a list in every case. -/
theorem C18_get_all_empty (p : Partition) (d : Database) (hempty : d.part p = []) :
    getFromIndexedDB p none = [] ∧
    getFromIndexedDB p (some d) = [] ∧
    getPendingSyncOperations none = [] := by
  refine ⟨rfl, ?_, rfl⟩
  simp [getFromIndexedDB, hempty]

/-- C18, at the sales partition of a fresh store. -/
theorem C18_get_all_empty_witness :
    Database.empty.part .sales = [] ∧
    getFromIndexedDB .sales none = [] ∧
    getFromIndexedDB .sales (some Database.empty) = [] ∧
    getPendingSyncOperations none = [] :=
  ⟨rfl, C18_get_all_empty .sales Database.empty rfl⟩

/-- C19 (an unopened store is inert). With `db` unset, `saveToIndexedDB`
resolves and leaves `db` unset, `addToSyncQueue` and `markAsSynced` leave
`db` unset, and a drain pass returns the page as it was: no call is issued,
no banner, badge or table changes. -/
theorem C19_unopened_store_inert (p : Partition) (data : Data) (m e : String)
    (payload : Payload) (now id : Nat) (env : Env) (s : App) (hdb : s.db = none) :
    saveToIndexedDB p data none = (.ok (), none) ∧
    addToSyncQueue m e payload now none = none ∧
    markAsSynced id none = none ∧
    syncOfflineChanges env s = s ∧
    (syncOfflineChanges env s).log = s.log := by
  have hsync : syncOfflineChanges env s = s := by
    simp [syncOfflineChanges, hdb, getPendingSyncOperations]
  exact ⟨rfl, rfl, rfl, hsync, by rw [hsync]⟩

/-- C19, at the page right after load with `db` unset, offline. -/
theorem C19_unopened_store_inert_witness :
    (App.start none).db = none ∧
    syncOfflineChanges offlineEnv (App.start none) = App.start none ∧
    (syncOfflineChanges offlineEnv (App.start none)).log = (App.start none).log :=
  ⟨rfl,
    (C19_unopened_store_inert .inventory (.many threeProducts) "POST" "/api/add-entry"
      widgetEntry.payload 0 1 offlineEnv (App.start none) rfl).2.2.2⟩

/-! ## Replay sends what was enqueued (C20) -/

theorem replayRequest_flagged (ids : List Nat) (op : QueuedOp) :
    replayRequest (if op.id ∈ ids then { op with synced := true } else op) = replayRequest op ∧
    (if op.id ∈ ids then { op with synced := true } else op).id = op.id := by
  by_cases h : op.id ∈ ids <;> simp [h, replayRequest]

/-- C20 (replay sends what was enqueued). On an open store satisfying the
queue invariant, `addToSyncQueue(method, endpoint, data)` stores one
operation whose replay call has exactly that endpoint as URL, that method, and
the serialisation of exactly that data as body; the next drain pass issues
that call, once, after the calls of the operations that were already pending;
and the operation the pass leaves in the queue under the same id still
replays to the same call. -/
theorem C20_replay_preserves_triple (env : Env) (s : App) (d : Database) (w : Write)
    (hdb : s.db = some d) (hwf : d.WF) :
    ∃ d1 op, addToSyncQueue w.method w.endpoint w.data w.now s.db = some d1 ∧
      d1.syncQueue = d.syncQueue ++ [op] ∧
      replayRequest op = { url := w.endpoint, method := w.method, body := some w.data } ∧
      (syncOfflineChanges env { s with db := some d1 }).log =
        s.log ++ (getPendingSyncOperations s.db).map replayRequest ++
          [{ url := w.endpoint, method := w.method, body := some w.data }] ∧
      ∃ d2 op2, (syncOfflineChanges env { s with db := some d1 }).db = some d2 ∧
        op2 ∈ d2.syncQueue ∧ op2.id = op.id ∧ replayRequest op2 = replayRequest op := by
  obtain ⟨d1, h1, hwf1, hq, _⟩ := addToSyncQueue_WF w.method w.endpoint w.data w.now d hwf
  refine ⟨d1, _, by rw [hdb, h1], hq, rfl, ?_, ?_⟩
  · rw [syncOfflineChanges_log]
    simp only [hdb, getPendingSyncOperations, hq, List.filter_append, List.map_append,
      List.append_assoc]
    simp [replayRequest]
  · have hq2 := syncOfflineChanges_queue env { s with db := some d1 } d1 rfl hwf1
    have hmem : QueuedOp.mk d.keyGen w.method w.endpoint w.data w.now false ∈ d1.syncQueue := by
      rw [hq]; exact List.mem_append_right _ (List.mem_singleton_self _)
    exact ⟨_, _, hq2, List.mem_map_of_mem _ hmem, (replayRequest_flagged _ _).2,
      (replayRequest_flagged _ _).1⟩

/-- C20, at the queue A, B, C with a DELETE enqueued behind them. -/
theorem C20_replay_preserves_triple_witness :
    (App.start (some queueABC)).db = some queueABC ∧ queueABC.WF ∧
    ∃ d1 op, addToSyncQueue "DELETE" "/api/delete-product/7" (.status "") 9
        (App.start (some queueABC)).db = some d1 ∧
      d1.syncQueue = queueABC.syncQueue ++ [op] ∧
      replayRequest op =
        { url := "/api/delete-product/7", method := "DELETE", body := some (.status "") } ∧
      (syncOfflineChanges flakyEnv { App.start (some queueABC) with db := some d1 }).log =
        (App.start (some queueABC)).log ++
          (getPendingSyncOperations (App.start (some queueABC)).db).map replayRequest ++
          [{ url := "/api/delete-product/7", method := "DELETE", body := some (.status "") }] ∧
      ∃ d2 op2,
        (syncOfflineChanges flakyEnv { App.start (some queueABC) with db := some d1 }).db =
          some d2 ∧
        op2 ∈ d2.syncQueue ∧ op2.id = op.id ∧ replayRequest op2 = replayRequest op :=
  ⟨rfl, by decide,
    C20_replay_preserves_triple flakyEnv (App.start (some queueABC)) queueABC
      { method := "DELETE", endpoint := "/api/delete-product/7", data := .status "", now := 9 }
      rfl (by decide)⟩

/-! ## Drain passes step by step: agreement with the pass run in one go -/

theorem resumeN_finished (env : Env) (n : Nat) (s : App) :
    DrainTask.resumeN env n (.finished, s) = (.finished, s) := by
  induction n with
  | zero => rfl
  | succ n ih => simpa [DrainTask.resumeN, DrainTask.resume] using ih

theorem next_resumeN (env : Env) (rest : List QueuedOp) (s : App) (n : Nat)
    (hn : 2 * rest.length ≤ n) :
    DrainTask.resumeN env n (DrainTask.next env rest s) =
      (.finished, finishPass (replayLoop env rest s)) := by
  induction rest generalizing s n with
  | nil =>
    simp only [DrainTask.next, replayLoop]
    exact resumeN_finished env n _
  | cons op rest ih =>
    simp only [List.length_cons] at hn
    obtain ⟨m, rfl⟩ : ∃ m, n = m + 2 := ⟨n - 2, by omega⟩
    have hm : 2 * rest.length ≤ m := by omega
    simp only [DrainTask.next, App.fetch, replayLoop]
    cases hnet : env.net s.log (replayRequest op) with
    | rejected =>
      simp only [DrainTask.resumeN, DrainTask.resume]
      exact ih _ (m + 1) (by omega)
    | response ok body =>
      cases ok with
      | false =>
        simp only [DrainTask.resumeN, DrainTask.resume]
        exact ih _ (m + 1) (by omega)
      | true =>
        simp only [DrainTask.resumeN, DrainTask.resume]
        exact ih _ m hm

theorem listing_resumeN (env : Env) (s : App) (n : Nat)
    (hn : 2 * (getPendingSyncOperations s.db).length + 1 ≤ n) :
    DrainTask.resumeN env n (.listing (getPendingSyncOperations s.db), s) =
      (.finished, syncOfflineChanges env s) := by
  obtain ⟨m, rfl⟩ : ∃ m, n = m + 1 := ⟨n - 1, by omega⟩
  simp only [DrainTask.resumeN, DrainTask.resume, syncOfflineChanges]
  split_ifs with h
  · exact resumeN_finished env m s
  · rw [next_resumeN env _ _ m (by omega)]
    rfl

theorem run_append (env : Env) (evs1 evs2 : List Event) (sys : Sys) :
    Sys.run env (evs1 ++ evs2) sys = Sys.run env evs2 (Sys.run env evs1 sys) := by
  simp [Sys.run, List.foldl_append]

theorem run_settles_last (env : Env) (n : Nat) (ts : List DrainTask) (t : DrainTask) (s : App) :
    Sys.run env (List.replicate n (.settle ts.length)) { app := s, drains := ts ++ [t] } =
      { app := (DrainTask.resumeN env n (t, s)).2,
        drains := ts ++ [(DrainTask.resumeN env n (t, s)).1] } := by
  induction n generalizing t s with
  | zero => rfl
  | succ n ih =>
    have hstep : Sys.step env (.settle ts.length) { app := s, drains := ts ++ [t] } =
        { app := (t.resume env s).2, drains := ts ++ [(t.resume env s).1] } := by
      simp [Sys.step]
    simp only [List.replicate_succ, Sys.run, List.foldl_cons, hstep]
    exact ih _ _

theorem run_online_alone (env : Env) (n : Nat) (ts : List DrainTask) (s : App)
    (hn : 2 * (getPendingSyncOperations s.db).length + 1 ≤ n) :
    Sys.run env (.online :: List.replicate n (.settle ts.length)) { app := s, drains := ts } =
      { app := onOnline env s, drains := ts ++ [.finished] } := by
  have hstep : Sys.step env .online { app := s, drains := ts } =
      { app := updateSyncStatus "Syncing..." "syncing" s,
        drains := ts ++ [.listing (getPendingSyncOperations
          (updateSyncStatus "Syncing..." "syncing" s).db)] } := rfl
  have hrun : Sys.run env (.online :: List.replicate n (.settle ts.length))
      { app := s, drains := ts } =
      Sys.run env (List.replicate n (.settle ts.length))
        (Sys.step env .online { app := s, drains := ts }) := rfl
  rw [hrun, hstep, run_settles_last, listing_resumeN]
  · rfl
  · rw [updateSyncStatus_db]; exact hn

/-! ## Drain passes step by step: a pass among enqueues (C15) -/

theorem drop_cons_facts {α : Type} (P : List α) (k : Nat) (x : α) (rest : List α)
    (h : P.drop k = x :: rest) :
    P.take (k + 1) = P.take k ++ [x] ∧ P.drop (k + 1) = rest ∧ x ∈ P ∧ k + 1 ≤ P.length := by
  induction P generalizing k with
  | nil => simp at h
  | cons y ys ih =>
    cases k with
    | zero =>
      simp only [List.drop_zero, List.cons.injEq] at h
      obtain ⟨rfl, rfl⟩ := h
      simp
    | succ j =>
      simp only [List.drop_succ_cons] at h
      obtain ⟨h1, h2, h3, h4⟩ := ih j h
      refine ⟨?_, ?_, List.mem_cons_of_mem _ h3, ?_⟩
      · simp only [List.take_succ_cons, h1, List.cons_append]
      · simpa using h2
      · simp only [List.length_cons]; omega

theorem finishPass_log (s : App) : (finishPass s).log = s.log := by
  simp [finishPass, App.spawn, updateSyncStatus_log]

theorem finishPass_db (s : App) : (finishPass s).db = s.db := by
  simp [finishPass, App.spawn, updateSyncStatus_db]

theorem next_db (env : Env) (rest : List QueuedOp) (s : App) :
    (DrainTask.next env rest s).2.db = s.db := by
  cases rest with
  | nil => exact finishPass_db s
  | cons op rest1 => rfl

theorem next_progress (env : Env) (P : List QueuedOp) (log0 : List Request)
    (rest : List QueuedOp) (s : App) (k : Nat) (hk : k ≤ P.length)
    (hlog : s.log = log0 ++ (P.take k).map replayRequest) (hrest : rest = P.drop k) :
    DrainProgress P log0 (DrainTask.next env rest s).1 (DrainTask.next env rest s).2 := by
  cases rest with
  | nil =>
    have hk2 : k = P.length := by
      have := List.drop_eq_nil_iff.mp hrest.symm
      omega
    refine ⟨k, hk, ?_, ?_, fun _ => hk2, ?_⟩
    · show (finishPass s).log = _
      rw [finishPass_log, hlog]
    · show ([] : List QueuedOp) = P.drop k
      exact hrest
    · intro op rest out h
      simp [DrainTask.next] at h
  | cons op rest1 =>
    obtain ⟨h1, h2, h3, h4⟩ := drop_cons_facts P k op rest1 hrest.symm
    refine ⟨k + 1, h4, ?_, ?_, ?_, ?_⟩
    · show s.log ++ [replayRequest op] = _
      rw [hlog, h1]
      simp
    · show rest1 = P.drop (k + 1)
      exact h2.symm
    · intro h
      simp [DrainTask.next, App.fetch] at h
    · intro op1 rest2 out h
      simp only [DrainTask.next, App.fetch, DrainTask.fetching.injEq] at h
      rw [← h.1]
      exact h3

theorem markIn_news (id : Nat) (news : List QueuedOp) (g : Nat) (hid : id < g)
    (hnews : ∀ op ∈ news, g ≤ op.id ∧ op.synced = false) : markIn id news = news := by
  apply markIn_of_not_mem
  intro op hop heq
  have := (hnews op hop).1
  omega

theorem markAsSynced_grown (d : Database) (db : Option Database) (ws : List Write) (id : Nat)
    (hid : id < d.keyGen) (h : QueueGrown d db ws) :
    QueueGrown d (markAsSynced id db) ws := by
  obtain ⟨d1, q1, news, hdb, hwf1, hkg, hq, hids, hnews, hws⟩ := h
  subst hdb
  obtain ⟨d2, h2, hwf2⟩ := markAsSynced_WF id d1 hwf1
  have heq := markAsSynced_eq id d1 hwf1.1
  rw [h2] at heq
  have hd2 : d2 = { d1 with syncQueue := markIn id d1.syncQueue } := Option.some.inj heq
  refine ⟨d2, markIn id q1, news, h2, hwf2, ?_, ?_, ?_, hnews, hws⟩
  · rw [hd2]; exact hkg
  · rw [hd2]
    show markIn id d1.syncQueue = markIn id q1 ++ news
    rw [hq]
    unfold markIn
    rw [List.map_append]
    congr 1
    exact markIn_news id news d.keyGen hid hnews
  · rw [markIn_ids]; exact hids

theorem addToSyncQueue_grown (d : Database) (db : Option Database) (ws : List Write)
    (w : Write) (h : QueueGrown d db ws) :
    QueueGrown d (addToSyncQueue w.method w.endpoint w.data w.now db) (ws ++ [w]) := by
  obtain ⟨d1, q1, news, hdb, hwf1, hkg, hq, hids, hnews, hws⟩ := h
  subst hdb
  obtain ⟨d2, h2, hwf2, hq2, hk2⟩ := addToSyncQueue_WF w.method w.endpoint w.data w.now d1 hwf1
  refine ⟨d2, q1, news ++ [QueuedOp.mk d1.keyGen w.method w.endpoint w.data w.now false],
    h2, hwf2, by omega, ?_, hids, ?_, ?_⟩
  · rw [hq2, hq, List.append_assoc]
  · intro op hop
    rcases List.mem_append.mp hop with h | h
    · exact hnews op h
    · rw [List.mem_singleton.mp h]
      exact ⟨hkg, rfl⟩
  · rw [List.map_append, hws]
    rfl

theorem grown_initial (d : Database) (hwf : d.WF) : QueueGrown d (some d) [] :=
  ⟨d, d.syncQueue, [], rfl, hwf, Nat.le_refl _, by simp, rfl, by simp, rfl⟩

theorem grown_pending (d : Database) (db : Option Database) (ws : List Write)
    (hwf : d.WF) (h : QueueGrown d db ws) :
    ∃ older news, getPendingSyncOperations db = older ++ news ∧
      news.map QueuedOp.write = ws ∧
      (∀ op ∈ news, op.synced = false ∧ ∀ old ∈ d.syncQueue, old.id < op.id) := by
  obtain ⟨d1, q1, news, hdb, _, _, hq, _, hnews, hws⟩ := h
  subst hdb
  refine ⟨q1.filter (fun op => !op.synced), news, ?_, hws, ?_⟩
  · simp only [getPendingSyncOperations, hq, List.filter_append]
    congr 1
    rw [List.filter_eq_self]
    intro op hop
    simp [(hnews op hop).2]
  · intro op hop
    refine ⟨(hnews op hop).2, ?_⟩
    intro old hold
    exact Nat.lt_of_lt_of_le (hwf.2 old hold) (hnews op hop).1

theorem resume_progress (env : Env) (P : List QueuedOp) (log0 : List Request) (t : DrainTask)
    (s : App) (h : DrainProgress P log0 t s) :
    DrainProgress P log0 (t.resume env s).1 (t.resume env s).2 := by
  obtain ⟨k, hk, hlog, hrem, hfin, hmem⟩ := h
  cases t with
  | listing pending =>
    simp only [DrainTask.resume]
    split_ifs with h0
    · have hnil : pending = [] := List.length_eq_zero.mp h0
      have hk2 : k = P.length := by
        have hd : P.drop k = [] := by rw [← hrem]; exact hnil
        have := List.drop_eq_nil_iff.mp hd
        omega
      exact ⟨k, hk, hlog, by rw [← hrem]; exact hnil.symm ▸ rfl, fun _ => hk2,
        fun op rest out h => by simp at h⟩
    · exact next_progress env P log0 pending _ k hk (by rw [updateSyncStatus_log]; exact hlog)
        hrem
  | fetching op rest out =>
    cases out with
    | rejected => exact next_progress env P log0 rest s k hk hlog hrem
    | response ok body =>
      cases ok with
      | false => exact next_progress env P log0 rest s k hk hlog hrem
      | true =>
        exact ⟨k, hk, hlog, hrem, fun h => by simp [DrainTask.resume] at h,
          fun op1 rest1 out1 h => by simp [DrainTask.resume] at h⟩
  | marking rest => exact next_progress env P log0 rest s k hk hlog hrem
  | finished => exact ⟨k, hk, hlog, hrem, hfin, hmem⟩

theorem resume_grown (env : Env) (P : List QueuedOp) (log0 : List Request) (d : Database)
    (t : DrainTask) (s : App) (ws : List Write) (hP : ∀ op ∈ P, op.id < d.keyGen)
    (hprog : DrainProgress P log0 t s) (h : QueueGrown d s.db ws) :
    QueueGrown d (t.resume env s).2.db ws := by
  obtain ⟨k, hk, hlog, hrem, hfin, hmem⟩ := hprog
  cases t with
  | listing pending =>
    simp only [DrainTask.resume]
    split_ifs with h0
    · exact h
    · rw [next_db, updateSyncStatus_db]; exact h
  | fetching op rest out =>
    cases out with
    | rejected => simp only [DrainTask.resume]; rw [next_db]; exact h
    | response ok body =>
      cases ok with
      | false => simp only [DrainTask.resume]; rw [next_db]; exact h
      | true =>
        simp only [DrainTask.resume]
        exact markAsSynced_grown d s.db ws op.id (hP op (hmem op rest _ rfl)) h
  | marking rest => simp only [DrainTask.resume]; rw [next_db]; exact h
  | finished => exact h

theorem next_stepsLeft (env : Env) (rest : List QueuedOp) (s : App) :
    (DrainTask.next env rest s).1.stepsLeft ≤ 2 * rest.length := by
  cases rest with
  | nil => simp [DrainTask.next, DrainTask.stepsLeft]
  | cons op rest1 =>
    simp only [DrainTask.next, App.fetch, DrainTask.stepsLeft, List.length_cons]
    omega

theorem resume_stepsLeft (env : Env) (t : DrainTask) (s : App) :
    (t.resume env s).1.stepsLeft ≤ t.stepsLeft - 1 := by
  cases t with
  | listing pending =>
    have e : (DrainTask.listing pending).stepsLeft = 2 * pending.length + 1 := rfl
    rw [e]
    simp only [DrainTask.resume]
    split_ifs with h0
    · exact Nat.zero_le _
    · have := next_stepsLeft env pending
        (updateSyncStatus ("Syncing " ++ toString pending.length ++ " changes...") "syncing" s)
      omega
  | fetching op rest out =>
    have e : (DrainTask.fetching op rest out).stepsLeft = 2 * rest.length + 2 := rfl
    have e2 : (DrainTask.marking rest).stepsLeft = 2 * rest.length + 1 := rfl
    have := next_stepsLeft env rest s
    rw [e]
    cases out with
    | rejected => simp only [DrainTask.resume]; omega
    | response ok body =>
      cases ok with
      | false => simp only [DrainTask.resume]; omega
      | true => simp only [DrainTask.resume]; omega
  | marking rest =>
    have e : (DrainTask.marking rest).stepsLeft = 2 * rest.length + 1 := rfl
    have := next_stepsLeft env rest s
    rw [e]
    simp only [DrainTask.resume]
    omega
  | finished => exact Nat.zero_le _

theorem stepsLeft_zero (t : DrainTask) (h : t.stepsLeft = 0) : t = .finished := by
  cases t <;> simp [DrainTask.stepsLeft] at h ⊢

theorem run_single (env : Env) (P : List QueuedOp) (log0 : List Request) (d : Database)
    (hP : ∀ op ∈ P, op.id < d.keyGen) (evs : List Event) (t : DrainTask) (s : App)
    (ws : List Write) (hno : Event.online ∉ evs) (hprog : DrainProgress P log0 t s)
    (hgrown : QueueGrown d s.db ws) :
    ∃ t1 s1, Sys.run env evs { app := s, drains := [t] } = { app := s1, drains := [t1] } ∧
      DrainProgress P log0 t1 s1 ∧ QueueGrown d s1.db (ws ++ enqueuedWrites evs) ∧
      t1.stepsLeft ≤ t.stepsLeft - settles 0 evs := by
  induction evs generalizing t s ws with
  | nil => exact ⟨t, s, rfl, hprog, by simpa [enqueuedWrites] using hgrown, by simp [settles]⟩
  | cons e evs ih =>
    have hno2 : Event.online ∉ evs := fun h => hno (List.mem_cons_of_mem _ h)
    cases e with
    | online => exact absurd (List.mem_cons_self _ _) hno
    | settle i =>
      cases i with
      | zero =>
        obtain ⟨t1, s1, hrun, hp1, hg1, hs1⟩ := ih (t.resume env s).1 (t.resume env s).2 ws hno2
          (resume_progress env P log0 t s hprog)
          (resume_grown env P log0 d t s ws hP hprog hgrown)
        refine ⟨t1, s1, ?_, hp1, ?_, ?_⟩
        · rw [← hrun]; rfl
        · simpa [enqueuedWrites] using hg1
        · have := resume_stepsLeft env t s
          have hc : settles 0 (Event.settle 0 :: evs) = settles 0 evs + 1 := by
            simp [settles]
          rw [hc]
          omega
      | succ j =>
        obtain ⟨t1, s1, hrun, hp1, hg1, hs1⟩ := ih t s ws hno2 hprog hgrown
        refine ⟨t1, s1, ?_, hp1, ?_, ?_⟩
        · rw [← hrun]; rfl
        · simpa [enqueuedWrites] using hg1
        · have hc : settles 0 (Event.settle (j + 1) :: evs) = settles 0 evs := by
            simp [settles]
          rw [hc]; exact hs1
    | enqueue w =>
      obtain ⟨t1, s1, hrun, hp1, hg1, hs1⟩ := ih t
        { s with db := addToSyncQueue w.method w.endpoint w.data w.now s.db } (ws ++ [w]) hno2
        hprog (addToSyncQueue_grown d s.db ws w hgrown)
      refine ⟨t1, s1, ?_, hp1, ?_, ?_⟩
      · rw [← hrun]; rfl
      · simpa [enqueuedWrites, List.append_assoc] using hg1
      · have hc : settles 0 (Event.enqueue w :: evs) = settles 0 evs := by
          simp [settles]
        rw [hc]; exact hs1

/-- C15 (the working set is the snapshot). A drain started by an `online`
event on an open store satisfying the queue invariant, and then interleaved in
any way with settlements of its awaited promises and with calls of
`addToSyncQueue` by other handlers: the calls it has issued are those of the
first `k` operations of the list that was pending when it started, in order,
one call each, and nothing else; once it has finished, `k` is the length of
that list; it has finished once its promises have settled twice the length
of the list plus one times. The writes enqueued meanwhile are, in order, the
last pending operations of the store afterwards: unsynced, with ids above
every id of the snapshot, hence not replayed by this drain. -/
theorem C15_snapshot_working_set (env : Env) (s : App) (d : Database) (evs : List Event)
    (hdb : s.db = some d) (hwf : d.WF) (hno : Event.online ∉ evs) :
    ∃ (k : Nat) (t : DrainTask) (older news : List QueuedOp),
      (Sys.run env (.online :: evs) { app := s, drains := [] }).drains = [t] ∧
      k ≤ (getPendingSyncOperations s.db).length ∧
      (Sys.run env (.online :: evs) { app := s, drains := [] }).app.log =
        s.log ++ ((getPendingSyncOperations s.db).take k).map replayRequest ∧
      (t = .finished → k = (getPendingSyncOperations s.db).length) ∧
      (2 * (getPendingSyncOperations s.db).length + 1 ≤ settles 0 evs → t = .finished) ∧
      getPendingSyncOperations (Sys.run env (.online :: evs) { app := s, drains := [] }).app.db =
        older ++ news ∧
      news.map QueuedOp.write = enqueuedWrites evs ∧
      (∀ op ∈ news, op.synced = false ∧ ∀ old ∈ d.syncQueue, old.id < op.id) := by
  have hP : ∀ op ∈ getPendingSyncOperations s.db, op.id < d.keyGen := by
    intro op hop
    rw [hdb] at hop
    exact hwf.2 op (pending_mem_queue d op hop)
  have hdb1 : (updateSyncStatus "Syncing..." "syncing" s).db = some d := by
    rw [updateSyncStatus_db]; exact hdb
  have hprog : DrainProgress (getPendingSyncOperations s.db) s.log
      (.listing (getPendingSyncOperations s.db)) (updateSyncStatus "Syncing..." "syncing" s) :=
    ⟨0, Nat.zero_le _, by simp [updateSyncStatus_log], rfl, fun h => by simp at h,
      fun op rest out h => by simp at h⟩
  have hgrown : QueueGrown d (updateSyncStatus "Syncing..." "syncing" s).db [] := by
    rw [hdb1]; exact grown_initial d hwf
  obtain ⟨t1, s1, hrun, hp1, hg1, hs1⟩ := run_single env (getPendingSyncOperations s.db) s.log d
    hP evs _ _ [] hno hprog hgrown
  have hrun2 : Sys.run env (.online :: evs) { app := s, drains := [] } =
      { app := s1, drains := [t1] } := by
    rw [← hrun]
    show Sys.run env evs (Sys.step env .online { app := s, drains := [] }) = _
    simp only [Sys.step, updateSyncStatus_db, List.nil_append]
  obtain ⟨k, hk, hlog, _, hfin, _⟩ := hp1
  obtain ⟨older, news, hpend, hws, hnews⟩ := grown_pending d s1.db _ hwf hg1
  refine ⟨k, t1, older, news, by rw [hrun2], hk, by rw [hrun2]; exact hlog, hfin, ?_,
    by rw [hrun2]; exact hpend, by simpa using hws, hnews⟩
  intro hn
  apply stepsLeft_zero
  have e : (DrainTask.listing (getPendingSyncOperations s.db)).stepsLeft =
      2 * (getPendingSyncOperations s.db).length + 1 := rfl
  rw [e] at hs1
  omega

/-- C15, at the queue A, B, C with B's call rejected and a write enqueued
while the drain is suspended on the call for A. -/
theorem C15_snapshot_working_set_witness :
    (App.start (some queueABC)).db = some queueABC ∧ queueABC.WF ∧
    Event.online ∉ settlesWithEnqueue ∧
    ∃ (k : Nat) (t : DrainTask) (older news : List QueuedOp),
      (Sys.run flakyEnv (.online :: settlesWithEnqueue)
        { app := App.start (some queueABC), drains := [] }).drains = [t] ∧
      k ≤ (getPendingSyncOperations (App.start (some queueABC)).db).length ∧
      (Sys.run flakyEnv (.online :: settlesWithEnqueue)
        { app := App.start (some queueABC), drains := [] }).app.log =
        (App.start (some queueABC)).log ++
          ((getPendingSyncOperations (App.start (some queueABC)).db).take k).map replayRequest ∧
      (t = .finished → k = (getPendingSyncOperations (App.start (some queueABC)).db).length) ∧
      (2 * (getPendingSyncOperations (App.start (some queueABC)).db).length + 1 ≤
          settles 0 settlesWithEnqueue → t = .finished) ∧
      getPendingSyncOperations
        (Sys.run flakyEnv (.online :: settlesWithEnqueue)
          { app := App.start (some queueABC), drains := [] }).app.db = older ++ news ∧
      news.map QueuedOp.write = enqueuedWrites settlesWithEnqueue ∧
      (∀ op ∈ news, op.synced = false ∧ ∀ old ∈ queueABC.syncQueue, old.id < op.id) :=
  ⟨rfl, by decide, by decide,
    C15_snapshot_working_set flakyEnv (App.start (some queueABC)) queueABC settlesWithEnqueue
      rfl (by decide) (by decide)⟩

/-! ## Two drains (C16) -/

theorem pending_after_pass (env : Env) (s : App) (d : Database) (hdb : s.db = some d)
    (hwf : d.WF) :
    getPendingSyncOperations (syncOfflineChanges env s).db =
      (getPendingSyncOperations (some d)).filter
        (fun op => decide (op.id ∉ okIds env s.log (getPendingSyncOperations (some d)))) := by
  rw [syncOfflineChanges_queue env s d hdb hwf]
  simp only [getPendingSyncOperations]
  exact filter_flagged _ _

/-- C16, refuted as stated: the queue holds the single pending write A and
the server accepts every call. The second `online` event is delivered while
the first drain is suspended on its call for A: the second drain lists A as
pending too and issues a second call for A, so that two calls for A are in
flight while A is still unsynced; when both drains have finished, A has been
replayed twice, both times accepted, and is marked synced. -/
theorem C16_counterexample :
    (Sys.run okEnv overlappingOnline
      { app := App.start (some queueA), drains := [] }).app.log = [requestA, requestA] ∧
    (getPendingSyncOperations (Sys.run okEnv overlappingOnline
      { app := App.start (some queueA), drains := [] }).app.db).map QueuedOp.id = [1] ∧
    (Sys.run okEnv (overlappingOnline ++ bothSettle)
      { app := App.start (some queueA), drains := [] }).drains = [.finished, .finished] ∧
    (Sys.run okEnv (overlappingOnline ++ bothSettle)
      { app := App.start (some queueA), drains := [] }).app.log = [requestA, requestA] ∧
    okEnv.net [] requestA = .response true (.result true "ok" "" "") ∧
    okEnv.net [requestA] requestA = .response true (.result true "ok" "" "") ∧
    getPendingSyncOperations (Sys.run okEnv (overlappingOnline ++ bothSettle)
      { app := App.start (some queueA), drains := [] }).app.db = [] := by
  decide

/-- C16 as amended (drains that do not overlap). On an open store satisfying
the queue invariant, when the second `online` event is delivered after the
first drain has finished, the two drains run one after the other: the
outcome is that of two passes in sequence, the calls are those of the
operations pending at the start followed by those of the operations still
pending after the first pass, and an operation whose replay succeeded in the
first pass is not pending, hence not replayed, in the second. -/
theorem C16_sequential_drains (env : Env) (s : App) (d : Database) (n m : Nat)
    (hdb : s.db = some d) (hwf : d.WF)
    (hn : 2 * (getPendingSyncOperations s.db).length + 1 ≤ n)
    (hm : 2 * (getPendingSyncOperations s.db).length + 1 ≤ m) :
    Sys.run env
        ((.online :: List.replicate n (.settle 0)) ++ (.online :: List.replicate m (.settle 1)))
        { app := s, drains := [] } =
      { app := onOnline env (onOnline env s), drains := [.finished, .finished] } ∧
    (onOnline env (onOnline env s)).log =
      s.log ++ (getPendingSyncOperations s.db).map replayRequest ++
        (getPendingSyncOperations (onOnline env s).db).map replayRequest ∧
    (∀ (i : Nat) (op : QueuedOp), (getPendingSyncOperations s.db)[i]? = some op →
      replaySucceeded env s.log (getPendingSyncOperations s.db) i op = true →
      op.id ∉ (getPendingSyncOperations (onOnline env s).db).map QueuedOp.id) := by
  have hdb1 : (updateSyncStatus "Syncing..." "syncing" s).db = some d := by
    rw [updateSyncStatus_db]; exact hdb
  have hpend : getPendingSyncOperations (onOnline env s).db =
      (getPendingSyncOperations (some d)).filter
        (fun op => decide (op.id ∉ okIds env s.log (getPendingSyncOperations (some d)))) := by
    have := pending_after_pass env (updateSyncStatus "Syncing..." "syncing" s) d hdb1 hwf
    rw [updateSyncStatus_log] at this
    exact this
  have hlen : (getPendingSyncOperations (onOnline env s).db).length ≤
      (getPendingSyncOperations s.db).length := by
    rw [hpend, hdb]
    exact List.length_filter_le _ _
  refine ⟨?_, ?_, ?_⟩
  · rw [run_append]
    have h1 := run_online_alone env n [] s hn
    simp only [List.length_nil, List.nil_append] at h1
    rw [h1]
    have h2 := run_online_alone env m [.finished] (onOnline env s) (by omega)
    simpa using h2
  · simp only [onOnline, syncOfflineChanges_log, updateSyncStatus_log, updateSyncStatus_db]
  · intro i op hi hok
    rw [hdb] at hi hok
    have hnd : ((getPendingSyncOperations (some d)).map QueuedOp.id).Nodup :=
      nodup_of_ascending _ (pending_ascending d hwf)
    have hin := (mem_okIds_iff env s.log _ hnd i op hi).mpr hok
    rw [hpend]
    intro hmem
    obtain ⟨op1, hop1, hid⟩ := List.mem_map.mp hmem
    have := (List.mem_filter.mp hop1).2
    rw [← hid] at hin
    simp [hin] at this

/-- C16 as amended, at the queue A, B, C with B's call rejected. -/
theorem C16_sequential_drains_witness :
    (App.start (some queueABC)).db = some queueABC ∧ queueABC.WF ∧
    2 * (getPendingSyncOperations (App.start (some queueABC)).db).length + 1 ≤ 7 ∧
    Sys.run flakyEnv
        ((.online :: List.replicate 7 (.settle 0)) ++ (.online :: List.replicate 7 (.settle 1)))
        { app := App.start (some queueABC), drains := [] } =
      { app := onOnline flakyEnv (onOnline flakyEnv (App.start (some queueABC))),
        drains := [.finished, .finished] } :=
  ⟨rfl, by decide, by decide,
    (C16_sequential_drains flakyEnv (App.start (some queueABC)) queueABC 7 7 rfl (by decide)
      (by decide) (by decide)).1⟩

/-! ## Opening the database (C21) -/

/-- C21 (open creates the five partitions and is safe to repeat). Whatever
subset of the five stores exists before the upgrade step, afterwards all five
exist; a store that existed keeps its content (and the queue its key
generator), a store that was missing is empty; running the step again
changes nothing. Opening a new database yields the five empty stores, that
is, `Database.empty`; and once an open has succeeded, opening again yields
the same stores and leaves what the browser holds untouched. -/
theorem C21_open_creates_partitions (stores : ObjectStores) :
    (onupgradeneeded stores).inventory = some (stores.inventory.getD []) ∧
    (onupgradeneeded stores).sales = some (stores.sales.getD []) ∧
    (onupgradeneeded stores).expenses = some (stores.expenses.getD []) ∧
    (onupgradeneeded stores).transactions = some (stores.transactions.getD []) ∧
    (onupgradeneeded stores).syncQueue = some (stores.syncQueue.getD ([], 1)) ∧
    (onupgradeneeded stores).toDatabase.isSome = true ∧
    onupgradeneeded (onupgradeneeded stores) = onupgradeneeded stores ∧
    (initIndexedDB true Option.none).1.toOption.bind ObjectStores.toDatabase =
      some Database.empty ∧
    (∀ disk db, (initIndexedDB true disk).1 = .ok db →
      initIndexedDB true (initIndexedDB true disk).2 = (.ok db, (initIndexedDB true disk).2)) := by
  obtain ⟨i, s, e, t, q⟩ := stores
  refine ⟨?_, ?_, ?_, ?_, ?_, ?_, ?_, ?_, ?_⟩
  · cases i <;> cases s <;> cases e <;> cases t <;> cases q <;> rfl
  · cases i <;> cases s <;> cases e <;> cases t <;> cases q <;> rfl
  · cases i <;> cases s <;> cases e <;> cases t <;> cases q <;> rfl
  · cases i <;> cases s <;> cases e <;> cases t <;> cases q <;> rfl
  · cases i <;> cases s <;> cases e <;> cases t <;> cases q <;> rfl
  · cases i <;> cases s <;> cases e <;> cases t <;> cases q <;> rfl
  · cases i <;> cases s <;> cases e <;> cases t <;> cases q <;> rfl
  · rfl
  · intro disk db h
    cases disk with
    | none =>
      simp only [initIndexedDB, Bool.not_true, Bool.false_eq_true, if_false] at h ⊢
      have hdb : onupgradeneeded ObjectStores.blank = db := by simpa using h
      simp [DB_VERSION, hdb]
    | some vs =>
      obtain ⟨v, st⟩ := vs
      simp only [initIndexedDB, Bool.not_true, Bool.false_eq_true, if_false] at h ⊢
      by_cases h1 : v < DB_VERSION
      · simp only [h1, if_true] at h ⊢
        have hdb : onupgradeneeded st = db := by simpa using h
        simp [DB_VERSION, hdb]
      · simp only [h1, if_false] at h ⊢
        by_cases h2 : v = DB_VERSION
        · simp only [h2, if_true] at h ⊢
          have hdb : st = db := by simpa using h
          simp [hdb]
        · simp [h2] at h

/-! ## Transactions are not mirrored; a failing put is not undone (C22, C23) -/

/-- C22, refuted as stated: on a fresh open store the read of
`/api/transactions` succeeds with three records, which are written into the
table, and no banner is shown; afterwards the transactions partition is
still empty. -/
theorem C22_counterexample :
    (loadTransactions threeEnv "" "All" (App.start (some Database.empty))).1 =
      some (.rows threeProducts) ∧
    (loadTransactions threeEnv "" "All" (App.start (some Database.empty))).2.log =
      [{ url := "/api/transactions", method := "GET", body := none }] ∧
    (loadTransactions threeEnv "" "All" (App.start (some Database.empty))).2.notifications = [] ∧
    getFromIndexedDB .transactions
      (loadTransactions threeEnv "" "All" (App.start (some Database.empty))).2.db = [] := by
  decide

/-- C22 as amended (transactions are shown, not mirrored). For every network,
filter and page state, `loadTransactions` leaves the local store as it is; a
successful read writes the returned records into the table (or the
placeholder when there are none), and a failed read leaves the table alone
and shows an error: it does not fall back to the store. -/
theorem C22_transactions_not_mirrored (env : Env) (date type : String) (s : App) :
    (loadTransactions env date type s).2.db = s.db ∧
    (∀ ok rs, env.net s.log { url := transactionsUrl date type, method := "GET", body := none } =
        .response ok (.records rs) →
      (loadTransactions env date type s).1 =
        some (if rs.length = 0 then .message "No transactions found" else .rows rs)) ∧
    (env.net s.log { url := transactionsUrl date type, method := "GET", body := none } =
        .rejected →
      (loadTransactions env date type s).1 = none ∧
      (loadTransactions env date type s).2.showsError = true) := by
  unfold loadTransactions
  simp only [App.fetch]
  generalize env.net s.log _ = out
  cases out with
  | rejected =>
    refine ⟨rfl, fun ok rs h => by simp at h, fun _ => ⟨rfl, showsError_showNotification _ _⟩⟩
  | response ok body =>
    cases body with
    | unparsable => exact ⟨rfl, fun ok rs h => by simp at h, fun h => by simp at h⟩
    | result a b c e => exact ⟨rfl, fun ok rs h => by simp at h, fun h => by simp at h⟩
    | records rs =>
      refine ⟨rfl, ?_, fun h => by simp at h⟩
      intro ok1 rs1 h
      simp only [FetchOutcome.response.injEq, Body.records.injEq] at h
      rw [h.2]

/-- C23, at the failing input: the list `[Bolt (id 1), Widget (no id), Nut
(id 3)]` is put into the inventory partition of a fresh open store. The put
of the second record throws and the promise is rejected, but the first
record has been stored and is visible to `getAll`; the third is not. -/
theorem C23_failing_put_keeps_earlier :
    (saveToIndexedDB .inventory (.many missingIdRecords) (some Database.empty)).1 =
      .error .dataError ∧
    getFromIndexedDB .inventory
        (saveToIndexedDB .inventory (.many missingIdRecords) (some Database.empty)).2 =
      [product 1 "Bolt" "40"] ∧
    getFromIndexedDB .inventory (some Database.empty) = [] :=
  ⟨rfl, by decide, rfl⟩

/-! ## Service worker (C24, C25) -/

theorem mem_cachePut (request : Request) (response : Response)
    (cache : List (Request × Response)) : (request, response) ∈ cachePut request response cache := by
  simp [cachePut]

/-- C24 (network first, only successful GETs are cached). When the network
call of the worker succeeds, `handleApiRequest` returns the network response
itself, whatever the caches hold; if the response is `ok` and the method is
`GET`, the pair is put into the API cache (the asset cache is unchanged);
otherwise both caches are unchanged. -/
theorem C24_network_first (response : Response) (request : Request) (caches : CacheStorage) :
    (handleApiRequest (some response) request caches).1 = response ∧
    (response.ok = true ∧ request.method = "GET" →
      (handleApiRequest (some response) request caches).2.api =
        cachePut request response caches.api ∧
      (request, response) ∈ (handleApiRequest (some response) request caches).2.api ∧
      (handleApiRequest (some response) request caches).2.assets = caches.assets) ∧
    (¬ (response.ok = true ∧ request.method = "GET") →
      (handleApiRequest (some response) request caches).2 = caches) := by
  by_cases h : response.ok = true ∧ request.method = "GET"
  · refine ⟨by simp [handleApiRequest, h], fun _ => ?_, fun hn => absurd h hn⟩
    have e : handleApiRequest (some response) request caches =
        (response, { caches with api := cachePut request response caches.api }) := by
      simp [handleApiRequest, h]
    rw [e]
    exact ⟨rfl, mem_cachePut request response caches.api, rfl⟩
  · refine ⟨by simp [handleApiRequest, h], fun hp => absurd hp h, fun _ => ?_⟩
    simp [handleApiRequest, h]

/-- C25 (the offline fallback always answers). When the network call of the
worker fails, `handleApiRequest` returns the cached response for the request
if the caches hold one, and otherwise the response with status 503, not `ok`,
whose JSON body has `success = false` and `offline = true`; the caches are
unchanged, and the function yields a response in every case. -/
theorem C25_offline_fallback (request : Request) (caches : CacheStorage) :
    (∀ cached, caches.matchRequest request = some cached →
      handleApiRequest none request caches = (cached, caches)) ∧
    (caches.matchRequest request = none →
      handleApiRequest none request caches =
        ({ status := 503,
           body := .offlineJson false "Offline - data may not be current" true }, caches) ∧
      (handleApiRequest none request caches).1.ok = false ∧
      (handleApiRequest none request caches).1.body.read =
        .result false "Offline - data may not be current" "" "") ∧
    (request.method ≠ "GET" → caches.matchRequest request = none) := by
  refine ⟨?_, ?_, ?_⟩
  · intro cached h
    simp [handleApiRequest, h]
  · intro h
    have e : handleApiRequest none request caches =
        ({ status := 503,
           body := .offlineJson false "Offline - data may not be current" true }, caches) := by
      simp [handleApiRequest, h]
    rw [e]
    exact ⟨rfl, rfl, rfl⟩
  · intro h
    simp [CacheStorage.matchRequest, h]

/-! ## The badge after the online event (C26) -/

theorem replayLoop_syncStatus (env : Env) (pending : List QueuedOp) (s : App) :
    (replayLoop env pending s).syncStatus = s.syncStatus := by
  induction pending generalizing s with
  | nil => rfl
  | cons op rest ih =>
    unfold replayLoop
    simp only [App.fetch]
    cases env.net s.log (replayRequest op) with
    | rejected => simp [ih]
    | response ok body => cases ok <;> simp [ih]

theorem updateSyncStatus_some (m st : String) (s : App) (b : Badge) (h : s.syncStatus = some b) :
    (updateSyncStatus m st s).syncStatus =
      some (if st = "offline" then .offline else if st = "syncing" then .syncing m
            else if st = "synced" then .online else .blank) := by
  unfold updateSyncStatus
  rw [h]
  simp only
  split_ifs <;> rfl

theorem onOnline_idle (env : Env) (s : App) (b : Badge) (hb : s.syncStatus = some b)
    (hp : getPendingSyncOperations s.db = []) :
    (onOnline env s).syncStatus = some (.syncing "Syncing...") := by
  unfold onOnline syncOfflineChanges
  simp only [updateSyncStatus_db, hp, List.length_nil, if_true]
  rw [updateSyncStatus_some _ _ s b hb]
  rfl

theorem onOnline_pending (env : Env) (s : App) (b : Badge) (hb : s.syncStatus = some b)
    (hp : getPendingSyncOperations s.db ≠ []) :
    (onOnline env s).syncStatus = some .online := by
  unfold onOnline syncOfflineChanges
  have hlen : ¬ (getPendingSyncOperations s.db).length = 0 := fun h =>
    hp (List.length_eq_zero.mp h)
  simp only [updateSyncStatus_db, hlen, if_false, App.spawn]
  have h1 := updateSyncStatus_some "Syncing..." "syncing" s b hb
  have h2 := updateSyncStatus_some
    ("Syncing " ++ toString (getPendingSyncOperations s.db).length ++ " changes...") "syncing"
    (updateSyncStatus "Syncing..." "syncing" s) _ h1
  have h3 : (replayLoop env (getPendingSyncOperations s.db)
      (updateSyncStatus
        ("Syncing " ++ toString (getPendingSyncOperations s.db).length ++ " changes...")
        "syncing" (updateSyncStatus "Syncing..." "syncing" s))).syncStatus = _ :=
    (replayLoop_syncStatus env _ _).trans h2
  rw [updateSyncStatus_some "" "synced" _ _ h3]
  rfl

/-- C26, at the failing inputs: the `online` event on a fresh open store (empty
queue), on a store whose only operation is already synced, and with `db`
unset. The listener sets the badge to `Syncing...`, `syncOfflineChanges`
returns at its early exit for an empty pending list, and the badge is left
at `Syncing...`; with a pending operation the badge ends as `Online`. -/
theorem C26_badge_stuck_on_syncing :
    (onOnline okEnv (App.start (some Database.empty))).syncStatus =
      some (.syncing "Syncing...") ∧
    (onOnline okEnv (App.start (some queueSyncedA))).syncStatus =
      some (.syncing "Syncing...") ∧
    (onOnline okEnv (App.start none)).syncStatus = some (.syncing "Syncing...") ∧
    (onOnline okEnv (App.start (some queueA))).syncStatus = some .online := by
  decide

/-! ## Empty results on the read paths (C27) -/

theorem saveToIndexedDB_nil (p : Partition) (db : Option Database) :
    saveToIndexedDB p (.many []) db = (.ok (), db) := by
  cases db with
  | none => rfl
  | some d => simp only [saveToIndexedDB, putAll, setPart_part_self]

theorem loadInventory_zero (env : Env) (s : App) (ok : Bool)
    (h : ∀ req, env.net s.log req = .response ok (.records [])) :
    (loadInventory env s).inventoryTable = .message "No items in inventory" ∧
    (loadInventory env s).db = s.db := by
  unfold loadInventory
  simp [App.fetch, h, Body.toData, saveToIndexedDB_nil]

theorem loadSalesHistory_zero (env : Env) (s : App) (ok : Bool)
    (h : ∀ req, env.net s.log req = .response ok (.records [])) :
    (loadSalesHistory env s).salesTable = .message "No sales recorded" ∧
    (loadSalesHistory env s).db = s.db := by
  unfold loadSalesHistory
  simp [App.fetch, h, Body.toData, saveToIndexedDB_nil, salesRenderable]

theorem loadExpenses_zero (env : Env) (s : App) (ok : Bool)
    (h : ∀ req, env.net s.log req = .response ok (.records [])) :
    (loadExpenses env s).expensesTable = .message "No expenses recorded" ∧
    (loadExpenses env s).db = s.db := by
  unfold loadExpenses
  simp [App.fetch, h, Body.toData, saveToIndexedDB_nil]

theorem loadInventory_no_cache (env : Env) (s : App)
    (h : ∀ log req, env.net log req = .rejected)
    (hempty : getFromIndexedDB .inventory s.db = []) :
    (loadInventory env s).inventoryTable = .message "No cached inventory available" := by
  unfold loadInventory
  simp [App.fetch, h, loadInventoryFallback, hempty, showNotification]

theorem loadSalesHistory_no_cache (env : Env) (s : App)
    (h : ∀ log req, env.net log req = .rejected)
    (hempty : getFromIndexedDB .sales s.db = []) :
    (loadSalesHistory env s).salesTable = .message "No cached sales available" := by
  unfold loadSalesHistory
  simp [App.fetch, h, loadSalesHistoryFallback, hempty]

theorem loadExpenses_no_cache (env : Env) (s : App)
    (h : ∀ log req, env.net log req = .rejected)
    (hempty : getFromIndexedDB .expenses s.db = []) :
    (loadExpenses env s).expensesTable = .message "No cached expenses available" := by
  unfold loadExpenses
  simp [App.fetch, h, loadExpensesFallback, hempty]

/-- C27, refuted as stated: on a fresh open store the read of the inventory
succeeds with an empty collection, which is shown as `No items in inventory`;
the next read fails, and although the last successful mirror was of an empty
collection the table shows `No cached inventory available`. -/
theorem C27_counterexample :
    (loadInventory emptyEnv (App.start (some Database.empty))).inventoryTable =
      .message "No items in inventory" ∧
    (loadInventory emptyEnv (App.start (some Database.empty))).notifications = [] ∧
    (loadInventory offlineEnv
        (loadInventory emptyEnv (App.start (some Database.empty)))).inventoryTable =
      .message "No cached inventory available" := by
  decide

/-- C27 as amended. On the three read paths with fallback: when the server
confirms zero records the table shows `No items in inventory`, `No sales
recorded`, `No expenses recorded`; when the read fails and the partition
holds no record the table shows `No cached inventory available`, `No cached
sales available`, `No cached expenses available`, which are different
messages; and the `No cached` message is shown whenever the partition holds
no record at the failed read, also right after a successful read of an
empty collection. -/
theorem C27_empty_results (envZero envFail : Env) (s : App) (ok : Bool)
    (hzero : ∀ req, envZero.net s.log req = .response ok (.records []))
    (hfail : ∀ log req, envFail.net log req = .rejected) :
    ((loadInventory envZero s).inventoryTable = .message "No items in inventory" ∧
      (∀ s1, getFromIndexedDB .inventory s1.db = [] →
        (loadInventory envFail s1).inventoryTable = .message "No cached inventory available") ∧
      (getFromIndexedDB .inventory s.db = [] →
        (loadInventory envFail (loadInventory envZero s)).inventoryTable =
          .message "No cached inventory available")) ∧
    ((loadSalesHistory envZero s).salesTable = .message "No sales recorded" ∧
      (∀ s1, getFromIndexedDB .sales s1.db = [] →
        (loadSalesHistory envFail s1).salesTable = .message "No cached sales available") ∧
      (getFromIndexedDB .sales s.db = [] →
        (loadSalesHistory envFail (loadSalesHistory envZero s)).salesTable =
          .message "No cached sales available")) ∧
    ((loadExpenses envZero s).expensesTable = .message "No expenses recorded" ∧
      (∀ s1, getFromIndexedDB .expenses s1.db = [] →
        (loadExpenses envFail s1).expensesTable = .message "No cached expenses available") ∧
      (getFromIndexedDB .expenses s.db = [] →
        (loadExpenses envFail (loadExpenses envZero s)).expensesTable =
          .message "No cached expenses available")) ∧
    Table.message "No items in inventory" ≠ .message "No cached inventory available" ∧
    Table.message "No sales recorded" ≠ .message "No cached sales available" ∧
    Table.message "No expenses recorded" ≠ .message "No cached expenses available" := by
  refine ⟨⟨?_, ?_, ?_⟩, ⟨?_, ?_, ?_⟩, ⟨?_, ?_, ?_⟩, by decide, by decide, by decide⟩
  · exact (loadInventory_zero envZero s ok hzero).1
  · intro s1 h1
    exact loadInventory_no_cache envFail s1 hfail h1
  · intro h1
    apply loadInventory_no_cache envFail _ hfail
    rw [(loadInventory_zero envZero s ok hzero).2]
    exact h1
  · exact (loadSalesHistory_zero envZero s ok hzero).1
  · intro s1 h1
    exact loadSalesHistory_no_cache envFail s1 hfail h1
  · intro h1
    apply loadSalesHistory_no_cache envFail _ hfail
    rw [(loadSalesHistory_zero envZero s ok hzero).2]
    exact h1
  · exact (loadExpenses_zero envZero s ok hzero).1
  · intro s1 h1
    exact loadExpenses_no_cache envFail s1 hfail h1
  · intro h1
    apply loadExpenses_no_cache envFail _ hfail
    rw [(loadExpenses_zero envZero s ok hzero).2]
    exact h1

/-- C27 as amended, on a fresh open store. -/
theorem C27_empty_results_witness :
    (∀ req, emptyEnv.net (App.start (some Database.empty)).log req =
      .response true (.records [])) ∧
    (∀ log req, offlineEnv.net log req = .rejected) ∧
    (loadSalesHistory emptyEnv (App.start (some Database.empty))).salesTable =
      .message "No sales recorded" ∧
    (getFromIndexedDB .expenses (App.start (some Database.empty)).db = [] →
      (loadExpenses offlineEnv
          (loadExpenses emptyEnv (App.start (some Database.empty)))).expensesTable =
        .message "No cached expenses available") :=
  ⟨fun _ => rfl, fun _ _ => rfl,
    (C27_empty_results emptyEnv offlineEnv (App.start (some Database.empty)) true
      (fun _ => rfl) (fun _ _ => rfl)).2.1.1,
    (C27_empty_results emptyEnv offlineEnv (App.start (some Database.empty)) true
      (fun _ => rfl) (fun _ _ => rfl)).2.2.1.2.2⟩

/-! ## Writes told to be saved while the store is unset (C28) -/

theorem entryFormCatch_unset (env : Env) (payload : Payload) (s : App)
    (hoff : env.onLine = false) (hdb : s.db = none) :
    (entryFormCatch env payload s).banner =
      some ⟨"Entry saved offline - will sync when online", "info"⟩ ∧
    (entryFormCatch env payload s).db = none := by
  simp [entryFormCatch, hoff, hdb, addToSyncQueue, banner_updateSyncStatus,
    banner_showNotification, updateSyncStatus_db, showNotification_db]

/-- C28, failing input: the local store failed to open (`db` unset), the
browser is offline and the call is rejected. Each of the four queueing
handlers tells the user the write was saved offline, and the store is still
unset afterwards: no pending operation exists for the write. -/
theorem C28_saved_offline_without_queue :
    ((entryFormSubmit offlineEnv widgetEntry (App.start none)).banner =
        some ⟨"Entry saved offline - will sync when online", "info"⟩ ∧
      (entryFormSubmit offlineEnv widgetEntry (App.start none)).db = none ∧
      getPendingSyncOperations (entryFormSubmit offlineEnv widgetEntry (App.start none)).db
        = []) ∧
    ((⟨"Update saved offline - will sync when online", "info"⟩ : Notification) ∈
        (reorderFormSubmit offlineEnv widgetReorder (App.start none)).notifications ∧
      (reorderFormSubmit offlineEnv widgetReorder (App.start none)).db = none ∧
      getPendingSyncOperations (reorderFormSubmit offlineEnv widgetReorder (App.start none)).db
        = []) ∧
    ((expenseFormSubmit offlineEnv fuelExpense (App.start none)).banner =
        some ⟨"Expense saved offline - will sync when online", "info"⟩ ∧
      (expenseFormSubmit offlineEnv fuelExpense (App.start none)).db = none ∧
      getPendingSyncOperations (expenseFormSubmit offlineEnv fuelExpense (App.start none)).db
        = []) ∧
    ((saleFormSubmit offlineWritesEnv widgetSale (App.start none)).banner =
        some ⟨"Sale saved offline - will sync when online", "info"⟩ ∧
      (saleFormSubmit offlineWritesEnv widgetSale (App.start none)).db = none ∧
      getPendingSyncOperations (saleFormSubmit offlineWritesEnv widgetSale (App.start none)).db
        = []) := by
  decide

/-! ## The entry form behind the service worker (C29) -/

theorem behindServiceWorker_unreachable_post (caches : CacheStorage) (log : List Request)
    (body : Option Payload) :
    behindServiceWorker (fun _ _ => none) caches log
        { url := "/api/add-entry", method := "POST", body := body } =
      .response false (.result false "Offline - data may not be current" "" "") := by
  have hinc : includes "/api/add-entry" "/api/" = true := by decide
  simp [behindServiceWorker, onFetch, hinc, handleApiRequest, CacheStorage.matchRequest,
    Response.ok, ResponseBody.read]

theorem entryFormSubmit_behind_worker (env : Env) (caches : CacheStorage) (f : EntryForm)
    (s : App) (hnet : env.net = behindServiceWorker (fun _ _ => none) caches)
    (hvalid : ¬ (f.name = "" ∨ numLe f.quantity 0)) :
    entryFormSubmit env f s = showNotification "" "error" (s.logged f.request) := by
  unfold entryFormSubmit
  rw [if_neg hvalid]
  simp only [App.fetch, hnet, behindServiceWorker_unreachable_post]
  rfl

/-- C29, failing input: the browser is offline, the network is unreachable
and the service worker controls the page. The entry form for `Widget`,
quantity 5, issues its call; the worker answers it with the 503 object, the
handler shows an error banner with an empty text and the sync queue is as
empty as before: the write is not enqueued. Without the worker the same
submit enqueues it. -/
theorem C29_worker_hides_failure :
    offlineBehindWorkerEnv.net [] widgetEntry.request =
      .response false (.result false "Offline - data may not be current" "" "") ∧
    (entryFormSubmit offlineBehindWorkerEnv widgetEntry
        (App.start (some Database.empty))).log = [widgetEntry.request] ∧
    (entryFormSubmit offlineBehindWorkerEnv widgetEntry
        (App.start (some Database.empty))).notifications = [⟨"", "error"⟩] ∧
    (entryFormSubmit offlineBehindWorkerEnv widgetEntry
        (App.start (some Database.empty))).db = some Database.empty ∧
    getPendingSyncOperations (entryFormSubmit offlineBehindWorkerEnv widgetEntry
        (App.start (some Database.empty))).db = [] ∧
    (getPendingSyncOperations (entryFormSubmit offlineEnv widgetEntry
        (App.start (some Database.empty))).db).map QueuedOp.data = [widgetEntry.payload] := by
  decide

/-! ## Validation of the entry form (C30) -/

theorem entryFormSubmit_nan_issues_call (env : Env) (f : EntryForm) (s : App)
    (hname : f.name ≠ "") (hnan : f.quantity = none) :
    (entryFormSubmit env f s).log = s.log ++ [f.request] := by
  have hvalid : ¬ (f.name = "" ∨ numLe f.quantity 0) := by
    simp [hname, hnan, numLe]
  unfold entryFormSubmit
  rw [if_neg hvalid]
  simp only [App.fetch]
  generalize env.net s.log _ = out
  cases out with
  | rejected =>
    simp only [entryFormCatch]
    split
    · rw [updateSyncStatus_log]
      rfl
    · rfl
  | response ok body =>
    cases body with
    | unparsable =>
      simp only [entryFormCatch]
      split
      · rw [updateSyncStatus_log]
        rfl
      · rfl
    | result success message error sale_num =>
      cases success <;> rfl
    | records rs => rfl

/-- C30, failing input: the name is `Widget` and the quantity field is left
empty, so `parseInt` gives `NaN`. The handler does not reject the form: it
issues the call with the quantity `NaN`, and when the browser is offline it
enqueues that write. The quantity 0 is rejected with `Please fill in all
fields correctly` and issues no call. -/
theorem C30_nan_quantity_passes :
    (entryFormSubmit okEnv nanEntry (App.start (some Database.empty))).log =
      [{ url := "/api/add-entry", method := "POST",
         body := some (.entry "Widget" "" none "Intake") }] ∧
    (entryFormSubmit okEnv nanEntry (App.start (some Database.empty))).notifications =
      [⟨"ok", "success"⟩] ∧
    (getPendingSyncOperations (entryFormSubmit offlineEnv nanEntry
        (App.start (some Database.empty))).db).map QueuedOp.data =
      [.entry "Widget" "" none "Intake"] ∧
    (entryFormSubmit okEnv { nanEntry with quantity := some 0 }
        (App.start (some Database.empty))).log = [] ∧
    (entryFormSubmit okEnv { nanEntry with quantity := some 0 }
        (App.start (some Database.empty))).notifications =
      [⟨"Please fill in all fields correctly", "error"⟩] := by
  decide

end InventoryApp
